import Mathlib

/-!
Verification development for the Shopify backend's channel reconciliation and
sync engine (`ProductService`, `ShopifyService`, `JobQueueService`) and the
`POST /shopify/import` route handler.

The TypeScript services are embedded shallowly: the Postgres tables become
lists of rows inside a `DB` structure, the remote Shopify shop becomes a
`ShopifyStore` value, and every service method becomes a Lean function that
threads the state explicitly.  Thrown JavaScript exceptions become
`Except String` results; because the sequential database writes are not
wrapped in a transaction, a method that throws midway still returns the
partially written state, exactly as the running system would leave it.
-/

/-- JavaScript `String.prototype.trim`: leading and trailing whitespace
removed, written on the character list. -/
def strTrim (s : String) : String :=
  String.mk (((s.data.dropWhile Char.isWhitespace).reverse.dropWhile
    Char.isWhitespace).reverse)

/-- JavaScript `x?.trim() || d`: the string is trimmed first and the trimmed
value falls back to the default when it is empty or the field is absent. -/
def jsTrimOr (x : Option String) (d : String) : String :=
  match x with
  | some s => if strTrim s = "" then d else strTrim s
  | none => d

/-- JavaScript `x || d` on an optional string: absent and empty are falsy. -/
def jsStrOr (x : Option String) (d : String) : String :=
  match x with
  | some s => if s = "" then d else s
  | none => d

/-- A product variant as delivered by the remote channel (the `any`-typed
Shopify payload); every field the services touch may be absent. -/
structure RemoteVariant where
  id : Option Nat
  sku : Option String := none
  title : Option String := none
  price : Option String := none
  weight : Option String := none
  inventory_quantity : Option Int := none
  inventory_item_id : Option Nat := none
  deriving Repr, DecidableEq

/-- A remote Shopify product payload. -/
structure RemoteProduct where
  id : Option Nat
  title : Option String := none
  body_html : Option String := none
  product_type : Option String := none
  vendor : Option String := none
  variants : List RemoteVariant := []
  deriving Repr, DecidableEq

/-- The state of the remote Shopify shop as seen through `ShopifyService`:
whether the API client was initialized from the environment, the product
catalog, the shop's locations, and the inventory level stored per
`inventory_item_id`. -/
structure ShopifyStore where
  initialized : Bool
  products : List RemoteProduct := []
  locations : List Nat := []
  inventoryLevels : List (Nat × Int) := []
  nextId : Nat := 1000
  deriving Repr, DecidableEq

/-- Look up a remote variant by the decimal string of its id, across all
products, mirroring `shopify.productVariant.get(parseInt(variantId))`. -/
def findRemoteVariantByIdStr (s : ShopifyStore) (vid : String) : Option RemoteVariant :=
  (s.products.flatMap (·.variants)).find? (fun v => v.id.map toString == some vid)

/-- ShopifyService.validateVariant: returns `true` when the variant lookup
succeeds and `false` on every thrown error, including the
`checkShopifyInitialized` error of an uninitialized client. -/
def validateVariant (s : ShopifyStore) (vid : String) : Bool :=
  s.initialized && (findRemoteVariantByIdStr s vid).isSome

/-- The `{quantity, available, reserved}` triple returned by
`ShopifyService.getProductInventory`. -/
structure InventoryInfo where
  quantity : Int
  available : Int
  reserved : Int
  deriving Repr, DecidableEq

/-- ShopifyService.getProductInventory: fetches the product, finds the
variant, and reads the first matching inventory level, falling back to the
variant's own `inventory_quantity`; every error path returns `null`.  The
`reserved` component is hard-coded to `0` ("Shopify doesn't provide reserved
inventory directly"). -/
def getProductInventory (s : ShopifyStore) (pid vid : String) : Option InventoryInfo :=
  if !s.initialized then none
  else
    match s.products.find? (fun p => p.id.map toString == some pid) with
    | none => none
    | some p =>
      match p.variants.find? (fun v => v.id.map toString == some vid) with
      | none => none
      | some v =>
        match v.inventory_item_id.bind
            (fun iid => s.inventoryLevels.find? (fun l => l.1 == iid)) with
        | some l => some { quantity := l.2, available := l.2, reserved := 0 }
        | none =>
          match v.inventory_quantity with
          | some q => some { quantity := q, available := q, reserved := 0 }
          | none => none

/-- Overwrite (or create) the level stored for one `inventory_item_id`,
mirroring `shopify.inventoryLevel.set`. -/
def setLevel (ls : List (Nat × Int)) (iid : Nat) (q : Int) : List (Nat × Int) :=
  if ls.any (fun l => l.1 == iid) then
    ls.map (fun l => if l.1 == iid then (iid, q) else l)
  else ls ++ [(iid, q)]

/-- ShopifyService.updateProductInventory: fails when the client is not
initialized, the variant does not exist, the shop has no location
(`locations[0]` of an empty list throws), or the variant carries no
`inventory_item_id`; otherwise sets the level to the given quantity. -/
def updateProductInventory (s : ShopifyStore) (vid : String) (qty : Int) :
    Except String ShopifyStore :=
  if !s.initialized then
    .error "Shopify service not initialized"
  else
    match findRemoteVariantByIdStr s vid with
    | none => .error ("Variant " ++ vid ++ " not found in Shopify")
    | some v =>
      if s.locations.isEmpty then .error "no primary location"
      else
        match v.inventory_item_id with
        | none => .error "variant has no inventory item"
        | some iid => .ok { s with inventoryLevels := setLevel s.inventoryLevels iid qty }

/-- The payload `deployToShopify` sends to the remote create call. -/
structure DeployVariantPayload where
  title : String
  price : String
  sku : String
  weight : String
  deriving Repr, DecidableEq

/-- The product payload of the remote create call. -/
structure DeployPayload where
  title : String
  variants : List DeployVariantPayload
  deriving Repr, DecidableEq

/-- ShopifyService.createProduct: fails when the client is not initialized;
otherwise the remote shop stores the new product and assigns fresh remote
identifiers, returned to the caller in the order of the payload's variants. -/
def createProduct (s : ShopifyStore) (pd : DeployPayload) :
    Except String (RemoteProduct × ShopifyStore) :=
  if !s.initialized then
    .error "Shopify API error: service not initialized"
  else
    let pid := s.nextId
    let n := pd.variants.length
    let created : RemoteProduct :=
      { id := some pid
        title := some pd.title
        variants := pd.variants.enum.map (fun vi =>
          { id := some (pid + 1 + vi.1)
            sku := some vi.2.sku
            title := some vi.2.title
            price := some vi.2.price
            weight := some vi.2.weight
            inventory_quantity := some 0
            inventory_item_id := some (pid + 1 + n + vi.1) }) }
    .ok (created, { s with
      products := s.products ++ [created]
      nextId := pid + 1 + 2 * n })

/-- ShopifyService.getProducts: lists up to `limit` remote products; throws
when the client is not initialized. -/
def getProducts (s : ShopifyStore) (limit : Nat) : Except String (List RemoteProduct) :=
  if !s.initialized then .error "Shopify API error: service not initialized"
  else .ok (s.products.take limit)

/-- A row of the `products` table. -/
structure ProductRow where
  id : Nat
  sku : String
  name : String
  description : String := ""
  category : String := "Uncategorized"
  brand : String := "Unknown"
  basePrice : String := "0.00"
  status : String
  deriving Repr, DecidableEq

/-- A row of the `product_variants` table. -/
structure VariantRow where
  id : Nat
  productId : Nat
  sku : String
  name : String
  price : String := "0"
  weight : String := "0"
  deriving Repr, DecidableEq

/-- A row of the `inventory` table: one InventoryRecord per
(variantId, channel) pair.  `lastSyncAt` is a logical timestamp. -/
structure InventoryRecord where
  id : Nat
  variantId : Nat
  channel : String
  channelProductId : Option String := none
  quantity : Int
  available : Int
  reserved : Int := 0
  lastSyncAt : Nat
  deriving Repr, DecidableEq

/-- A row of the `channel_mappings` table. -/
structure ChannelMapping where
  id : Nat
  productId : Nat
  variantId : Nat
  channel : String
  channelProductId : Option String := none
  channelVariantId : Option String := none
  syncStatus : String
  lastSyncAt : Nat
  deriving Repr, DecidableEq

/-- A row of the append-only `sync_logs` table. -/
structure SyncLogEntry where
  channel : String
  operation : String
  productId : Option Nat := none
  status : String
  message : String
  deriving Repr, DecidableEq

/-- The catalog store: the five tables plus a fresh-id counter standing for
the serial primary keys. -/
structure DB where
  products : List ProductRow := []
  variants : List VariantRow := []
  inventory : List InventoryRecord := []
  mappings : List ChannelMapping := []
  syncLogs : List SyncLogEntry := []
  nextId : Nat := 1
  deriving Repr, DecidableEq

/-- The empty catalog store. -/
def emptyDB : DB := {}

/-- Append a SyncLogEntry (the `db.insert(syncLogs)` statements). -/
def appendLog (db : DB) (e : SyncLogEntry) : DB :=
  { db with syncLogs := db.syncLogs ++ [e] }

/-- The `products` table of the staged Drizzle schema
(`src/src/db/connection.ts`, the concatenated `schema.ts`): `sku` carries
`.unique()`, so the insert rejects a duplicate SKU the way the database
would; `id` is the serial primary key. -/
def insertProductRow (db : DB) (r : ProductRow) : Except String (Nat × DB) :=
  if db.products.any (fun q => q.sku == r.sku) then
    .error "duplicate key value violates unique constraint"
  else
    .ok (db.nextId, { db with
      products := db.products ++ [{ r with id := db.nextId }]
      nextId := db.nextId + 1 })

/-- The `product_variants` table of the staged schema: `sku` carries
`.unique()`, so a duplicate variant SKU is rejected. -/
def insertVariantRow (db : DB) (r : VariantRow) : Except String (Nat × DB) :=
  if db.variants.any (fun q => q.sku == r.sku) then
    .error "duplicate key value violates unique constraint"
  else
    .ok (db.nextId, { db with
      variants := db.variants ++ [{ r with id := db.nextId }]
      nextId := db.nextId + 1 })

/-- The `inventory` table of the staged schema: the unique
`channel_variant_idx` on `(variantId, channel)` rejects a duplicate pair, and
`reserved` defaults to 0 when the insert omits it (the structure default,
mirroring `.default(0)`). -/
def insertInventoryRecord (db : DB) (r : InventoryRecord) : Except String (Nat × DB) :=
  if db.inventory.any (fun q => q.variantId == r.variantId && q.channel == r.channel) then
    .error "duplicate key value violates unique constraint"
  else
    .ok (db.nextId, { db with
      inventory := db.inventory ++ [{ r with id := db.nextId }]
      nextId := db.nextId + 1 })

/-- The `channel_mappings` table of the staged schema: unlike `inventory`,
it declares no unique index — only the serial primary key — so the insert
always succeeds, and a second mapping for the same `(variantId, channel)`
pair is committed.  (The spec's "at most one mapping per (variantId,
channel)" has no backing constraint.)  The `Except` shape is kept to mirror
the awaited call sites. -/
def insertChannelMapping (db : DB) (r : ChannelMapping) : Except String (Nat × DB) :=
  .ok (db.nextId, { db with
    mappings := db.mappings ++ [{ r with id := db.nextId }]
    nextId := db.nextId + 1 })

/-- An UPDATE on the inventory table: rewrite every row matching the filter. -/
def updateInventoryRows (db : DB) (p : InventoryRecord → Bool)
    (f : InventoryRecord → InventoryRecord) : DB :=
  { db with inventory := db.inventory.map (fun r => if p r then f r else r) }

/-- An UPDATE on the channel_mappings table. -/
def updateMappingRows (db : DB) (p : ChannelMapping → Bool)
    (f : ChannelMapping → ChannelMapping) : DB :=
  { db with mappings := db.mappings.map (fun r => if p r then f r else r) }

/-- An UPDATE on the products table. -/
def updateProductRows (db : DB) (p : ProductRow → Bool)
    (f : ProductRow → ProductRow) : DB :=
  { db with products := db.products.map (fun r => if p r then f r else r) }

/-- An UPDATE on the product_variants table. -/
def updateVariantRows (db : DB) (p : VariantRow → Bool)
    (f : VariantRow → VariantRow) : DB :=
  { db with variants := db.variants.map (fun r => if p r then f r else r) }

/-- The validation at the head of `importFromShopify`: a missing (or, by
JavaScript truthiness, zero) product id and a missing (or empty) title each
throw.  Returns the accepted remote id. -/
def importValidate (sp : RemoteProduct) : Except String Nat :=
  match sp.id with
  | none => .error "Invalid Shopify product data: missing product ID"
  | some i =>
    if i = 0 then .error "Invalid Shopify product data: missing product ID"
    else
      match sp.title with
      | none => .error ("Invalid Shopify product data: missing title for product " ++ toString i)
      | some t =>
        if t = "" then
          .error ("Invalid Shopify product data: missing title for product " ++ toString i)
        else .ok i

/-- The safe product SKU of `importFromShopify`: the first variant's SKU,
or `SHOPIFY-<id>` when that is absent or blank. -/
def importSku (sp : RemoteProduct) (spId : Nat) : String :=
  match sp.variants.head?.bind (·.sku) with
  | some s => if strTrim s = "" then "SHOPIFY-" ++ toString spId else s
  | none => "SHOPIFY-" ++ toString spId

/-- The safe variant SKU of `importFromShopify`: the variant's own SKU, or
`<product-sku>-<variant-id>` when absent or blank. -/
def importVariantSku (psku : String) (vId : Nat) (sku : Option String) : String :=
  match sku with
  | some s => if strTrim s = "" then psku ++ "-" ++ toString vId else s
  | none => psku ++ "-" ++ toString vId

/-- The per-variant loop body of `importFromShopify`: variants without an id
are skipped; otherwise the variant row, its Shopify and internal
InventoryRecords (quantity and available both set to `inventory_quantity || 0`,
the Shopify record's `reserved` left to its column default) and the
ChannelMapping with `syncStatus = "synced"` are inserted in sequence.  A
thrown insert error stops the loop, leaving the rows already written. -/
def importVariants (now pid : Nat) (psku spIdStr : String) :
    List RemoteVariant → DB → Option String × DB
  | [], db => (none, db)
  | v :: rest, db =>
    match v.id with
    | none => importVariants now pid psku spIdStr rest db
    | some vId =>
      if vId = 0 then importVariants now pid psku spIdStr rest db
      else
        let vsku := importVariantSku psku vId v.sku
        let vname := jsTrimOr v.title ("Variant " ++ toString vId)
        match insertVariantRow db
            { id := 0, productId := pid, sku := vsku, name := vname
              price := jsStrOr v.price "0", weight := jsStrOr v.weight "0" } with
        | .error e => (some e, db)
        | .ok (newVid, db1) =>
          let iq : Int := (v.inventory_quantity).getD 0
          match insertInventoryRecord db1
              { id := 0, variantId := newVid, channel := "shopify"
                channelProductId := some spIdStr
                quantity := iq, available := iq, lastSyncAt := now } with
          | .error e => (some e, db1)
          | .ok (_, db2) =>
            match insertInventoryRecord db2
                { id := 0, variantId := newVid, channel := "internal"
                  channelProductId := none
                  quantity := iq, available := iq, reserved := 0, lastSyncAt := now } with
            | .error e => (some e, db2)
            | .ok (_, db3) =>
              match insertChannelMapping db3
                  { id := 0, productId := pid, variantId := newVid, channel := "shopify"
                    channelProductId := some spIdStr
                    channelVariantId := some (toString vId)
                    syncStatus := "synced", lastSyncAt := now } with
              | .error e => (some e, db3)
              | .ok (_, db4) => importVariants now pid psku spIdStr rest db4

/-- ProductService.importFromShopify: validates the payload, creates the
product, then per variant the variant row, both InventoryRecords and the
ChannelMapping; writes a success SyncLogEntry, or on any thrown error writes
a failed entry and rethrows, keeping whatever rows were already inserted. -/
def importFromShopify (db : DB) (now : Nat) (sp : RemoteProduct) :
    Except String Nat × DB :=
  match importValidate sp with
  | .error e =>
    (.error e, appendLog db
      { channel := "shopify", operation := "import", status := "failed"
        message := "Failed to import product: " ++ e })
  | .ok spId =>
    let psku := importSku sp spId
    match insertProductRow db
        { id := 0, sku := psku
          name := jsTrimOr sp.title ("Shopify Product " ++ toString spId)
          description := jsTrimOr sp.body_html ""
          category := jsTrimOr sp.product_type "Uncategorized"
          brand := jsTrimOr sp.vendor "Unknown"
          basePrice := jsStrOr (sp.variants.head?.bind (·.price)) "0.00"
          status := "active" } with
    | .error e =>
      (.error e, appendLog db
        { channel := "shopify", operation := "import", status := "failed"
          message := "Failed to import product: " ++ e })
    | .ok (pid, db1) =>
      match importVariants now pid psku (toString spId) sp.variants db1 with
      | (some e, db2) =>
        (.error e, appendLog db2
          { channel := "shopify", operation := "import", status := "failed"
            message := "Failed to import product: " ++ e })
      | (none, db2) =>
        (.ok pid, appendLog db2
          { channel := "shopify", operation := "import", productId := some pid
            status := "success", message := "Imported product from Shopify" })

/-- ProductService.markProductAsDeleted: the soft delete — flips the
product's status to `deleted` and logs a `delete_sync` entry. -/
def markProductAsDeleted (db : DB) (productId : Nat) : DB :=
  appendLog
    (updateProductRows db (fun p => p.id == productId)
      (fun p => { p with status := "deleted" }))
    { channel := "shopify", operation := "delete_sync", productId := some productId
      status := "success", message := "Product marked as deleted due to Shopify sync" }

/-- ProductService.ensureInternalInventoryExists: creates a zeroed
internal-channel InventoryRecord for every variant that lacks one. -/
def ensureInternalInventoryExists (db : DB) (now : Nat) : DB :=
  db.variants.foldl (fun acc v =>
    if acc.inventory.any (fun r => r.variantId == v.id && r.channel == "internal") then acc
    else { acc with
      inventory := acc.inventory ++
        [{ id := acc.nextId, variantId := v.id, channel := "internal"
           quantity := 0, available := 0, reserved := 0, lastSyncAt := now }]
      nextId := acc.nextId + 1 }) db

/-- The combined state seen by the reconciliation engine: the local catalog
store and the remote Shopify shop. -/
structure World where
  db : DB
  shop : ShopifyStore
  deriving Repr, DecidableEq

/-- The per-variant loop of `deployToShopify`, pairing each local variant
with the remote variant the create call returned at the same index: inserts
the ChannelMapping (syncStatus `synced`) and a zeroed Shopify
InventoryRecord.  A thrown insert error stops the loop. -/
def deployMappings (now productId : Nat) (pidStr : String) :
    List (VariantRow × RemoteVariant) → DB → Option String × DB
  | [], db => (none, db)
  | (v, sv) :: rest, db =>
    match sv.id with
    | none => (some "Cannot read properties of undefined", db)
    | some svid =>
      match insertChannelMapping db
          { id := 0, productId := productId, variantId := v.id, channel := "shopify"
            channelProductId := some pidStr, channelVariantId := some (toString svid)
            syncStatus := "synced", lastSyncAt := now } with
      | .error e => (some e, db)
      | .ok (_, db1) =>
        match insertInventoryRecord db1
            { id := 0, variantId := v.id, channel := "shopify"
              channelProductId := some pidStr
              quantity := 0, available := 0, lastSyncAt := now } with
        | .error e => (some e, db1)
        | .ok (_, db2) => deployMappings now productId pidStr rest db2

/-- The remote payload `deployToShopify` builds from the product's local
variants before the remote create call. -/
def deployPayload (db : DB) (product : ProductRow) : DeployPayload :=
  { title := product.name
    variants := (db.variants.filter (fun v => v.productId == product.id)).map (fun v =>
      { title := v.name, price := if v.price = "" then "0" else v.price
        sku := v.sku, weight := v.weight }) }

/-- ProductService.deployToShopify: builds the remote payload from the
product's variants, creates the product remotely, then persists one
ChannelMapping and one Shopify InventoryRecord per variant using the remote
identifiers.  Any thrown error is logged as a failed `export` SyncLogEntry
and rethrown; a failure of the remote create happens before any local row is
written. -/
def deployToShopify (w : World) (now : Nat) (product : ProductRow) :
    Except String RemoteProduct × World :=
  let vs := w.db.variants.filter (fun v => v.productId == product.id)
  match createProduct w.shop (deployPayload w.db product) with
  | .error e =>
    let entry : SyncLogEntry :=
      { channel := "shopify", operation := "export", productId := some product.id
        status := "failed", message := "Failed to deploy product: " ++ e }
    (.error e, { w with db := appendLog w.db entry })
  | .ok (created, shop1) =>
    match deployMappings now product.id (toString (created.id.getD 0))
        (vs.zip created.variants) w.db with
    | (some e, db1) =>
      let entry : SyncLogEntry :=
        { channel := "shopify", operation := "export", productId := some product.id
          status := "failed", message := "Failed to deploy product: " ++ e }
      (.error e, { db := appendLog db1 entry, shop := shop1 })
    | (none, db1) =>
      let entry : SyncLogEntry :=
        { channel := "shopify", operation := "export", productId := some product.id
          status := "success", message := "Deployed product to Shopify" }
      (.ok created, { db := appendLog db1 entry, shop := shop1 })

/-- The per-variant loop of `updateFromShopify`: a variant with no id makes
`variant.id.toString()` throw and the error is rethrown with the rows updated
so far; a variant with no ChannelMapping for this product on the shopify
channel is silently skipped; otherwise the variant row, every InventoryRecord
of that variant (both channels — the filter has no channel condition) and the
mapping's `lastSyncAt` are updated. -/
def updateVariantsLoop (now productId : Nat) :
    List RemoteVariant → DB → Option String × DB
  | [], db => (none, db)
  | v :: rest, db =>
    match v.id with
    | none => (some "Cannot read properties of undefined", db)
    | some vId =>
      match db.mappings.find? (fun m =>
          m.productId == productId && m.channel == "shopify" &&
          m.channelVariantId == some (toString vId)) with
      | none => updateVariantsLoop now productId rest db
      | some m =>
        let iq : Int := (v.inventory_quantity).getD 0
        let db1 := updateVariantRows db (fun q => q.id == m.variantId) (fun q =>
          { q with name := v.title.getD q.name
                   price := jsStrOr v.price "0", weight := jsStrOr v.weight "0" })
        let db2 := updateInventoryRows db1 (fun r => r.variantId == m.variantId) (fun r =>
          { r with quantity := iq, available := iq, lastSyncAt := now })
        let db3 := updateMappingRows db2 (fun q => q.id == m.id) (fun q =>
          { q with lastSyncAt := now })
        updateVariantsLoop now productId rest db3

/-- ProductService.updateFromShopify: updates the product row from the remote
payload (columns with an absent payload value are left untouched, as the ORM
skips undefined values), runs the variant loop, and writes a success
SyncLogEntry; when the product row does not exist the success logging throws
after the variant updates were already applied. -/
def updateFromShopify (db : DB) (now : Nat) (productId : Nat) (sp : RemoteProduct) :
    Except String Nat × DB :=
  let db1 := updateProductRows db (fun p => p.id == productId) (fun p =>
    { p with name := sp.title.getD p.name
             description := jsStrOr sp.body_html ""
             category := jsStrOr sp.product_type "Uncategorized"
             brand := jsStrOr sp.vendor "Unknown"
             basePrice := jsStrOr (sp.variants.head?.bind (·.price)) "0" })
  match updateVariantsLoop now productId sp.variants db1 with
  | (some e, db2) => (.error e, db2)
  | (none, db2) =>
    if db2.products.any (fun p => p.id == productId) then
      (.ok productId, appendLog db2
        { channel := "shopify", operation := "update", productId := some productId
          status := "success", message := "Updated product from Shopify" })
    else (.error "Cannot read properties of undefined", db2)

/-- The products-variants-mappings inner join of
`syncInventoryFromShopifyReadOnly`: the shopify-channel mappings whose
variant and product rows exist. -/
def shopifyJoinRows (db : DB) : List ChannelMapping :=
  db.mappings.filter (fun m =>
    m.channel == "shopify" &&
    db.variants.any (fun v =>
      v.id == m.variantId && db.products.any (fun p => p.id == v.productId)))

/-- The inventory overwrite of the read-only sync: quantity, available and
reserved are set from the fetched Shopify values (for an integer,
JavaScript's `reserved || 0` is the identity), and `lastSyncAt` is bumped. -/
def readOnlyWrite (inv : InventoryInfo) (now : Nat) (r : InventoryRecord) : InventoryRecord :=
  { r with quantity := inv.quantity, available := inv.available
           reserved := inv.reserved, lastSyncAt := now }

/-- One iteration of the read-only sync loop, threading
(synced, failed, db): mappings with a missing or empty remote id are skipped
without counting; a `null` inventory fetch counts as failed; otherwise both
the shopify-channel and the internal InventoryRecord of the variant are
overwritten and the item counts as synced. -/
def readOnlySyncStep (shop : ShopifyStore) (now : Nat) (acc : Nat × Nat × DB)
    (m : ChannelMapping) : Nat × Nat × DB :=
  match m.channelProductId, m.channelVariantId with
  | some pid, some vid =>
    if pid = "" || vid = "" then acc
    else
      match getProductInventory shop pid vid with
      | some inv =>
        let db1 := updateInventoryRows acc.2.2
          (fun r => r.variantId == m.variantId && r.channel == "shopify")
          (readOnlyWrite inv now)
        let db2 := updateInventoryRows db1
          (fun r => r.variantId == m.variantId && r.channel == "internal")
          (readOnlyWrite inv now)
        (acc.1 + 1, acc.2.1, db2)
      | none => (acc.1, acc.2.1 + 1, acc.2.2)
  | _, _ => acc

/-- The result object of the read-only sync. -/
structure ReadOnlySyncResult where
  success : Bool
  syncedFromShopify : Nat
  failedFromShopify : Nat
  total : Nat
  deriving Repr, DecidableEq

/-- ProductService.syncInventoryFromShopifyReadOnly: ensures internal
records exist, joins the shopify mappings, and for each one pulls the remote
inventory and overwrites the local records.  It writes nothing to the remote
channel and inserts no SyncLogEntry. -/
def syncInventoryFromShopifyReadOnly (db : DB) (shop : ShopifyStore) (now : Nat) :
    ReadOnlySyncResult × DB :=
  let db0 := ensureInternalInventoryExists db now
  let rows := shopifyJoinRows db0
  let acc := rows.foldl (readOnlySyncStep shop now) (0, 0, db0)
  ({ success := true, syncedFromShopify := acc.1, failedFromShopify := acc.2.1
     total := rows.length }, acc.2.2)

/-- One iteration of the pull phase of the bidirectional sync: copy a
shopify-channel row's quantity/available/reserved onto the variant's internal
row, when that internal row exists. -/
def pullStep (now : Nat) (acc : Nat × DB) (sItem : InventoryRecord) : Nat × DB :=
  match acc.2.inventory.find? (fun r =>
      r.variantId == sItem.variantId && r.channel == "internal") with
  | some internalItem =>
    (acc.1 + 1, updateInventoryRows acc.2 (fun r => r.id == internalItem.id) (fun r =>
      { r with quantity := sItem.quantity, available := sItem.available
               reserved := sItem.reserved, lastSyncAt := now }))
  | none => acc

/-- The counters threaded through the push phase of the bidirectional sync,
together with the evolving world. -/
structure PushState where
  syncedToShopify : Nat := 0
  failedToShopify : Nat := 0
  skippedToShopify : Nat := 0
  w : World
  deriving Repr, DecidableEq

/-- One iteration of the push phase, for one internal-channel snapshot item:
without a shopify-channel record nothing happens; without a mapping or a
usable `channelVariantId` the item is skipped; a failed remote existence
check flips the mapping to `failed` and counts the item as skipped; a thrown
remote inventory update flips the mapping to `failed` and counts it as
failed; otherwise the remote level is set, the local shopify record is
overwritten from the internal item, and the mapping becomes `synced`. -/
def pushStep (now : Nat) (st : PushState) (item : InventoryRecord) : PushState :=
  match st.w.db.inventory.find? (fun r =>
      r.variantId == item.variantId && r.channel == "shopify") with
  | none => st
  | some shopItem =>
    match st.w.db.mappings.find? (fun m =>
        m.variantId == item.variantId && m.channel == "shopify") with
    | none => { st with skippedToShopify := st.skippedToShopify + 1 }
    | some m =>
      match m.channelVariantId with
      | none => { st with skippedToShopify := st.skippedToShopify + 1 }
      | some cvid =>
        if cvid = "" then { st with skippedToShopify := st.skippedToShopify + 1 }
        else if !(validateVariant st.w.shop cvid) then
          let dbF := updateMappingRows st.w.db (fun q => q.id == m.id)
            (fun q => { q with syncStatus := "failed", lastSyncAt := now })
          { st with
            skippedToShopify := st.skippedToShopify + 1
            w := { st.w with db := dbF } }
        else
          match updateProductInventory st.w.shop cvid item.available with
          | .error _ =>
            let dbF := updateMappingRows st.w.db (fun q => q.id == m.id)
              (fun q => { q with syncStatus := "failed", lastSyncAt := now })
            { st with
              failedToShopify := st.failedToShopify + 1
              w := { st.w with db := dbF } }
          | .ok shop1 =>
            let db1 := updateInventoryRows st.w.db (fun r => r.id == shopItem.id)
              (fun r => { r with quantity := item.quantity, available := item.available
                                 reserved := item.reserved, lastSyncAt := now })
            let db2 := updateMappingRows db1 (fun q => q.id == m.id)
              (fun q => { q with syncStatus := "synced", lastSyncAt := now })
            { st with syncedToShopify := st.syncedToShopify + 1
                      w := { db := db2, shop := shop1 } }

/-- The result object of the bidirectional sync.  In this embedding the pull
phase has no throwing statements, so `failedFromShopify` is always 0, matching
the per-item catch that only database failures could reach. -/
structure BidirResult where
  success : Bool
  operation : String
  syncedFromShopify : Nat
  failedFromShopify : Nat
  syncedToShopify : Nat
  failedToShopify : Nat
  skippedToShopify : Nat
  totalSynced : Nat
  totalFailed : Nat
  totalSkipped : Nat
  timestamp : Nat
  deriving Repr, DecidableEq

/-- The pull phase of the bidirectional sync: after ensuring internal
records, fold `pullStep` over the snapshot of shopify-channel rows,
returning the pulled count with the resulting catalog state. -/
def bidirPulled (w : World) (now : Nat) : Nat × DB :=
  let db0 := ensureInternalInventoryExists w.db now
  (db0.inventory.filter (fun r => r.channel == "shopify")).foldl (pullStep now) (0, db0)

/-- The snapshot of internal-channel rows the push phase iterates over,
taken after the pull phase completed. -/
def pushSnapshot (w : World) (now : Nat) : List InventoryRecord :=
  (bidirPulled w now).2.inventory.filter (fun r => r.channel == "internal")

/-- The world at the start of the push phase. -/
def pushWorld (w : World) (now : Nat) : World :=
  { db := (bidirPulled w now).2, shop := w.shop }

/-- ProductService.syncInventoryAcrossChannels: ensures internal records,
pulls every shopify-channel row into the matching internal row, then pushes
every internal row out, validating remote existence first; per-item errors
are caught and counted, so the run always returns a result, and one summary
SyncLogEntry is written (`success` when nothing failed, else `partial`). -/
def syncInventoryAcrossChannels (w : World) (now : Nat) : BidirResult × World :=
  let pulled := bidirPulled w now
  let pushed := (pushSnapshot w now).foldl (pushStep now) { w := pushWorld w now }
  let res : BidirResult :=
    { success := true, operation := "bidirectional-sync"
      syncedFromShopify := pulled.1, failedFromShopify := 0
      syncedToShopify := pushed.syncedToShopify
      failedToShopify := pushed.failedToShopify
      skippedToShopify := pushed.skippedToShopify
      totalSynced := pulled.1 + pushed.syncedToShopify
      totalFailed := 0 + pushed.failedToShopify
      totalSkipped := pushed.skippedToShopify
      timestamp := now }
  let entry : SyncLogEntry :=
    { channel := "all", operation := "bidirectional-sync"
      status := if res.totalFailed = 0 then "success" else "partial"
      message := "Bidirectional inventory sync completed" }
  (res, { db := appendLog pushed.w.db entry, shop := pushed.w.shop })

/-- The label used in the bulk-import error messages:
JavaScript `product.title || product.id` inside a template string. -/
def bulkLabel (p : RemoteProduct) : String :=
  let idLabel := match p.id with | some i => toString i | none => "undefined"
  match p.title with
  | some t => if t = "" then idLabel else t
  | none => idLabel

/-- The result object of `importFromShopifyBulk`.  It carries only the
import/failure tallies: the function has no update or deletion pass, so there
are no `updated` or `deleted` counts to report. -/
structure BulkImportResult where
  success : Bool
  importedCount : Nat
  failedCount : Nat
  totalProcessed : Nat
  errors : List String
  deriving Repr, DecidableEq

/-- The per-product loop of `importFromShopifyBulk`: every listed product is
passed to `importFromShopify`; a thrown error is caught, formatted as
`Failed to import <title-or-id>: <message>`, appended to the error list, and
the loop continues. -/
def bulkImportLoop (now : Nat) :
    List RemoteProduct → Nat × Nat × List String × DB → Nat × Nat × List String × DB
  | [], acc => acc
  | p :: rest, (imp, fails, errs, db) =>
    match importFromShopify db now p with
    | (.ok _, db1) => bulkImportLoop now rest (imp + 1, fails, errs, db1)
    | (.error e, db1) =>
      bulkImportLoop now rest
        (imp, fails + 1, errs ++ ["Failed to import " ++ bulkLabel p ++ ": " ++ e], db1)

/-- ProductService.importFromShopifyBulk: lists up to `limit` remote
products and imports each one, catching per-item failures; the
`syncDeletions` option is accepted but never read, and no product is ever
updated or deleted by this method.  A failing remote listing rethrows with
the world unchanged. -/
def importFromShopifyBulk (w : World) (now : Nat) (limit : Nat)
    (syncDeletions : Bool) : Except String BulkImportResult × World :=
  match getProducts w.shop limit with
  | .error e => (.error e, w)
  | .ok listed =>
    let acc := bulkImportLoop now listed (0, 0, [], w.db)
    (.ok { success := true, importedCount := acc.1, failedCount := acc.2.1
           totalProcessed := listed.length, errors := acc.2.2.1 },
     { w with db := acc.2.2.2 })

/-- ProductService.getShopifyProducts: the products that have at least one
shopify ChannelMapping, each paired with its shopify mappings. -/
def getShopifyProducts (db : DB) : List (ProductRow × List ChannelMapping) :=
  (db.products.filter (fun p =>
    db.mappings.any (fun m => m.productId == p.id && m.channel == "shopify"))).map
    (fun p => (p, db.mappings.filter (fun m => m.productId == p.id && m.channel == "shopify")))

/-- The deletion pass of the `POST /shopify/import` route: every locally
mapped product whose first shopify mapping's `channelProductId` is absent
from the listed remote ids (a null id is never contained in the list) is
soft-deleted via `markProductAsDeleted`. -/
def routeDeletionPass (existing : List (ProductRow × List ChannelMapping))
    (remoteIds : List String) (db : DB) : DB × Nat :=
  existing.foldl (fun (acc : DB × Nat) pr =>
    match pr.2.find? (fun m => m.channel == "shopify") with
    | some m =>
      match m.channelProductId with
      | some c =>
        if remoteIds.contains c then acc
        else (markProductAsDeleted acc.1 pr.1.id, acc.2 + 1)
      | none => (markProductAsDeleted acc.1 pr.1.id, acc.2 + 1)
    | none => acc) (db, 0)

/-- The loop body of `routeDeletionPass`, named so the fold lemmas can
speak about one step. -/
def delStep (remoteIds : List String) (acc : DB × Nat)
    (pr : ProductRow × List ChannelMapping) : DB × Nat :=
  match pr.2.find? (fun m => m.channel == "shopify") with
  | some m =>
    match m.channelProductId with
    | some c =>
      if remoteIds.contains c then acc
      else (markProductAsDeleted acc.1 pr.1.id, acc.2 + 1)
    | none => (markProductAsDeleted acc.1 pr.1.id, acc.2 + 1)
  | none => acc

/-- The import/update pass of the `POST /shopify/import` route: a listed
product whose remote id matches an existing shopify mapping is routed to
`updateFromShopify`, otherwise to `importFromShopify`; per-item errors are
caught and collected as `(title, message)` pairs. -/
def routeImportPass (now : Nat) (existing : List (ProductRow × List ChannelMapping)) :
    List RemoteProduct →
    Nat × Nat × List (Option String × String) × DB →
    Nat × Nat × List (Option String × String) × DB
  | [], acc => acc
  | p :: rest, (imp, upd, fails, db) =>
    let pidStr := toString (p.id.getD 0)
    match existing.find? (fun pr => pr.2.any (fun m =>
        m.channel == "shopify" && m.channelProductId == some pidStr)) with
    | some pr =>
      match updateFromShopify db now pr.1.id p with
      | (.ok _, db1) => routeImportPass now existing rest (imp, upd + 1, fails, db1)
      | (.error e, db1) =>
        routeImportPass now existing rest (imp, upd, fails ++ [(p.title, e)], db1)
    | none =>
      match importFromShopify db now p with
      | (.ok _, db1) => routeImportPass now existing rest (imp + 1, upd, fails, db1)
      | (.error e, db1) =>
        routeImportPass now existing rest (imp, upd, fails ++ [(p.title, e)], db1)

/-- The response body of the `POST /shopify/import` route. -/
structure RouteImportResult where
  success : Bool
  imported : Nat
  updated : Nat
  deleted : Nat
  failed : Nat
  total : Nat
  failedProducts : List (Option String × String)
  deriving Repr, DecidableEq

/-- The `POST /shopify/import` route handler (`routes/integrations.ts`):
lists the remote products, snapshots the locally mapped products, runs the
deletion pass when `syncDeletions` is set, then the import/update pass, and
answers with the `{imported, updated, deleted, failed, total}` summary.
Building the remote id list throws when a listed product has no id. -/
def shopifyImportRoute (w : World) (now : Nat) (limit : Nat)
    (syncDeletions : Bool) : Except String RouteImportResult × World :=
  match getProducts w.shop limit with
  | .error e => (.error e, w)
  | .ok listed =>
    if listed.any (fun p => p.id.isNone) then
      (.error "Cannot read properties of undefined", w)
    else
      let existing := getShopifyProducts w.db
      let remoteIds := listed.filterMap (fun p => p.id.map toString)
      let del :=
        if syncDeletions then routeDeletionPass existing remoteIds w.db
        else (w.db, 0)
      let acc := routeImportPass now existing listed (0, 0, [], del.1)
      (.ok { success := true, imported := acc.1, updated := acc.2.1
             deleted := del.2, failed := acc.2.2.1.length, total := listed.length
             failedProducts := acc.2.2.1 },
       { w with db := acc.2.2.2 })

/-- A Bull repeatable-job definition, keyed by (name, cron). -/
structure RepeatableJob where
  name : String
  cron : String
  deriving Repr, DecidableEq

/-- The state of `JobQueueService` relevant to recurring scheduling: the
broker-availability flag fixed at startup and the repeatable definitions on
the inventory-sync queue. -/
structure JobQueueState where
  redisAvailable : Bool
  repeatable : List RepeatableJob := []
  deriving Repr, DecidableEq

/-- Adding a repeatable job to a Bull queue: a definition with the same
(name, cron) key already present is not duplicated. -/
def addRepeatableJob (l : List RepeatableJob) (j : RepeatableJob) : List RepeatableJob :=
  if l.any (fun k => k.name == j.name && k.cron == j.cron) then l else l ++ [j]

/-- JobQueueService.clearRecurringInventorySync: removes every repeatable
definition named `recurring-inventory-sync`; a no-op without Redis, and
idempotent. -/
def clearRecurringInventorySync (s : JobQueueState) : JobQueueState :=
  if !s.redisAvailable then s
  else { s with repeatable := s.repeatable.filter (fun j => j.name != "recurring-inventory-sync") }

/-- JobQueueService.scheduleRecurringInventorySync: without Redis nothing is
scheduled; otherwise any existing `recurring-inventory-sync` definitions are
cleared first and a single definition with the given cron expression is
added. -/
def scheduleRecurringInventorySync (s : JobQueueState) (cronExpression : String) :
    JobQueueState :=
  if !s.redisAvailable then s
  else
    let s1 := clearRecurringInventorySync s
    { s1 with repeatable :=
        addRepeatableJob s1.repeatable { name := "recurring-inventory-sync", cron := cronExpression } }

/-- JobQueueService.scheduleRecurringShopifyInventorySync: the sibling
schedule, keyed by the name `shopify-inventory-sync`. -/
def scheduleRecurringShopifyInventorySync (s : JobQueueState) (cronExpression : String) :
    JobQueueState :=
  if !s.redisAvailable then s
  else
    let s1 := { s with repeatable :=
      s.repeatable.filter (fun j => j.name != "shopify-inventory-sync") }
    { s1 with repeatable :=
        addRepeatableJob s1.repeatable { name := "shopify-inventory-sync", cron := cronExpression } }

/-- One invocation of a public catalog operation, with its inputs. -/
inductive CatalogOp where
  | importOp (sp : RemoteProduct)
  | deployOp (product : ProductRow)
  | updateOp (productId : Nat) (sp : RemoteProduct)
  | readOnlySyncOp
  | bidirSyncOp
  | bulkImportOp (limit : Nat) (syncDeletions : Bool)
  | routeImportOp (limit : Nat) (syncDeletions : Bool)
  deriving Repr, DecidableEq

/-- Apply one public operation at one timestamp, keeping only the state (the
operation results are discarded here; the individual functions expose them). -/
def applyOp (w : World) (now : Nat) : CatalogOp → World
  | .importOp sp => { w with db := (importFromShopify w.db now sp).2 }
  | .deployOp product => (deployToShopify w now product).2
  | .updateOp productId sp => { w with db := (updateFromShopify w.db now productId sp).2 }
  | .readOnlySyncOp => { w with db := (syncInventoryFromShopifyReadOnly w.db w.shop now).2 }
  | .bidirSyncOp => (syncInventoryAcrossChannels w now).2
  | .bulkImportOp limit sd => (importFromShopifyBulk w now limit sd).2
  | .routeImportOp limit sd => (shopifyImportRoute w now limit sd).2

/-- Run a sequence of timestamped public operations. -/
def runOps (w : World) : List (Nat × CatalogOp) → World
  | [] => w
  | (t, o) :: rest => runOps (applyOp w t o) rest

/-- Strip the `lastSyncAt` timestamp of an InventoryRecord, for stating that
a second sync run changes nothing but `lastSyncAt`. -/
def eraseSyncAt (r : InventoryRecord) : InventoryRecord := { r with lastSyncAt := 0 }

/-- The action of one read-only sync iteration on one inventory row: rows of
the mapping's variant on the shopify or internal channel are overwritten from
the fetched remote inventory; all other rows are untouched. -/
def readOnlyRowStep (shop : ShopifyStore) (now : Nat) (m : ChannelMapping)
    (r : InventoryRecord) : InventoryRecord :=
  match m.channelProductId, m.channelVariantId with
  | some pid, some vid =>
    if pid = "" || vid = "" then r
    else
      match getProductInventory shop pid vid with
      | some inv =>
        if r.variantId == m.variantId && (r.channel == "shopify" || r.channel == "internal")
        then readOnlyWrite inv now r else r
      | none => r
  | _, _ => r

/-- The remote inventory a mapping writes onto a given row during the
read-only sync, when it writes at all. -/
def readOnlyMatchInv (shop : ShopifyStore) (m : ChannelMapping)
    (r : InventoryRecord) : Option InventoryInfo :=
  match m.channelProductId, m.channelVariantId with
  | some pid, some vid =>
    if pid = "" || vid = "" then none
    else
      match getProductInventory shop pid vid with
      | some inv =>
        if r.variantId == m.variantId && (r.channel == "shopify" || r.channel == "internal")
        then some inv else none
      | none => none
  | _, _ => none

/-- The last element of a list, if any. -/
def lastSome {α : Type} : List α → Option α
  | [] => none
  | a :: l => match lastSome l with | some b => some b | none => some a

/-- The value the last matching mapping of the read-only sync writes onto a
row, if any mapping matches it. -/
def lastMatch (shop : ShopifyStore) (ms : List ChannelMapping)
    (r : InventoryRecord) : Option InventoryInfo :=
  lastSome (ms.filterMap (fun m => readOnlyMatchInv shop m r))

/-- How the push phase disposes of one internal snapshot item: `silent` (no
shopify-channel record, not counted at all), `skip` (no usable mapping),
`stale` (remote existence check failed), `err` (remote inventory update
threw) or `push` (pushed and marked synced). -/
inductive PushTag where
  | silent
  | skip
  | stale
  | err
  | push
  deriving Repr, DecidableEq

/-- Classify one internal snapshot item against a fixed world; the branches
mirror `pushStep` exactly, and every quantity this reads is invariant during
the push fold, so the classification against the phase's initial world
predicts the branch `pushStep` takes. -/
def pushClassify (w : World) (item : InventoryRecord) : PushTag :=
  match w.db.inventory.find? (fun r =>
      r.variantId == item.variantId && r.channel == "shopify") with
  | none => .silent
  | some _ =>
    match w.db.mappings.find? (fun m =>
        m.variantId == item.variantId && m.channel == "shopify") with
    | none => .skip
    | some m =>
      match m.channelVariantId with
      | none => .skip
      | some cvid =>
        if cvid = "" then .skip
        else if !(validateVariant w.shop cvid) then .stale
        else
          match updateProductInventory w.shop cvid item.available with
          | .error _ => .err
          | .ok _ => .push

/-- The shopify mapping `pushStep` reads for an item. -/
def pushMappingOf (w : World) (item : InventoryRecord) : Option ChannelMapping :=
  w.db.mappings.find? (fun m => m.variantId == item.variantId && m.channel == "shopify")

/-- The field equation of spec section 3 (with `reserved` at its only
reachable value, 0). -/
abbrev InvRowGood (r : InventoryRecord) : Prop :=
  r.reserved = 0 ∧ r.available = r.quantity

/-- Every InventoryRecord of the store satisfies the field equation. -/
abbrev InvEquation (db : DB) : Prop := ∀ r ∈ db.inventory, InvRowGood r

/-- The uniqueness key of an InventoryRecord. -/
def invKey (r : InventoryRecord) : Nat × String := (r.variantId, r.channel)

/-- The uniqueness key of a ChannelMapping. -/
def mapKey (m : ChannelMapping) : Nat × String := (m.variantId, m.channel)

/-- At most one InventoryRecord per (variantId, channel). -/
abbrev InvKeysUnique (db : DB) : Prop := (db.inventory.map invKey).Nodup

/-- At most one ChannelMapping per (variantId, channel).  The spec states
this, but the staged schema declares no unique index on `channel_mappings`,
and the property is refuted by a reachable duplicate (see the C2
counterexample); it is therefore not part of `GoodDB`. -/
abbrev MapKeysUnique (db : DB) : Prop := (db.mappings.map mapKey).Nodup

/-- The catalog-store invariants that the staged schema actually enforces:
the field equation and the unique `channel_variant_idx` on inventory. -/
abbrev GoodDB (db : DB) : Prop := InvEquation db ∧ InvKeysUnique db

/-- Nonnegativity of one InventoryRecord. -/
abbrev InvRowNonneg (r : InventoryRecord) : Prop := 0 ≤ r.quantity ∧ 0 ≤ r.available

/-- Every InventoryRecord of the store has nonnegative quantity/available. -/
abbrev DBNonneg (db : DB) : Prop := ∀ r ∈ db.inventory, InvRowNonneg r

/-- Nonnegativity of an optional remote quantity. -/
abbrev OptIntNonneg : Option Int → Prop
  | some q => 0 ≤ q
  | none => True

/-- A remote payload whose variant quantities are all nonnegative. -/
abbrev RemoteProductNonneg (p : RemoteProduct) : Prop :=
  ∀ v ∈ p.variants, OptIntNonneg v.inventory_quantity

/-- A remote shop whose inventory levels and variant quantities are all
nonnegative. -/
abbrev ShopNonneg (s : ShopifyStore) : Prop :=
  (∀ l ∈ s.inventoryLevels, 0 ≤ l.2) ∧ ∀ p ∈ s.products, RemoteProductNonneg p

/-- An operation whose remote-payload inputs are nonnegative (the listing
and sync operations read the shop instead, so they carry no condition). -/
abbrev OpNonneg : CatalogOp → Prop
  | .importOp sp => RemoteProductNonneg sp
  | .updateOp _ sp => RemoteProductNonneg sp
  | _ => True

/-- A shop against which the push phase can never throw: the client is
initialized, a primary location exists, and every remote variant carries an
`inventory_item_id`. -/
abbrev ShopPushReady (s : ShopifyStore) : Prop :=
  s.initialized = true ∧ s.locations ≠ [] ∧
    ∀ p ∈ s.products, ∀ v ∈ p.variants, (v.inventory_item_id).isSome = true

instance (x : Option Int) : Decidable (OptIntNonneg x) :=
  match x with
  | some q => (inferInstance : Decidable (0 ≤ q))
  | none => .isTrue trivial

instance (op : CatalogOp) : Decidable (OpNonneg op) :=
  match op with
  | .importOp sp => (inferInstance : Decidable (RemoteProductNonneg sp))
  | .deployOp _ => .isTrue trivial
  | .updateOp _ sp => (inferInstance : Decidable (RemoteProductNonneg sp))
  | .readOnlySyncOp => .isTrue trivial
  | .bidirSyncOp => .isTrue trivial
  | .bulkImportOp _ _ => .isTrue trivial
  | .routeImportOp _ _ => .isTrue trivial

/-- Scenario A's remote product: one variant, SKU S1, quantity 5. -/
def exShirt : RemoteProduct :=
  { id := some 555, title := some "Shirt"
    variants := [{ id := some 1, sku := some "S1", price := some "10.00"
                   inventory_quantity := some 5 }] }

/-- A remote payload carrying a negative `inventory_quantity`, as Shopify
reports for oversold variants. -/
def exNegProduct : RemoteProduct :=
  { id := some 5, title := some "Neg"
    variants := [{ id := some 1, sku := some "N1", inventory_quantity := some (-3) }] }

/-- A shop whose API client is not initialized. -/
def exShopOff : ShopifyStore := { initialized := false }

/-- A well-formed remote product for the bulk-import scenarios. -/
def exBulkOk (k : Nat) : RemoteProduct :=
  { id := some k, title := some ("T" ++ toString k)
    variants := [{ id := some k, sku := some ("S" ++ toString k)
                   inventory_quantity := some 1 }] }

/-- Scenario C's shop: ten listed products of which three (ids 8, 9, 10)
fail validation for a missing or empty title. -/
def exBulkShopA : ShopifyStore :=
  { initialized := true
    products := [exBulkOk 1, exBulkOk 2, exBulkOk 3, exBulkOk 4, exBulkOk 5
                 , exBulkOk 6, exBulkOk 7
                 , { id := some 8, title := none }
                 , { id := some 9, title := some "" }
                 , { id := some 10, title := none }] }

/-- A ten-product listing whose third validation failure is a titled product
with remote id 0, which JavaScript truthiness rejects as missing. -/
def exBulkShopB : ShopifyStore :=
  { initialized := true
    products := [exBulkOk 1, exBulkOk 2, exBulkOk 3, exBulkOk 4, exBulkOk 5
                 , exBulkOk 6, exBulkOk 7
                 , { id := some 8, title := none }
                 , { id := some 9, title := some "" }
                 , { id := some 0, title := some "Zero" }] }

/-- A remote product that the catalog has already imported and mapped. -/
def exRemap : RemoteProduct :=
  { id := some 5, title := some "T5"
    variants := [{ id := some 50, sku := some "S50", inventory_quantity := some 2 }] }

/-- The catalog after importing `exRemap`: its product is mapped to remote
id 5 with SKU S50. -/
def exMappedDB : DB := (importFromShopify emptyDB 0 exRemap).2

/-- A world in which the already-mapped `exRemap` is listed again by the
remote shop. -/
def exRelistWorld : World :=
  { db := exMappedDB, shop := { initialized := true, products := [exRemap] } }

/-- A world in which the mapped remote id 5 is gone from the listing (only
remote product 6 remains): the deletion-sync situation. -/
def exStaleWorld : World :=
  { db := exMappedDB, shop := { initialized := true, products := [exBulkOk 6] } }

/-- The remote shop for the bidirectional-sync run: remote variant 11 exists
(with an inventory item and a location), remote variant 999 does not. -/
def exBidirShop : ShopifyStore :=
  { initialized := true, locations := [1]
    products := [{ id := some 100, title := some "P"
                   variants := [{ id := some 11, inventory_item_id := some 500
                                  inventory_quantity := some 3 }] }]
    inventoryLevels := [(500, 3)] }

/-- A catalog with two mapped variants: variant 10 is mapped to the live
remote variant 11, variant 20 to the externally deleted remote variant 999. -/
def exBidirDB : DB :=
  { products := [{ id := 1, sku := "PS", name := "P", status := "active" }]
    variants := [{ id := 10, productId := 1, sku := "V10", name := "A" }
                 , { id := 20, productId := 1, sku := "V20", name := "B" }]
    inventory := [
      { id := 30, variantId := 10, channel := "shopify", quantity := 3, available := 3
        reserved := 0, lastSyncAt := 0 }
      , { id := 31, variantId := 10, channel := "internal", quantity := 3, available := 3
          reserved := 0, lastSyncAt := 0 }
      , { id := 32, variantId := 20, channel := "shopify", quantity := 1, available := 1
          reserved := 0, lastSyncAt := 0 }
      , { id := 33, variantId := 20, channel := "internal", quantity := 1, available := 1
          reserved := 0, lastSyncAt := 0 }]
    mappings := [
      { id := 40, productId := 1, variantId := 10, channel := "shopify"
        channelProductId := some "100", channelVariantId := some "11"
        syncStatus := "synced", lastSyncAt := 0 }
      , { id := 41, productId := 1, variantId := 20, channel := "shopify"
          channelProductId := some "100", channelVariantId := some "999"
          syncStatus := "synced", lastSyncAt := 0 }]
    nextId := 50 }

/-- The bidirectional-sync world with a live client. -/
def exBidirWorld : World := { db := exBidirDB, shop := exBidirShop }

/-- The same catalog against an uninitialized client. -/
def exBidirWorldOff : World := { db := exBidirDB, shop := exShopOff }

/-- A shop holding an inventory level of 4 for remote variant 1 of remote
product 5. -/
def exInvShop : ShopifyStore :=
  { initialized := true
    products := [{ id := some 5, title := some "X"
                   variants := [{ id := some 1, inventory_item_id := some 77
                                  inventory_quantity := some 9 }] }]
    inventoryLevels := [(77, 4)] }

/-- A shop serving remote product 555 (the one `exShirt` is mapped to) with
quantity 8 from the variant fallback. -/
def exShop555 : ShopifyStore :=
  { initialized := true
    products := [{ id := some 555, title := some "Shirt"
                   variants := [{ id := some 1, inventory_item_id := some 70
                                  inventory_quantity := some 8 }] }] }

/-- The catalog after importing Scenario A's product. -/
def exShirtDB : DB := (importFromShopify emptyDB 0 exShirt).2

/-- A local product row for the deploy-failure run. -/
def exProd : ProductRow := { id := 1, sku := "P1", name := "Prod", status := "active" }

instance {α β : Type} [DecidableEq α] [DecidableEq β] : DecidableEq (Except α β) :=
  fun a b =>
  match a, b with
  | .error x, .error y =>
    if h : x = y then .isTrue (by rw [h])
    else .isFalse (by intro hc; injection hc with h2; exact h h2)
  | .error _, .ok _ => .isFalse (fun hc => Except.noConfusion hc)
  | .ok _, .error _ => .isFalse (fun hc => Except.noConfusion hc)
  | .ok x, .ok y =>
    if h : x = y then .isTrue (by rw [h])
    else .isFalse (by intro hc; injection hc with h2; exact h h2)

theorem filter_name_ne_any_false (l : List RepeatableJob) (n c : String) :
    ((l.filter (fun j => j.name != n)).any (fun k => k.name == n && k.cron == c)) = false := by
  induction l with
  | nil => rfl
  | cons a l ih =>
    by_cases ha : a.name = n
    · simpa [List.filter_cons, ha] using ih
    · simpa [List.filter_cons, ha] using ih

theorem filter_name_ne_then_eq (l : List RepeatableJob) (n : String) :
    (l.filter (fun j => j.name != n)).filter (fun j => j.name == n) = [] := by
  induction l with
  | nil => rfl
  | cons a l ih =>
    by_cases ha : a.name = n
    · simpa [List.filter_cons, ha] using ih
    · simpa [List.filter_cons, ha] using ih

/-- C6: in queued mode, scheduling the recurring inventory sync with cronA
and then again with cronB leaves exactly one active recurring definition
under the `recurring-inventory-sync` job name, and its cron is cronB. -/
theorem c6_schedule_recurring_single_definition (s : JobQueueState) (cronA cronB : String)
    (h : s.redisAvailable = true) :
    ((scheduleRecurringInventorySync (scheduleRecurringInventorySync s cronA) cronB).repeatable.filter
      (fun j => j.name == "recurring-inventory-sync")) =
      [{ name := "recurring-inventory-sync", cron := cronB }] := by
  simp only [scheduleRecurringInventorySync, clearRecurringInventorySync, addRepeatableJob, h,
    Bool.not_true, Bool.false_eq_true, if_false, filter_name_ne_any_false, if_neg]
  simp [List.filter_append, filter_name_ne_then_eq, List.filter_filter,
    filter_name_ne_any_false]

/-- Witness for C6 at a concrete queue state and two concrete crons. -/
theorem c6_schedule_recurring_single_definition_witness :
    ((scheduleRecurringInventorySync
        (scheduleRecurringInventorySync { redisAvailable := true, repeatable := [] } "*/6 * * * *")
        "0 */6 * * *").repeatable.filter
      (fun j => j.name == "recurring-inventory-sync")) =
      [{ name := "recurring-inventory-sync", cron := "0 */6 * * *" }] :=
  c6_schedule_recurring_single_definition _ "*/6 * * * *" "0 */6 * * *" rfl

/-- C5: when the remote create call of deployToShopify fails, no
ChannelMapping and no InventoryRecord (indeed no row of any table) is
committed locally, exactly one failed `export` SyncLogEntry is appended, the
remote shop is untouched, and the error is rethrown to the caller; the
function contains no retry — one remote call per invocation. -/
theorem c5_deploy_remote_failure (w : World) (now : Nat) (product : ProductRow) (e : String)
    (h : createProduct w.shop (deployPayload w.db product) = .error e) :
    (deployToShopify w now product).1 = .error e ∧
    (deployToShopify w now product).2.db.mappings = w.db.mappings ∧
    (deployToShopify w now product).2.db.inventory = w.db.inventory ∧
    (deployToShopify w now product).2.db.products = w.db.products ∧
    (deployToShopify w now product).2.db.variants = w.db.variants ∧
    (deployToShopify w now product).2.db.syncLogs = w.db.syncLogs ++
      [{ channel := "shopify", operation := "export", productId := some product.id
         status := "failed", message := "Failed to deploy product: " ++ e }] ∧
    (deployToShopify w now product).2.shop = w.shop := by
  simp [deployToShopify, h, appendLog]

/-- Witness for C5: deploying against an uninitialized client fails the
remote create and rethrows. -/
theorem c5_deploy_remote_failure_witness :
    (deployToShopify { db := emptyDB, shop := exShopOff } 3 exProd).1 =
      .error "Shopify API error: service not initialized" :=
  (c5_deploy_remote_failure { db := emptyDB, shop := exShopOff } 3 exProd
    "Shopify API error: service not initialized" rfl).1

@[simp] theorem updateInventoryRows_products (db p f) :
    (updateInventoryRows db p f).products = db.products := rfl
@[simp] theorem updateInventoryRows_variants (db p f) :
    (updateInventoryRows db p f).variants = db.variants := rfl
@[simp] theorem updateInventoryRows_mappings (db p f) :
    (updateInventoryRows db p f).mappings = db.mappings := rfl
@[simp] theorem updateInventoryRows_syncLogs (db p f) :
    (updateInventoryRows db p f).syncLogs = db.syncLogs := rfl
@[simp] theorem updateInventoryRows_nextId (db p f) :
    (updateInventoryRows db p f).nextId = db.nextId := rfl
@[simp] theorem updateInventoryRows_inventory (db p f) :
    (updateInventoryRows db p f).inventory = db.inventory.map (fun r => if p r then f r else r) := rfl

@[simp] theorem updateMappingRows_products (db p f) :
    (updateMappingRows db p f).products = db.products := rfl
@[simp] theorem updateMappingRows_variants (db p f) :
    (updateMappingRows db p f).variants = db.variants := rfl
@[simp] theorem updateMappingRows_inventory (db p f) :
    (updateMappingRows db p f).inventory = db.inventory := rfl
@[simp] theorem updateMappingRows_syncLogs (db p f) :
    (updateMappingRows db p f).syncLogs = db.syncLogs := rfl
@[simp] theorem updateMappingRows_nextId (db p f) :
    (updateMappingRows db p f).nextId = db.nextId := rfl
@[simp] theorem updateMappingRows_mappings (db p f) :
    (updateMappingRows db p f).mappings = db.mappings.map (fun r => if p r then f r else r) := rfl

@[simp] theorem updateProductRows_variants (db p f) :
    (updateProductRows db p f).variants = db.variants := rfl
@[simp] theorem updateProductRows_inventory (db p f) :
    (updateProductRows db p f).inventory = db.inventory := rfl
@[simp] theorem updateProductRows_mappings (db p f) :
    (updateProductRows db p f).mappings = db.mappings := rfl
@[simp] theorem updateProductRows_syncLogs (db p f) :
    (updateProductRows db p f).syncLogs = db.syncLogs := rfl
@[simp] theorem updateProductRows_nextId (db p f) :
    (updateProductRows db p f).nextId = db.nextId := rfl
@[simp] theorem updateProductRows_products (db p f) :
    (updateProductRows db p f).products = db.products.map (fun r => if p r then f r else r) := rfl

@[simp] theorem updateVariantRows_products (db p f) :
    (updateVariantRows db p f).products = db.products := rfl
@[simp] theorem updateVariantRows_inventory (db p f) :
    (updateVariantRows db p f).inventory = db.inventory := rfl
@[simp] theorem updateVariantRows_mappings (db p f) :
    (updateVariantRows db p f).mappings = db.mappings := rfl
@[simp] theorem updateVariantRows_syncLogs (db p f) :
    (updateVariantRows db p f).syncLogs = db.syncLogs := rfl
@[simp] theorem updateVariantRows_nextId (db p f) :
    (updateVariantRows db p f).nextId = db.nextId := rfl

@[simp] theorem appendLog_products (db e) : (appendLog db e).products = db.products := rfl
@[simp] theorem appendLog_variants (db e) : (appendLog db e).variants = db.variants := rfl
@[simp] theorem appendLog_inventory (db e) : (appendLog db e).inventory = db.inventory := rfl
@[simp] theorem appendLog_mappings (db e) : (appendLog db e).mappings = db.mappings := rfl
@[simp] theorem appendLog_nextId (db e) : (appendLog db e).nextId = db.nextId := rfl
@[simp] theorem appendLog_syncLogs (db e) :
    (appendLog db e).syncLogs = db.syncLogs ++ [e] := rfl

@[simp] theorem readOnlyWrite_id (inv now r) : (readOnlyWrite inv now r).id = r.id := rfl
@[simp] theorem readOnlyWrite_variantId (inv now r) :
    (readOnlyWrite inv now r).variantId = r.variantId := rfl
@[simp] theorem readOnlyWrite_channel (inv now r) :
    (readOnlyWrite inv now r).channel = r.channel := rfl
@[simp] theorem readOnlyWrite_channelProductId (inv now r) :
    (readOnlyWrite inv now r).channelProductId = r.channelProductId := rfl
@[simp] theorem readOnlyWrite_quantity (inv now r) :
    (readOnlyWrite inv now r).quantity = inv.quantity := rfl
@[simp] theorem readOnlyWrite_available (inv now r) :
    (readOnlyWrite inv now r).available = inv.available := rfl
@[simp] theorem readOnlyWrite_reserved (inv now r) :
    (readOnlyWrite inv now r).reserved = inv.reserved := rfl

@[simp] theorem eraseSyncAt_id (r) : (eraseSyncAt r).id = r.id := rfl
@[simp] theorem eraseSyncAt_variantId (r) : (eraseSyncAt r).variantId = r.variantId := rfl
@[simp] theorem eraseSyncAt_channel (r) : (eraseSyncAt r).channel = r.channel := rfl
@[simp] theorem eraseSyncAt_reserved (r) : (eraseSyncAt r).reserved = r.reserved := rfl

theorem readOnlyRowStep_eq_match (shop now m r) :
    readOnlyRowStep shop now m r =
      match readOnlyMatchInv shop m r with
      | some inv => readOnlyWrite inv now r
      | none => r := by
  unfold readOnlyRowStep readOnlyMatchInv
  cases m.channelProductId with
  | none => rfl
  | some pid =>
    cases m.channelVariantId with
    | none => rfl
    | some vid =>
      cases hp : (decide (pid = "") || decide (vid = "")) with
      | true => simp [hp]
      | false =>
        simp only [hp, Bool.false_eq_true, if_false]
        cases getProductInventory shop pid vid with
        | none => rfl
        | some inv =>
          cases hc : (r.variantId == m.variantId &&
              (r.channel == "shopify" || r.channel == "internal")) with
          | true => simp [hc]
          | false => simp [hc]

theorem readOnlySyncStep_db (shop : ShopifyStore) (now : Nat) (acc : Nat × Nat × DB)
    (m : ChannelMapping) :
    (readOnlySyncStep shop now acc m).2.2 =
      { acc.2.2 with inventory := acc.2.2.inventory.map (readOnlyRowStep shop now m) } := by
  obtain ⟨a, b, db⟩ := acc
  unfold readOnlySyncStep
  cases hcp : m.channelProductId with
  | none =>
    simp only []
    have : (fun r => readOnlyRowStep shop now m r) = fun r => r := by
      funext r; simp [readOnlyRowStep, hcp]
    simp [this]
  | some pid =>
    cases hcv : m.channelVariantId with
    | none =>
      simp only []
      have : (fun r => readOnlyRowStep shop now m r) = fun r => r := by
        funext r; simp [readOnlyRowStep, hcp, hcv]
      simp [this]
    | some vid =>
      cases hp : (decide (pid = "") || decide (vid = "")) with
      | true =>
        simp only [hp, if_true]
        have : (fun r => readOnlyRowStep shop now m r) = fun r => r := by
          funext r; simp [readOnlyRowStep, hcp, hcv, hp]
        simp [this]
      | false =>
        simp only [hp, Bool.false_eq_true, if_false]
        cases hfetch : getProductInventory shop pid vid with
        | none =>
          simp only [hfetch]
          have : (fun r => readOnlyRowStep shop now m r) = fun r => r := by
            funext r; simp [readOnlyRowStep, hcp, hcv, hp, hfetch]
          simp [this]
        | some inv =>
          simp only [hfetch, updateInventoryRows]
          congr 1
          rw [List.map_map]
          apply List.map_congr_left
          intro r _
          simp only [Function.comp]
          have hrow : readOnlyRowStep shop now m r =
              (if (r.variantId == m.variantId &&
                  (r.channel == "shopify" || r.channel == "internal")) = true
               then readOnlyWrite inv now r else r) := by
            simp [readOnlyRowStep, hcp, hcv, hp, hfetch]
          rw [hrow]
          by_cases hv : (r.variantId == m.variantId) = true
          · by_cases hs : (r.channel == "shopify") = true
            · have hch : r.channel = "shopify" := by simpa using hs
              simp [hv, hs, hch]
            · by_cases hi : (r.channel == "internal") = true
              · simp [hv, hs, hi]
              · simp [hv, hs, hi]
          · simp [hv]

theorem readOnlyFold_db (shop : ShopifyStore) (now : Nat) (ms : List ChannelMapping) :
    ∀ acc : Nat × Nat × DB,
    ((ms.foldl (readOnlySyncStep shop now) acc).2.2) =
      { acc.2.2 with inventory := acc.2.2.inventory.map (fun r => ms.foldl (fun r m => readOnlyRowStep shop now m r) r) } := by
  induction ms with
  | nil => intro acc; simp
  | cons m ms ih =>
    intro acc
    rw [List.foldl_cons, ih, readOnlySyncStep_db]
    simp [List.map_map, Function.comp]

theorem syncReadOnly_db_char (db : DB) (shop : ShopifyStore) (now : Nat) :
    (syncInventoryFromShopifyReadOnly db shop now).2 =
      { ensureInternalInventoryExists db now with inventory := (ensureInternalInventoryExists db now).inventory.map (fun r => (shopifyJoinRows (ensureInternalInventoryExists db now)).foldl (fun r m => readOnlyRowStep shop now m r) r) } := by
  unfold syncInventoryFromShopifyReadOnly
  exact readOnlyFold_db shop now _ _

theorem readOnlyRowStep_skel (shop : ShopifyStore) (now : Nat) (m : ChannelMapping)
    (r : InventoryRecord) :
    (readOnlyRowStep shop now m r).id = r.id ∧
    (readOnlyRowStep shop now m r).variantId = r.variantId ∧
    (readOnlyRowStep shop now m r).channel = r.channel ∧
    (readOnlyRowStep shop now m r).channelProductId = r.channelProductId := by
  rw [readOnlyRowStep_eq_match]
  cases readOnlyMatchInv shop m r <;> simp

theorem readOnlyFoldSteps_skel (shop : ShopifyStore) (now : Nat) (ms : List ChannelMapping) :
    ∀ r : InventoryRecord,
    (ms.foldl (fun r m => readOnlyRowStep shop now m r) r).id = r.id ∧
    (ms.foldl (fun r m => readOnlyRowStep shop now m r) r).variantId = r.variantId ∧
    (ms.foldl (fun r m => readOnlyRowStep shop now m r) r).channel = r.channel ∧
    (ms.foldl (fun r m => readOnlyRowStep shop now m r) r).channelProductId = r.channelProductId := by
  induction ms with
  | nil => intro r; simp
  | cons m ms ih =>
    intro r
    rw [List.foldl_cons]
    obtain ⟨h1, h2, h3, h4⟩ := ih (readOnlyRowStep shop now m r)
    obtain ⟨g1, g2, g3, g4⟩ := readOnlyRowStep_skel shop now m r
    exact ⟨h1.trans g1, h2.trans g2, h3.trans g3, h4.trans g4⟩

theorem readOnlyMatchInv_congr (shop : ShopifyStore) (m : ChannelMapping)
    (r r' : InventoryRecord) (hv : r'.variantId = r.variantId)
    (hc : r'.channel = r.channel) :
    readOnlyMatchInv shop m r' = readOnlyMatchInv shop m r := by
  unfold readOnlyMatchInv
  rw [hv, hc]

theorem lastMatch_congr (shop : ShopifyStore) (ms : List ChannelMapping)
    (r r' : InventoryRecord) (hv : r'.variantId = r.variantId)
    (hc : r'.channel = r.channel) :
    lastMatch shop ms r' = lastMatch shop ms r := by
  unfold lastMatch
  congr 1
  apply List.filterMap_congr
  intro m _
  exact readOnlyMatchInv_congr shop m r r' hv hc

theorem readOnlyWrite_write (inv inv' : InventoryInfo) (t t' : Nat) (r : InventoryRecord) :
    readOnlyWrite inv' t' (readOnlyWrite inv t r) = readOnlyWrite inv' t' r := rfl

theorem eraseSyncAt_write_congr (inv : InventoryInfo) (t t' : Nat)
    (x y : InventoryRecord) (h1 : x.id = y.id) (h2 : x.variantId = y.variantId)
    (h3 : x.channel = y.channel) (h4 : x.channelProductId = y.channelProductId) :
    eraseSyncAt (readOnlyWrite inv t x) = eraseSyncAt (readOnlyWrite inv t' y) := by
  simp [eraseSyncAt, readOnlyWrite, h1, h2, h3, h4]

theorem lastSome_mem {α : Type} (l : List α) (b : α) (h : lastSome l = some b) : b ∈ l := by
  induction l with
  | nil => simp [lastSome] at h
  | cons a l ih =>
    unfold lastSome at h
    cases hl : lastSome l with
    | none => rw [hl] at h; simp_all
    | some c => rw [hl] at h; simp at h; subst h; exact List.mem_cons_of_mem _ (ih hl)

theorem lastSome_isSome_of_mem {α : Type} (l : List α) (b : α) (h : b ∈ l) :
    (lastSome l).isSome = true := by
  induction l with
  | nil => simp at h
  | cons a l ih =>
    unfold lastSome
    cases hl : lastSome l with
    | none => simp
    | some c => simp

theorem lastSome_cons {α : Type} (a : α) (l : List α) :
    lastSome (a :: l) = match lastSome l with | some b => some b | none => some a := rfl

theorem readOnlyFoldSteps_lastMatch (shop : ShopifyStore) (now : Nat)
    (ms : List ChannelMapping) : ∀ r : InventoryRecord,
    eraseSyncAt (ms.foldl (fun r m => readOnlyRowStep shop now m r) r) =
      match lastMatch shop ms r with
      | some inv => eraseSyncAt (readOnlyWrite inv now r)
      | none => eraseSyncAt r := by
  induction ms with
  | nil => intro r; simp [lastMatch, lastSome]
  | cons m ms ih =>
    intro r
    rw [List.foldl_cons]
    cases h : readOnlyMatchInv shop m r with
    | none =>
      rw [show readOnlyRowStep shop now m r = r by rw [readOnlyRowStep_eq_match, h]]
      rw [ih r]
      unfold lastMatch
      rw [List.filterMap_cons, h]
    | some inv =>
      rw [show readOnlyRowStep shop now m r = readOnlyWrite inv now r by
        rw [readOnlyRowStep_eq_match, h]]
      rw [ih (readOnlyWrite inv now r)]
      have hkeys := lastMatch_congr shop ms r (readOnlyWrite inv now r) (by simp) (by simp)
      rw [hkeys]
      unfold lastMatch
      rw [List.filterMap_cons, h]
      cases hl : lastSome (ms.filterMap (fun m => readOnlyMatchInv shop m r)) with
      | none =>
        have hcons : lastSome (inv :: ms.filterMap (fun m => readOnlyMatchInv shop m r)) =
            some inv := by
          rw [lastSome_cons, hl]
        rw [hcons]
      | some inv' =>
        have hcons : lastSome (inv :: ms.filterMap (fun m => readOnlyMatchInv shop m r)) =
            some inv' := by
          rw [lastSome_cons, hl]
        rw [hcons]
        exact rfl

theorem ensureFold_tables (now : Nat) (vs : List VariantRow) : ∀ acc : DB,
    ((vs.foldl (fun acc v =>
      if acc.inventory.any (fun r => r.variantId == v.id && r.channel == "internal") then acc
      else { acc with
        inventory := acc.inventory ++
          [{ id := acc.nextId, variantId := v.id, channel := "internal"
             quantity := 0, available := 0, reserved := 0, lastSyncAt := now }]
        nextId := acc.nextId + 1 }) acc).products = acc.products) ∧
    ((vs.foldl (fun acc v =>
      if acc.inventory.any (fun r => r.variantId == v.id && r.channel == "internal") then acc
      else { acc with
        inventory := acc.inventory ++
          [{ id := acc.nextId, variantId := v.id, channel := "internal"
             quantity := 0, available := 0, reserved := 0, lastSyncAt := now }]
        nextId := acc.nextId + 1 }) acc).variants = acc.variants) ∧
    ((vs.foldl (fun acc v =>
      if acc.inventory.any (fun r => r.variantId == v.id && r.channel == "internal") then acc
      else { acc with
        inventory := acc.inventory ++
          [{ id := acc.nextId, variantId := v.id, channel := "internal"
             quantity := 0, available := 0, reserved := 0, lastSyncAt := now }]
        nextId := acc.nextId + 1 }) acc).mappings = acc.mappings) ∧
    ((vs.foldl (fun acc v =>
      if acc.inventory.any (fun r => r.variantId == v.id && r.channel == "internal") then acc
      else { acc with
        inventory := acc.inventory ++
          [{ id := acc.nextId, variantId := v.id, channel := "internal"
             quantity := 0, available := 0, reserved := 0, lastSyncAt := now }]
        nextId := acc.nextId + 1 }) acc).syncLogs = acc.syncLogs) := by
  induction vs with
  | nil => intro acc; exact ⟨rfl, rfl, rfl, rfl⟩
  | cons v vs ih =>
    intro acc
    rw [List.foldl_cons]
    by_cases h : (acc.inventory.any (fun r => r.variantId == v.id && r.channel == "internal")) = true
    · simp only [h, if_true]
      exact ih acc
    · simp only [h, if_false]
      exact ih _

theorem ensureFold_inventory_extends (now : Nat) (vs : List VariantRow) : ∀ acc : DB,
    ∃ tail, (vs.foldl (fun acc v =>
      if acc.inventory.any (fun r => r.variantId == v.id && r.channel == "internal") then acc
      else { acc with
        inventory := acc.inventory ++
          [{ id := acc.nextId, variantId := v.id, channel := "internal"
             quantity := 0, available := 0, reserved := 0, lastSyncAt := now }]
        nextId := acc.nextId + 1 }) acc).inventory = acc.inventory ++ tail := by
  induction vs with
  | nil => intro acc; exact ⟨[], by simp⟩
  | cons v vs ih =>
    intro acc
    rw [List.foldl_cons]
    by_cases h : (acc.inventory.any (fun r => r.variantId == v.id && r.channel == "internal")) = true
    · rw [if_pos h]
      exact ih acc
    · rw [if_neg h]
      obtain ⟨tail, ht⟩ := ih ({ acc with
        inventory := acc.inventory ++
          [{ id := acc.nextId, variantId := v.id, channel := "internal"
             quantity := 0, available := 0, reserved := 0, lastSyncAt := now }]
        nextId := acc.nextId + 1 })
      refine ⟨[{ id := acc.nextId, variantId := v.id, channel := "internal"
                 quantity := 0, available := 0, reserved := 0, lastSyncAt := now }] ++ tail, ?_⟩
      rw [ht]
      simp

theorem ensureFold_presence (now : Nat) (vs : List VariantRow) : ∀ acc : DB, ∀ v ∈ vs,
    ((vs.foldl (fun acc v =>
      if acc.inventory.any (fun r => r.variantId == v.id && r.channel == "internal") then acc
      else { acc with
        inventory := acc.inventory ++
          [{ id := acc.nextId, variantId := v.id, channel := "internal"
             quantity := 0, available := 0, reserved := 0, lastSyncAt := now }]
        nextId := acc.nextId + 1 }) acc).inventory.any
        (fun r => r.variantId == v.id && r.channel == "internal")) = true := by
  induction vs with
  | nil => intro acc v hv; simp at hv
  | cons u vs ih =>
    intro acc v hv
    rw [List.foldl_cons]
    rcases List.mem_cons.mp hv with hveq | hvmem
    · subst hveq
      by_cases h : (acc.inventory.any (fun r => r.variantId == v.id && r.channel == "internal")) = true
      · rw [if_pos h]
        obtain ⟨tail, ht⟩ := ensureFold_inventory_extends now vs acc
        rw [ht, List.any_append, h, Bool.true_or]
      · rw [if_neg h]
        obtain ⟨tail, ht⟩ := ensureFold_inventory_extends now vs ({ acc with
          inventory := acc.inventory ++
            [{ id := acc.nextId, variantId := v.id, channel := "internal"
               quantity := 0, available := 0, reserved := 0, lastSyncAt := now }]
          nextId := acc.nextId + 1 })
        rw [ht]
        simp
    · by_cases h : (acc.inventory.any (fun r => r.variantId == u.id && r.channel == "internal")) = true
      · simp only [h, if_true]
        exact ih acc v hvmem
      · simp only [h, if_false]
        exact ih _ v hvmem

theorem ensureFold_noop (now : Nat) (vs : List VariantRow) : ∀ acc : DB,
    (∀ v ∈ vs, (acc.inventory.any (fun r => r.variantId == v.id && r.channel == "internal")) = true) →
    (vs.foldl (fun acc v =>
      if acc.inventory.any (fun r => r.variantId == v.id && r.channel == "internal") then acc
      else { acc with
        inventory := acc.inventory ++
          [{ id := acc.nextId, variantId := v.id, channel := "internal"
             quantity := 0, available := 0, reserved := 0, lastSyncAt := now }]
        nextId := acc.nextId + 1 }) acc) = acc := by
  induction vs with
  | nil => intro acc _; rfl
  | cons v vs ih =>
    intro acc hall
    rw [List.foldl_cons]
    have hv := hall v (List.mem_cons_self _ _)
    simp only [hv, if_true]
    exact ih acc (fun u hu => hall u (List.mem_cons_of_mem _ hu))

theorem ensure_tables (db : DB) (now : Nat) :
    (ensureInternalInventoryExists db now).products = db.products ∧
    (ensureInternalInventoryExists db now).variants = db.variants ∧
    (ensureInternalInventoryExists db now).mappings = db.mappings ∧
    (ensureInternalInventoryExists db now).syncLogs = db.syncLogs := by
  unfold ensureInternalInventoryExists
  exact ensureFold_tables now db.variants db

theorem ensure_presence (db : DB) (now : Nat) : ∀ v ∈ db.variants,
    ((ensureInternalInventoryExists db now).inventory.any
      (fun r => r.variantId == v.id && r.channel == "internal")) = true := by
  unfold ensureInternalInventoryExists
  exact ensureFold_presence now db.variants db

theorem ensure_noop (db : DB) (now : Nat)
    (h : ∀ v ∈ db.variants, (db.inventory.any
      (fun r => r.variantId == v.id && r.channel == "internal")) = true) :
    ensureInternalInventoryExists db now = db := by
  unfold ensureInternalInventoryExists
  exact ensureFold_noop now db.variants db h

theorem readOnlyFoldSteps_idem (shop : ShopifyStore) (t1 t2 : Nat)
    (ms : List ChannelMapping) (r : InventoryRecord) :
    eraseSyncAt (ms.foldl (fun r m => readOnlyRowStep shop t2 m r)
      (ms.foldl (fun r m => readOnlyRowStep shop t1 m r) r)) =
    eraseSyncAt (ms.foldl (fun r m => readOnlyRowStep shop t1 m r) r) := by
  have hF1 := readOnlyFoldSteps_skel shop t1 ms r
  have hL := readOnlyFoldSteps_lastMatch shop t2 ms
    (ms.foldl (fun r m => readOnlyRowStep shop t1 m r) r)
  have hR := readOnlyFoldSteps_lastMatch shop t1 ms r
  have hlm : lastMatch shop ms (ms.foldl (fun r m => readOnlyRowStep shop t1 m r) r) =
      lastMatch shop ms r :=
    lastMatch_congr shop ms r _ hF1.2.1 hF1.2.2.1
  rw [hL, hlm]
  cases h : lastMatch shop ms r with
  | none => exact rfl
  | some inv =>
    rw [hR, h]
    exact eraseSyncAt_write_congr inv t2 t1 _ r hF1.1 hF1.2.1 hF1.2.2.1 hF1.2.2.2

theorem any_map_internal (f : InventoryRecord → InventoryRecord)
    (hf : ∀ r, (f r).variantId = r.variantId ∧ (f r).channel = r.channel)
    (l : List InventoryRecord) (vid : Nat) :
    ((l.map f).any (fun r => r.variantId == vid && r.channel == "internal")) =
      (l.any (fun r => r.variantId == vid && r.channel == "internal")) := by
  induction l with
  | nil => rfl
  | cons a l ih => simp [List.any_cons, ih, (hf a).1, (hf a).2]

/-- C7: running the read-only pull twice against the same remote state leaves
every InventoryRecord's quantity, available and reserved fields (and every
other table) exactly as after the first run — only `lastSyncAt` can differ —
and the operation never writes to the remote channel: the shop component of
the world is returned untouched. -/
theorem c7_read_only_sync_idempotent (db : DB) (shop : ShopifyStore) (t1 t2 : Nat) :
    ((syncInventoryFromShopifyReadOnly
        (syncInventoryFromShopifyReadOnly db shop t1).2 shop t2).2.inventory.map eraseSyncAt =
      (syncInventoryFromShopifyReadOnly db shop t1).2.inventory.map eraseSyncAt) ∧
    ((syncInventoryFromShopifyReadOnly
        (syncInventoryFromShopifyReadOnly db shop t1).2 shop t2).2.products =
      (syncInventoryFromShopifyReadOnly db shop t1).2.products) ∧
    ((syncInventoryFromShopifyReadOnly
        (syncInventoryFromShopifyReadOnly db shop t1).2 shop t2).2.variants =
      (syncInventoryFromShopifyReadOnly db shop t1).2.variants) ∧
    ((syncInventoryFromShopifyReadOnly
        (syncInventoryFromShopifyReadOnly db shop t1).2 shop t2).2.mappings =
      (syncInventoryFromShopifyReadOnly db shop t1).2.mappings) ∧
    ((syncInventoryFromShopifyReadOnly
        (syncInventoryFromShopifyReadOnly db shop t1).2 shop t2).2.syncLogs =
      (syncInventoryFromShopifyReadOnly db shop t1).2.syncLogs) ∧
    (∀ (w : World) (now : Nat), (applyOp w now .readOnlySyncOp).shop = w.shop) := by
  have h1 := syncReadOnly_db_char db shop t1
  have hInv1 : (syncInventoryFromShopifyReadOnly db shop t1).2.inventory =
      (ensureInternalInventoryExists db t1).inventory.map
        (fun r => (shopifyJoinRows (ensureInternalInventoryExists db t1)).foldl
          (fun r m => readOnlyRowStep shop t1 m r) r) :=
    (congrArg DB.inventory h1).trans rfl
  have hVar1 : (syncInventoryFromShopifyReadOnly db shop t1).2.variants = db.variants :=
    ((congrArg DB.variants h1).trans rfl).trans (ensure_tables db t1).2.1
  have hPresence : ∀ v ∈ (syncInventoryFromShopifyReadOnly db shop t1).2.variants,
      (((syncInventoryFromShopifyReadOnly db shop t1).2.inventory).any
        (fun r => r.variantId == v.id && r.channel == "internal")) = true := by
    intro v hv
    have hv' : v ∈ db.variants := by rw [hVar1] at hv; exact hv
    have hbase := ensure_presence db t1 v hv'
    rw [hInv1]
    rw [any_map_internal _
      (fun r => ⟨(readOnlyFoldSteps_skel shop t1 _ r).2.1,
        (readOnlyFoldSteps_skel shop t1 _ r).2.2.1⟩)]
    exact hbase
  have hEnsure2 : ensureInternalInventoryExists
      ((syncInventoryFromShopifyReadOnly db shop t1).2) t2 =
      (syncInventoryFromShopifyReadOnly db shop t1).2 :=
    ensure_noop _ t2 hPresence
  have h2 := syncReadOnly_db_char ((syncInventoryFromShopifyReadOnly db shop t1).2) shop t2
  rw [hEnsure2] at h2
  have hrows : shopifyJoinRows ((syncInventoryFromShopifyReadOnly db shop t1).2) =
      shopifyJoinRows (ensureInternalInventoryExists db t1) := by
    rw [h1]
    exact rfl
  rw [hrows] at h2
  have hInv2 : (syncInventoryFromShopifyReadOnly
      ((syncInventoryFromShopifyReadOnly db shop t1).2) shop t2).2.inventory =
      ((syncInventoryFromShopifyReadOnly db shop t1).2.inventory).map
        (fun r => (shopifyJoinRows (ensureInternalInventoryExists db t1)).foldl
          (fun r m => readOnlyRowStep shop t2 m r) r) :=
    (congrArg DB.inventory h2).trans rfl
  refine ⟨?_, ?_, ?_, ?_, ?_, fun w now => rfl⟩
  · rw [hInv2, hInv1]
    simp only [List.map_map]
    apply List.map_congr_left
    intro r _
    simp only [Function.comp]
    exact readOnlyFoldSteps_idem shop t1 t2 _ r
  · exact (congrArg DB.products h2).trans rfl
  · exact (congrArg DB.variants h2).trans rfl
  · exact (congrArg DB.mappings h2).trans rfl
  · exact (congrArg DB.syncLogs h2).trans rfl

theorem getProductInventory_spec (s : ShopifyStore) (pid vid : String) (inv : InventoryInfo)
    (h : getProductInventory s pid vid = some inv) :
    inv.reserved = 0 ∧ inv.quantity = inv.available := by
  unfold getProductInventory at h
  split at h
  · simp at h
  · split at h
    · simp at h
    · split at h
      · simp at h
      · split at h
        · injection h with h2
          subst h2
          exact ⟨rfl, rfl⟩
        · split at h
          · injection h with h2
            subst h2
            exact ⟨rfl, rfl⟩
          · simp at h

theorem readOnlyMatchInv_some_fetch (shop : ShopifyStore) (m : ChannelMapping)
    (r : InventoryRecord) (inv : InventoryInfo)
    (h : readOnlyMatchInv shop m r = some inv) :
    ∃ pid vid, getProductInventory shop pid vid = some inv := by
  cases hcp : m.channelProductId with
  | none => simp [readOnlyMatchInv, hcp] at h
  | some pid =>
    cases hcv : m.channelVariantId with
    | none => simp [readOnlyMatchInv, hcp, hcv] at h
    | some vid =>
      cases hif : (decide (pid = "") || decide (vid = "")) with
      | true => simp [readOnlyMatchInv, hcp, hcv, hif] at h
      | false =>
        cases hfetch : getProductInventory shop pid vid with
        | none => simp [readOnlyMatchInv, hcp, hcv, hif, hfetch] at h
        | some inv0 =>
          cases hc : (r.variantId == m.variantId &&
              (r.channel == "shopify" || r.channel == "internal")) with
          | false => simp [readOnlyMatchInv, hcp, hcv, hif, hfetch, hc] at h
          | true =>
            have hinj : inv0 = inv := by
              simpa [readOnlyMatchInv, hcp, hcv, hif, hfetch, hc] using h
            exact ⟨pid, vid, hinj ▸ hfetch⟩

theorem syncReadOnly_matched_reserved_zero (db : DB) (shop : ShopifyStore) (now : Nat)
    (r : InventoryRecord)
    (hr : r ∈ (syncInventoryFromShopifyReadOnly db shop now).2.inventory)
    (hex : ∃ m ∈ shopifyJoinRows (ensureInternalInventoryExists db now),
      readOnlyMatchInv shop m r ≠ none) :
    r.reserved = 0 := by
  have hInv : (syncInventoryFromShopifyReadOnly db shop now).2.inventory =
      (ensureInternalInventoryExists db now).inventory.map
        (fun r => (shopifyJoinRows (ensureInternalInventoryExists db now)).foldl
          (fun r m => readOnlyRowStep shop now m r) r) :=
    (congrArg DB.inventory (syncReadOnly_db_char db shop now)).trans rfl
  rw [hInv] at hr
  obtain ⟨r0, hr0, hfr⟩ := List.mem_map.mp hr
  obtain ⟨m, hm, hmatch⟩ := hex
  have hskel := readOnlyFoldSteps_skel shop now
    (shopifyJoinRows (ensureInternalInventoryExists db now)) r0
  have hmatch0 : readOnlyMatchInv shop m r0 ≠ none := by
    rw [← readOnlyMatchInv_congr shop m r0
      ((shopifyJoinRows (ensureInternalInventoryExists db now)).foldl
        (fun r m => readOnlyRowStep shop now m r) r0) hskel.2.1 hskel.2.2.1]
    rw [← hfr] at hmatch
    exact hmatch
  obtain ⟨inv0, hinv0⟩ := Option.ne_none_iff_exists'.mp hmatch0
  have hmemfm : inv0 ∈ (shopifyJoinRows (ensureInternalInventoryExists db now)).filterMap
      (fun m => readOnlyMatchInv shop m r0) :=
    List.mem_filterMap.mpr ⟨m, hm, hinv0⟩
  have hsome := lastSome_isSome_of_mem _ inv0 hmemfm
  obtain ⟨invL, hinvL⟩ := Option.isSome_iff_exists.mp hsome
  have hD := readOnlyFoldSteps_lastMatch shop now
    (shopifyJoinRows (ensureInternalInventoryExists db now)) r0
  have hlm : lastMatch shop (shopifyJoinRows (ensureInternalInventoryExists db now)) r0 =
      some invL := hinvL
  rw [hlm] at hD
  have hres : ((shopifyJoinRows (ensureInternalInventoryExists db now)).foldl
      (fun r m => readOnlyRowStep shop now m r) r0).reserved = invL.reserved := by
    have := congrArg InventoryRecord.reserved hD
    simpa [readOnlyWrite] using this
  have hmemL := lastSome_mem _ invL hlm
  obtain ⟨m', hm', hminv⟩ := List.mem_filterMap.mp hmemL
  obtain ⟨pid, vid, hfetch⟩ := readOnlyMatchInv_some_fetch shop m' r0 invL hminv
  have hzero := (getProductInventory_spec shop pid vid invL hfetch).1
  rw [← hfr]
  rw [hres, hzero]

/-- C9: ShopifyService.getProductInventory always reports `reserved = 0` and
`quantity = available` whenever it returns a value; consequently every run of
the read-only sync overwrites the reserved field of every InventoryRecord it
touches (the shopify-channel and internal records of each mapped, fetchable
variant) to 0, discarding any locally held reservation. -/
theorem c9_get_inventory_reserved_zero :
    (∀ (s : ShopifyStore) (pid vid : String) (inv : InventoryInfo),
      getProductInventory s pid vid = some inv →
        inv.reserved = 0 ∧ inv.quantity = inv.available) ∧
    (∀ (db : DB) (shop : ShopifyStore) (now : Nat) (r : InventoryRecord),
      r ∈ (syncInventoryFromShopifyReadOnly db shop now).2.inventory →
      (∃ m ∈ shopifyJoinRows (ensureInternalInventoryExists db now),
        readOnlyMatchInv shop m r ≠ none) →
      r.reserved = 0) :=
  ⟨getProductInventory_spec, syncReadOnly_matched_reserved_zero⟩

/-- Witness for C9: the fetch against `exInvShop` returns the level 4 with
reserved 0 and quantity equal to available. -/
theorem c9_get_inventory_reserved_zero_witness :
    ({ quantity := 4, available := 4, reserved := 0 } : InventoryInfo).reserved = 0 ∧
    ({ quantity := 4, available := 4, reserved := 0 } : InventoryInfo).quantity =
      ({ quantity := 4, available := 4, reserved := 0 } : InventoryInfo).available :=
  c9_get_inventory_reserved_zero.1 exInvShop "5" "1"
    { quantity := 4, available := 4, reserved := 0 } (by decide)

theorem nodup_append_key {α β : Type} [DecidableEq β] (key : α → β) (l : List α) (a : α)
    (h : (l.map key).Nodup) (hna : key a ∉ l.map key) :
    ((l ++ [a]).map key).Nodup := by
  rw [List.map_append]
  rw [List.nodup_append]
  refine ⟨h, List.nodup_singleton _, ?_⟩
  intro x hx
  simp only [List.map_cons, List.map_nil, List.mem_singleton]
  intro hxa
  exact hna (hxa ▸ hx)

theorem inv_key_not_mem (l : List InventoryRecord) (r : InventoryRecord)
    (h : (l.any (fun q => q.variantId == r.variantId && q.channel == r.channel)) = false) :
    invKey r ∉ l.map invKey := by
  intro hmem
  obtain ⟨q, hq, hkey⟩ := List.mem_map.mp hmem
  have := List.any_eq_false.mp h q hq
  unfold invKey at hkey
  have h1 : q.variantId = r.variantId := congrArg Prod.fst hkey
  have h2 : q.channel = r.channel := congrArg Prod.snd hkey
  simp [h1, h2] at this

theorem goodDB_insertProductRow (db : DB) (r : ProductRow) (i : Nat) (db' : DB)
    (h : insertProductRow db r = .ok (i, db')) (hg : GoodDB db) : GoodDB db' := by
  unfold insertProductRow at h
  split at h
  · exact absurd h (by simp)
  · injection h with h1
    injection h1 with h2 h3
    subst h3
    exact hg

theorem goodDB_insertVariantRow (db : DB) (r : VariantRow) (i : Nat) (db' : DB)
    (h : insertVariantRow db r = .ok (i, db')) (hg : GoodDB db) : GoodDB db' := by
  unfold insertVariantRow at h
  split at h
  · exact absurd h (by simp)
  · injection h with h1
    injection h1 with h2 h3
    subst h3
    exact hg

theorem goodDB_insertInventoryRecord (db : DB) (r : InventoryRecord) (i : Nat) (db' : DB)
    (h : insertInventoryRecord db r = .ok (i, db')) (hg : GoodDB db)
    (hr : InvRowGood r) : GoodDB db' := by
  unfold insertInventoryRecord at h
  split at h
  · exact absurd h (by simp)
  · rename_i hguard
    rw [Bool.not_eq_true] at hguard
    injection h with h1
    injection h1 with h2 h3
    subst h3
    refine ⟨?_, ?_⟩
    · intro q hq
      simp only [List.mem_append, List.mem_singleton] at hq
      rcases hq with hq | hq
      · exact hg.1 q hq
      · subst hq; exact hr
    · show ((db.inventory ++ [{ r with id := db.nextId }]).map invKey).Nodup
      apply nodup_append_key invKey _ _ hg.2
      have : invKey { r with id := db.nextId } = invKey r := rfl
      rw [this]
      exact inv_key_not_mem _ _ hguard

theorem goodDB_insertChannelMapping (db : DB) (r : ChannelMapping) (i : Nat) (db' : DB)
    (h : insertChannelMapping db r = .ok (i, db')) (hg : GoodDB db) : GoodDB db' := by
  unfold insertChannelMapping at h
  injection h with h1
  injection h1 with h2 h3
  subst h3
  exact hg

theorem goodDB_appendLog (db : DB) (e : SyncLogEntry) (hg : GoodDB db) :
    GoodDB (appendLog db e) := hg

theorem goodDB_updateProductRows (db : DB) (p) (f) (hg : GoodDB db) :
    GoodDB (updateProductRows db p f) := hg

theorem goodDB_updateVariantRows (db : DB) (p) (f) (hg : GoodDB db) :
    GoodDB (updateVariantRows db p f) := hg

theorem invKeys_map_preserved (l : List InventoryRecord)
    (g : InventoryRecord → InventoryRecord)
    (hk : ∀ r, (g r).variantId = r.variantId ∧ (g r).channel = r.channel) :
    (l.map g).map invKey = l.map invKey := by
  rw [List.map_map]
  apply List.map_congr_left
  intro r _
  show invKey (g r) = invKey r
  unfold invKey
  rw [(hk r).1, (hk r).2]

theorem goodDB_updateInventoryRows (db : DB) (p : InventoryRecord → Bool)
    (f : InventoryRecord → InventoryRecord) (hg : GoodDB db)
    (hk : ∀ r, (f r).variantId = r.variantId ∧ (f r).channel = r.channel)
    (hP : ∀ r, InvRowGood r → InvRowGood (f r)) :
    GoodDB (updateInventoryRows db p f) := by
  refine ⟨?_, ?_⟩
  · intro q hq
    simp only [updateInventoryRows_inventory] at hq
    obtain ⟨r0, hr0, hfr⟩ := List.mem_map.mp hq
    subst hfr
    by_cases hp : p r0 = true
    · rw [if_pos hp]; exact hP r0 (hg.1 r0 hr0)
    · rw [if_neg hp]; exact hg.1 r0 hr0
  · show ((db.inventory.map fun r => if p r then f r else r).map invKey).Nodup
    rw [invKeys_map_preserved _ _ (fun r => by
      by_cases hp : p r = true
      · rw [if_pos hp]; exact hk r
      · rw [if_neg hp]; exact ⟨rfl, rfl⟩)]
    exact hg.2

theorem goodDB_updateMappingRows (db : DB) (p : ChannelMapping → Bool)
    (f : ChannelMapping → ChannelMapping) (hg : GoodDB db)
    (hk : ∀ r, (f r).variantId = r.variantId ∧ (f r).channel = r.channel) :
    GoodDB (updateMappingRows db p f) := hg

theorem goodDB_ensure (db : DB) (now : Nat) (hg : GoodDB db) :
    GoodDB (ensureInternalInventoryExists db now) := by
  unfold ensureInternalInventoryExists
  suffices h : ∀ (vs : List VariantRow) (acc : DB), GoodDB acc →
      GoodDB (vs.foldl (fun acc v =>
        if acc.inventory.any (fun r => r.variantId == v.id && r.channel == "internal") then acc
        else { acc with
          inventory := acc.inventory ++
            [{ id := acc.nextId, variantId := v.id, channel := "internal"
               quantity := 0, available := 0, reserved := 0, lastSyncAt := now }]
          nextId := acc.nextId + 1 }) acc) from h db.variants db hg
  intro vs
  induction vs with
  | nil => intro acc hacc; exact hacc
  | cons v vs ih =>
    intro acc hacc
    rw [List.foldl_cons]
    by_cases h : (acc.inventory.any (fun r => r.variantId == v.id && r.channel == "internal")) = true
    · rw [if_pos h]; exact ih acc hacc
    · rw [if_neg h]
      apply ih
      rw [Bool.not_eq_true] at h
      refine ⟨?_, ?_⟩
      · intro q hq
        simp only [List.mem_append, List.mem_singleton] at hq
        rcases hq with hq | hq
        · exact hacc.1 q hq
        · subst hq; exact ⟨rfl, rfl⟩
      · show ((acc.inventory ++
          [({ id := acc.nextId, variantId := v.id, channel := "internal"
              quantity := 0, available := 0, reserved := 0,
              lastSyncAt := now } : InventoryRecord)]).map invKey).Nodup
        apply nodup_append_key invKey _ _ hacc.2
        exact inv_key_not_mem _ _ h

theorem goodDB_importVariants (now pid : Nat) (psku spIdStr : String) :
    ∀ (vs : List RemoteVariant) (db : DB), GoodDB db →
    GoodDB (importVariants now pid psku spIdStr vs db).2 := by
  intro vs
  induction vs with
  | nil => intro db hg; exact hg
  | cons v vs ih =>
    intro db hg
    unfold importVariants
    split
    · exact ih db hg
    · split
      · exact ih db hg
      · dsimp only
        split
        · exact hg
        · rename_i newVid db1 hv
          have hg1 := goodDB_insertVariantRow db _ newVid db1 hv hg
          split
          · exact hg1
          · rename_i i2 db2 hi1
            have hg2 := goodDB_insertInventoryRecord db1 _ i2 db2 hi1 hg1 ⟨rfl, rfl⟩
            split
            · exact hg2
            · rename_i i3 db3 hi2
              have hg3 := goodDB_insertInventoryRecord db2 _ i3 db3 hi2 hg2 ⟨rfl, rfl⟩
              split
              · exact hg3
              · rename_i i4 db4 hm
                have hg4 := goodDB_insertChannelMapping db3 _ i4 db4 hm hg3
                exact ih db4 hg4

theorem goodDB_importFromShopify (db : DB) (now : Nat) (sp : RemoteProduct)
    (hg : GoodDB db) : GoodDB (importFromShopify db now sp).2 := by
  unfold importFromShopify
  split
  · exact hg
  · rename_i spId hval
    dsimp only
    split
    · exact hg
    · rename_i pid db1 hins
      have hg1 := goodDB_insertProductRow db _ pid db1 hins hg
      split
      · rename_i e db2 hloop
        have : GoodDB (importVariants now pid (importSku sp spId) (toString spId) sp.variants db1).2 :=
          goodDB_importVariants now pid _ _ sp.variants db1 hg1
        rw [hloop] at this
        exact this
      · rename_i db2 hloop
        have : GoodDB (importVariants now pid (importSku sp spId) (toString spId) sp.variants db1).2 :=
          goodDB_importVariants now pid _ _ sp.variants db1 hg1
        rw [hloop] at this
        exact this

theorem goodDB_deployMappings (now productId : Nat) (pidStr : String) :
    ∀ (pairs : List (VariantRow × RemoteVariant)) (db : DB), GoodDB db →
    GoodDB (deployMappings now productId pidStr pairs db).2 := by
  intro pairs
  induction pairs with
  | nil => intro db hg; exact hg
  | cons p rest ih =>
    intro db hg
    obtain ⟨v, sv⟩ := p
    unfold deployMappings
    split
    · exact hg
    · split
      · exact hg
      · rename_i i1 db1 hm
        have hg1 := goodDB_insertChannelMapping db _ i1 db1 hm hg
        split
        · exact hg1
        · rename_i i2 db2 hi
          have hg2 := goodDB_insertInventoryRecord db1 _ i2 db2 hi hg1 ⟨rfl, rfl⟩
          exact ih db2 hg2

theorem goodDB_deployToShopify (w : World) (now : Nat) (product : ProductRow)
    (hg : GoodDB w.db) : GoodDB (deployToShopify w now product).2.db := by
  unfold deployToShopify
  dsimp only
  split
  · exact hg
  · rename_i created shop1 hcreate
    split
    · rename_i e db1 hloop
      have : GoodDB (deployMappings now product.id (toString (created.id.getD 0))
          ((w.db.variants.filter (fun v => v.productId == product.id)).zip created.variants)
          w.db).2 :=
        goodDB_deployMappings now product.id _ _ w.db hg
      rw [hloop] at this
      exact this
    · rename_i db1 hloop
      have : GoodDB (deployMappings now product.id (toString (created.id.getD 0))
          ((w.db.variants.filter (fun v => v.productId == product.id)).zip created.variants)
          w.db).2 :=
        goodDB_deployMappings now product.id _ _ w.db hg
      rw [hloop] at this
      exact this

theorem goodDB_updateVariantsLoop (now productId : Nat) :
    ∀ (vs : List RemoteVariant) (db : DB), GoodDB db →
    GoodDB (updateVariantsLoop now productId vs db).2 := by
  intro vs
  induction vs with
  | nil => intro db hg; exact hg
  | cons v vs ih =>
    intro db hg
    unfold updateVariantsLoop
    split
    · exact hg
    · split
      · exact ih db hg
      · rename_i vId m hm
        dsimp only
        apply ih
        apply goodDB_updateMappingRows
        · apply goodDB_updateInventoryRows
          · exact goodDB_updateVariantRows db _ _ hg
          · intro r; exact ⟨rfl, rfl⟩
          · intro r hr; exact ⟨hr.1, rfl⟩
        · intro r; exact ⟨rfl, rfl⟩

theorem goodDB_updateFromShopify (db : DB) (now : Nat) (productId : Nat)
    (sp : RemoteProduct) (hg : GoodDB db) :
    GoodDB (updateFromShopify db now productId sp).2 := by
  unfold updateFromShopify
  have hg1 : GoodDB (updateProductRows db (fun p => p.id == productId) (fun p =>
      { p with name := sp.title.getD p.name
               description := jsStrOr sp.body_html ""
               category := jsStrOr sp.product_type "Uncategorized"
               brand := jsStrOr sp.vendor "Unknown"
               basePrice := jsStrOr (sp.variants.head?.bind (·.price)) "0" })) :=
    goodDB_updateProductRows db _ _ hg
  dsimp only
  split
  · rename_i e db2 hloop
    have := goodDB_updateVariantsLoop now productId sp.variants _ hg1
    rw [hloop] at this
    exact this
  · rename_i db2 hloop
    have := goodDB_updateVariantsLoop now productId sp.variants _ hg1
    rw [hloop] at this
    split
    · exact this
    · exact this

theorem goodDB_markProductAsDeleted (db : DB) (productId : Nat) (hg : GoodDB db) :
    GoodDB (markProductAsDeleted db productId) := hg

theorem invRowGood_rowStep (shop : ShopifyStore) (now : Nat) (m : ChannelMapping)
    (r : InventoryRecord) (h : InvRowGood r) :
    InvRowGood (readOnlyRowStep shop now m r) := by
  rw [readOnlyRowStep_eq_match]
  cases hmi : readOnlyMatchInv shop m r with
  | none => exact h
  | some inv =>
    obtain ⟨pid, vid, hfetch⟩ := readOnlyMatchInv_some_fetch shop m r inv hmi
    have hspec := getProductInventory_spec shop pid vid inv hfetch
    exact ⟨hspec.1, hspec.2.symm⟩

theorem invRowGood_foldSteps (shop : ShopifyStore) (now : Nat)
    (ms : List ChannelMapping) : ∀ r : InventoryRecord, InvRowGood r →
    InvRowGood (ms.foldl (fun r m => readOnlyRowStep shop now m r) r) := by
  induction ms with
  | nil => intro r h; exact h
  | cons m ms ih =>
    intro r h
    rw [List.foldl_cons]
    exact ih _ (invRowGood_rowStep shop now m r h)

theorem goodDB_syncReadOnly (db : DB) (shop : ShopifyStore) (now : Nat)
    (hg : GoodDB db) : GoodDB (syncInventoryFromShopifyReadOnly db shop now).2 := by
  rw [syncReadOnly_db_char db shop now]
  have hge := goodDB_ensure db now hg
  refine ⟨?_, ?_⟩
  · intro q hq
    obtain ⟨r0, hr0, hfr⟩ := List.mem_map.mp hq
    subst hfr
    exact invRowGood_foldSteps shop now _ r0 (hge.1 r0 hr0)
  · show (((ensureInternalInventoryExists db now).inventory.map _).map invKey).Nodup
    rw [invKeys_map_preserved _ _ (fun r =>
      ⟨(readOnlyFoldSteps_skel shop now _ r).2.1,
       (readOnlyFoldSteps_skel shop now _ r).2.2.1⟩)]
    exact hge.2

theorem goodDB_pullFold (now : Nat) : ∀ (items : List InventoryRecord) (acc : Nat × DB),
    GoodDB acc.2 → (∀ s ∈ items, InvRowGood s) →
    GoodDB (items.foldl (pullStep now) acc).2 := by
  intro items
  induction items with
  | nil => intro acc hg _; exact hg
  | cons s items ih =>
    intro acc hg hall
    rw [List.foldl_cons]
    apply ih
    · unfold pullStep
      split
      · apply goodDB_updateInventoryRows _ _ _ hg
        · intro r; exact ⟨rfl, rfl⟩
        · intro r _
          have hs := hall s (List.mem_cons_self _ _)
          exact ⟨hs.1, hs.2⟩
      · exact hg
    · intro u hu; exact hall u (List.mem_cons_of_mem _ hu)

theorem goodDB_pushFold (now : Nat) : ∀ (items : List InventoryRecord) (st : PushState),
    GoodDB st.w.db → (∀ s ∈ items, InvRowGood s) →
    GoodDB ((items.foldl (pushStep now) st).w.db) := by
  intro items
  induction items with
  | nil => intro st hg _; exact hg
  | cons item items ih =>
    intro st hg hall
    rw [List.foldl_cons]
    apply ih
    · unfold pushStep
      split
      · exact hg
      · split
        · exact hg
        · split
          · exact hg
          · split
            · exact hg
            · split
              · apply goodDB_updateMappingRows _ _ _ hg
                intro r; exact ⟨rfl, rfl⟩
              · split
                · apply goodDB_updateMappingRows _ _ _ hg
                  intro r; exact ⟨rfl, rfl⟩
                · dsimp only
                  apply goodDB_updateMappingRows
                  · apply goodDB_updateInventoryRows _ _ _ hg
                    · intro r; exact ⟨rfl, rfl⟩
                    · intro r _
                      have hi := hall item (List.mem_cons_self _ _)
                      exact ⟨hi.1, hi.2⟩
                  · intro r; exact ⟨rfl, rfl⟩
    · intro u hu; exact hall u (List.mem_cons_of_mem _ hu)

theorem goodDB_bidirSync (w : World) (now : Nat) (hg : GoodDB w.db) :
    GoodDB (syncInventoryAcrossChannels w now).2.db := by
  have hge := goodDB_ensure w.db now hg
  have hpull : GoodDB (bidirPulled w now).2 := by
    unfold bidirPulled
    apply goodDB_pullFold
    · exact hge
    · intro s hs
      exact hge.1 s (List.mem_of_mem_filter hs)
  have hpush : GoodDB (((pushSnapshot w now).foldl (pushStep now)
      { w := pushWorld w now }).w.db) := by
    apply goodDB_pushFold
    · exact hpull
    · intro s hs
      exact hpull.1 s (List.mem_of_mem_filter hs)
  unfold syncInventoryAcrossChannels
  exact hpush

theorem goodDB_bulkLoop (now : Nat) :
    ∀ (ps : List RemoteProduct) (acc : Nat × Nat × List String × DB),
    GoodDB acc.2.2.2 → GoodDB (bulkImportLoop now ps acc).2.2.2 := by
  intro ps
  induction ps with
  | nil => intro acc hg; exact hg
  | cons p ps ih =>
    intro acc hg
    obtain ⟨imp, fails, errs, db⟩ := acc
    unfold bulkImportLoop
    split
    · rename_i pid db1 hcall
      apply ih
      have := goodDB_importFromShopify db now p hg
      rw [hcall] at this
      exact this
    · rename_i e db1 hcall
      apply ih
      have := goodDB_importFromShopify db now p hg
      rw [hcall] at this
      exact this

theorem goodDB_bulkImport (w : World) (now limit : Nat) (sd : Bool)
    (hg : GoodDB w.db) : GoodDB (importFromShopifyBulk w now limit sd).2.db := by
  unfold importFromShopifyBulk
  split
  · exact hg
  · exact goodDB_bulkLoop now _ _ hg

theorem goodDB_routeDeletionPass (existing : List (ProductRow × List ChannelMapping))
    (remoteIds : List String) : ∀ db : DB, GoodDB db →
    GoodDB (routeDeletionPass existing remoteIds db).1 := by
  unfold routeDeletionPass
  suffices h : ∀ (ex : List (ProductRow × List ChannelMapping)) (acc : DB × Nat),
      GoodDB acc.1 → GoodDB ((ex.foldl (fun (acc : DB × Nat) pr =>
        match pr.2.find? (fun m => m.channel == "shopify") with
        | some m =>
          match m.channelProductId with
          | some c =>
            if remoteIds.contains c then acc
            else (markProductAsDeleted acc.1 pr.1.id, acc.2 + 1)
          | none => (markProductAsDeleted acc.1 pr.1.id, acc.2 + 1)
        | none => acc) acc)).1 by
    intro db hg
    exact h existing (db, 0) hg
  intro ex
  induction ex with
  | nil => intro acc hg; exact hg
  | cons pr ex ih =>
    intro acc hg
    rw [List.foldl_cons]
    apply ih
    split
    · split
      · split
        · exact hg
        · exact goodDB_markProductAsDeleted _ _ hg
      · exact goodDB_markProductAsDeleted _ _ hg
    · exact hg

theorem goodDB_routeImportPass (now : Nat)
    (existing : List (ProductRow × List ChannelMapping)) :
    ∀ (ps : List RemoteProduct) (acc : Nat × Nat × List (Option String × String) × DB),
    GoodDB acc.2.2.2 → GoodDB (routeImportPass now existing ps acc).2.2.2 := by
  intro ps
  induction ps with
  | nil => intro acc hg; exact hg
  | cons p ps ih =>
    intro acc hg
    obtain ⟨imp, upd, fails, db⟩ := acc
    unfold routeImportPass
    split
    · rename_i a1 dbi himp
      dsimp only
      split
      · rename_i pr hfind
        split
        · rename_i a2 db2 hupd
          apply ih
          have := goodDB_updateFromShopify db now pr.1.id p hg
          rw [hupd] at this
          exact this
        · rename_i e2 db2 hupd
          apply ih
          have := goodDB_updateFromShopify db now pr.1.id p hg
          rw [hupd] at this
          exact this
      · apply ih
        have := goodDB_importFromShopify db now p hg
        rw [himp] at this
        exact this
    · rename_i e1 dbi himp
      dsimp only
      split
      · rename_i pr hfind
        split
        · rename_i a2 db2 hupd
          apply ih
          have := goodDB_updateFromShopify db now pr.1.id p hg
          rw [hupd] at this
          exact this
        · rename_i e2 db2 hupd
          apply ih
          have := goodDB_updateFromShopify db now pr.1.id p hg
          rw [hupd] at this
          exact this
      · apply ih
        have := goodDB_importFromShopify db now p hg
        rw [himp] at this
        exact this

theorem goodDB_shopifyImportRoute (w : World) (now limit : Nat) (sd : Bool)
    (hg : GoodDB w.db) : GoodDB (shopifyImportRoute w now limit sd).2.db := by
  unfold shopifyImportRoute
  split
  · exact hg
  · split
    · exact hg
    · dsimp only
      apply goodDB_routeImportPass
      by_cases hsd : sd = true
      · rw [if_pos hsd]
        exact goodDB_routeDeletionPass _ _ _ hg
      · rw [if_neg hsd]
        exact hg

theorem goodDB_applyOp (w : World) (now : Nat) (op : CatalogOp) (hg : GoodDB w.db) :
    GoodDB (applyOp w now op).db := by
  cases op with
  | importOp sp => exact goodDB_importFromShopify w.db now sp hg
  | deployOp product => exact goodDB_deployToShopify w now product hg
  | updateOp pid sp => exact goodDB_updateFromShopify w.db now pid sp hg
  | readOnlySyncOp => exact goodDB_syncReadOnly w.db w.shop now hg
  | bidirSyncOp => exact goodDB_bidirSync w now hg
  | bulkImportOp limit sd => exact goodDB_bulkImport w now limit sd hg
  | routeImportOp limit sd => exact goodDB_shopifyImportRoute w now limit sd hg

theorem goodDB_runOps : ∀ (ops : List (Nat × CatalogOp)) (w : World), GoodDB w.db →
    GoodDB (runOps w ops).db := by
  intro ops
  induction ops with
  | nil => intro w hg; exact hg
  | cons p ops ih =>
    intro w hg
    exact ih _ (goodDB_applyOp w p.1 p.2 hg)

theorem goodDB_emptyDB : GoodDB emptyDB := by
  refine ⟨?_, ?_⟩ <;> simp [emptyDB, InvEquation, InvKeysUnique]

theorem nn_insertProductRow (db : DB) (r : ProductRow) (i : Nat) (db' : DB)
    (h : insertProductRow db r = .ok (i, db')) (hn : DBNonneg db) : DBNonneg db' := by
  unfold insertProductRow at h
  split at h
  · exact absurd h (by simp)
  · injection h with h1
    injection h1 with h2 h3
    subst h3
    exact hn

theorem nn_insertVariantRow (db : DB) (r : VariantRow) (i : Nat) (db' : DB)
    (h : insertVariantRow db r = .ok (i, db')) (hn : DBNonneg db) : DBNonneg db' := by
  unfold insertVariantRow at h
  split at h
  · exact absurd h (by simp)
  · injection h with h1
    injection h1 with h2 h3
    subst h3
    exact hn

theorem nn_insertInventoryRecord (db : DB) (r : InventoryRecord) (i : Nat) (db' : DB)
    (h : insertInventoryRecord db r = .ok (i, db')) (hn : DBNonneg db)
    (hr : InvRowNonneg r) : DBNonneg db' := by
  unfold insertInventoryRecord at h
  split at h
  · exact absurd h (by simp)
  · injection h with h1
    injection h1 with h2 h3
    subst h3
    intro q hq
    simp only [List.mem_append, List.mem_singleton] at hq
    rcases hq with hq | hq
    · exact hn q hq
    · subst hq; exact hr

theorem nn_insertChannelMapping (db : DB) (r : ChannelMapping) (i : Nat) (db' : DB)
    (h : insertChannelMapping db r = .ok (i, db')) (hn : DBNonneg db) : DBNonneg db' := by
  unfold insertChannelMapping at h
  injection h with h1
  injection h1 with h2 h3
  subst h3
  exact hn

theorem nn_updateInventoryRows (db : DB) (p : InventoryRecord → Bool)
    (f : InventoryRecord → InventoryRecord) (hn : DBNonneg db)
    (hP : ∀ r, InvRowNonneg r → InvRowNonneg (f r)) :
    DBNonneg (updateInventoryRows db p f) := by
  intro q hq
  simp only [updateInventoryRows_inventory] at hq
  obtain ⟨r0, hr0, hfr⟩ := List.mem_map.mp hq
  subst hfr
  by_cases hp : p r0 = true
  · rw [if_pos hp]; exact hP r0 (hn r0 hr0)
  · rw [if_neg hp]; exact hn r0 hr0

theorem nn_ensure (db : DB) (now : Nat) (hn : DBNonneg db) :
    DBNonneg (ensureInternalInventoryExists db now) := by
  unfold ensureInternalInventoryExists
  suffices h : ∀ (vs : List VariantRow) (acc : DB), DBNonneg acc →
      DBNonneg (vs.foldl (fun acc v =>
        if acc.inventory.any (fun r => r.variantId == v.id && r.channel == "internal") then acc
        else { acc with
          inventory := acc.inventory ++
            [{ id := acc.nextId, variantId := v.id, channel := "internal"
               quantity := 0, available := 0, reserved := 0, lastSyncAt := now }]
          nextId := acc.nextId + 1 }) acc) from h db.variants db hn
  intro vs
  induction vs with
  | nil => intro acc hacc; exact hacc
  | cons v vs ih =>
    intro acc hacc
    rw [List.foldl_cons]
    by_cases h : (acc.inventory.any (fun r => r.variantId == v.id && r.channel == "internal")) = true
    · rw [if_pos h]; exact ih acc hacc
    · rw [if_neg h]
      apply ih
      intro q hq
      simp only [List.mem_append, List.mem_singleton] at hq
      rcases hq with hq | hq
      · exact hacc q hq
      · subst hq; exact ⟨le_refl 0, le_refl 0⟩

theorem nn_getD_zero (x : Option Int) (hx : OptIntNonneg x) : 0 ≤ x.getD 0 := by
  cases x with
  | none => exact le_refl 0
  | some q => exact hx

theorem nn_importVariants (now pid : Nat) (psku spIdStr : String) :
    ∀ (vs : List RemoteVariant) (db : DB), DBNonneg db →
    (∀ v ∈ vs, OptIntNonneg v.inventory_quantity) →
    DBNonneg (importVariants now pid psku spIdStr vs db).2 := by
  intro vs
  induction vs with
  | nil => intro db hn _; exact hn
  | cons v vs ih =>
    intro db hn hall
    have hv0 : OptIntNonneg v.inventory_quantity := hall v (List.mem_cons_self _ _)
    have hrest : ∀ u ∈ vs, OptIntNonneg u.inventory_quantity :=
      fun u hu => hall u (List.mem_cons_of_mem _ hu)
    unfold importVariants
    split
    · exact ih db hn hrest
    · split
      · exact ih db hn hrest
      · dsimp only
        split
        · exact hn
        · rename_i newVid db1 hv
          have hn1 := nn_insertVariantRow db _ newVid db1 hv hn
          split
          · exact hn1
          · rename_i i2 db2 hi1
            have hn2 := nn_insertInventoryRecord db1 _ i2 db2 hi1 hn1
              ⟨nn_getD_zero _ hv0, nn_getD_zero _ hv0⟩
            split
            · exact hn2
            · rename_i i3 db3 hi2
              have hn3 := nn_insertInventoryRecord db2 _ i3 db3 hi2 hn2
                ⟨nn_getD_zero _ hv0, nn_getD_zero _ hv0⟩
              split
              · exact hn3
              · rename_i i4 db4 hm
                have hn4 := nn_insertChannelMapping db3 _ i4 db4 hm hn3
                exact ih db4 hn4 hrest

theorem nn_importFromShopify (db : DB) (now : Nat) (sp : RemoteProduct)
    (hn : DBNonneg db) (hp : RemoteProductNonneg sp) :
    DBNonneg (importFromShopify db now sp).2 := by
  unfold importFromShopify
  split
  · exact hn
  · rename_i spId hval
    dsimp only
    split
    · exact hn
    · rename_i pid db1 hins
      have hn1 := nn_insertProductRow db _ pid db1 hins hn
      split
      · rename_i e db2 hloop
        have := nn_importVariants now pid (importSku sp spId) (toString spId)
          sp.variants db1 hn1 hp
        rw [hloop] at this
        exact this
      · rename_i db2 hloop
        have := nn_importVariants now pid (importSku sp spId) (toString spId)
          sp.variants db1 hn1 hp
        rw [hloop] at this
        exact this

theorem nn_setLevel (ls : List (Nat × Int)) (iid : Nat) (q : Int)
    (hls : ∀ l ∈ ls, 0 ≤ l.2) (hq : 0 ≤ q) :
    ∀ l ∈ setLevel ls iid q, 0 ≤ l.2 := by
  unfold setLevel
  split
  · intro l hl
    obtain ⟨l0, hl0, hfl⟩ := List.mem_map.mp hl
    by_cases h : (l0.1 == iid) = true
    · rw [if_pos h] at hfl; subst hfl; exact hq
    · rw [if_neg h] at hfl; subst hfl; exact hls l0 hl0
  · intro l hl
    simp only [List.mem_append, List.mem_singleton] at hl
    rcases hl with hl | hl
    · exact hls l hl
    · subst hl; exact hq

theorem nn_updateProductInventory (s : ShopifyStore) (vid : String) (qty : Int)
    (s' : ShopifyStore) (h : updateProductInventory s vid qty = .ok s')
    (hs : ShopNonneg s) (hq : 0 ≤ qty) : ShopNonneg s' := by
  unfold updateProductInventory at h
  split at h
  · exact absurd h (by simp)
  · split at h
    · exact absurd h (by simp)
    · split at h
      · exact absurd h (by simp)
      · split at h
        · exact absurd h (by simp)
        · injection h with h1
          subst h1
          exact ⟨nn_setLevel _ _ _ hs.1 hq, hs.2⟩

theorem updateProductInventory_fields (s : ShopifyStore) (vid : String) (qty : Int)
    (s' : ShopifyStore) (h : updateProductInventory s vid qty = .ok s') :
    s'.initialized = s.initialized ∧ s'.products = s.products ∧
    s'.locations = s.locations := by
  unfold updateProductInventory at h
  split at h
  · exact absurd h (by simp)
  · split at h
    · exact absurd h (by simp)
    · split at h
      · exact absurd h (by simp)
      · split at h
        · exact absurd h (by simp)
        · injection h with h1
          subst h1
          exact ⟨rfl, rfl, rfl⟩

theorem nn_createProduct (s : ShopifyStore) (pd : DeployPayload)
    (created : RemoteProduct) (s' : ShopifyStore)
    (h : createProduct s pd = .ok (created, s')) (hs : ShopNonneg s) : ShopNonneg s' := by
  unfold createProduct at h
  split at h
  · exact absurd h (by simp)
  · injection h with h1
    injection h1 with h2 h3
    subst h3
    refine ⟨hs.1, ?_⟩
    intro p hp
    simp only [List.mem_append, List.mem_singleton] at hp
    rcases hp with hp | hp
    · exact hs.2 p hp
    · subst hp
      intro v hv
      simp only [List.mem_map] at hv
      obtain ⟨vi, hvi, hfv⟩ := hv
      subst hfv
      exact le_refl 0

theorem nn_deployMappings (now productId : Nat) (pidStr : String) :
    ∀ (pairs : List (VariantRow × RemoteVariant)) (db : DB), DBNonneg db →
    DBNonneg (deployMappings now productId pidStr pairs db).2 := by
  intro pairs
  induction pairs with
  | nil => intro db hn; exact hn
  | cons p rest ih =>
    intro db hn
    obtain ⟨v, sv⟩ := p
    unfold deployMappings
    split
    · exact hn
    · split
      · exact hn
      · rename_i i1 db1 hm
        have hn1 := nn_insertChannelMapping db _ i1 db1 hm hn
        split
        · exact hn1
        · rename_i i2 db2 hi
          have hn2 := nn_insertInventoryRecord db1 _ i2 db2 hi hn1 ⟨le_refl 0, le_refl 0⟩
          exact ih db2 hn2

theorem nn_deployToShopify (w : World) (now : Nat) (product : ProductRow)
    (hn : DBNonneg w.db) (hs : ShopNonneg w.shop) :
    DBNonneg (deployToShopify w now product).2.db ∧
    ShopNonneg (deployToShopify w now product).2.shop := by
  unfold deployToShopify
  dsimp only
  split
  · exact ⟨hn, hs⟩
  · rename_i created shop1 hcreate
    have hs1 := nn_createProduct w.shop _ created shop1 hcreate hs
    split
    · rename_i e db1 hloop
      have := nn_deployMappings now product.id (toString (created.id.getD 0))
        ((w.db.variants.filter (fun v => v.productId == product.id)).zip created.variants)
        w.db hn
      rw [hloop] at this
      exact ⟨this, hs1⟩
    · rename_i db1 hloop
      have := nn_deployMappings now product.id (toString (created.id.getD 0))
        ((w.db.variants.filter (fun v => v.productId == product.id)).zip created.variants)
        w.db hn
      rw [hloop] at this
      exact ⟨this, hs1⟩

theorem nn_updateVariantsLoop (now productId : Nat) :
    ∀ (vs : List RemoteVariant) (db : DB), DBNonneg db →
    (∀ v ∈ vs, OptIntNonneg v.inventory_quantity) →
    DBNonneg (updateVariantsLoop now productId vs db).2 := by
  intro vs
  induction vs with
  | nil => intro db hn _; exact hn
  | cons v vs ih =>
    intro db hn hall
    have hv0 : OptIntNonneg v.inventory_quantity := hall v (List.mem_cons_self _ _)
    have hrest : ∀ u ∈ vs, OptIntNonneg u.inventory_quantity :=
      fun u hu => hall u (List.mem_cons_of_mem _ hu)
    unfold updateVariantsLoop
    split
    · exact hn
    · split
      · exact ih db hn hrest
      · rename_i vId m hm
        dsimp only
        apply fun h => ih _ h hrest
        apply nn_updateInventoryRows
        · exact hn
        · intro r _
          exact ⟨nn_getD_zero _ hv0, nn_getD_zero _ hv0⟩

theorem nn_updateFromShopify (db : DB) (now : Nat) (productId : Nat)
    (sp : RemoteProduct) (hn : DBNonneg db) (hp : RemoteProductNonneg sp) :
    DBNonneg (updateFromShopify db now productId sp).2 := by
  unfold updateFromShopify
  have hn1 : DBNonneg (updateProductRows db (fun p => p.id == productId) (fun p =>
      { p with name := sp.title.getD p.name
               description := jsStrOr sp.body_html ""
               category := jsStrOr sp.product_type "Uncategorized"
               brand := jsStrOr sp.vendor "Unknown"
               basePrice := jsStrOr (sp.variants.head?.bind (·.price)) "0" })) := hn
  dsimp only
  split
  · rename_i e db2 hloop
    have := nn_updateVariantsLoop now productId sp.variants _ hn1 hp
    rw [hloop] at this
    exact this
  · rename_i db2 hloop
    have := nn_updateVariantsLoop now productId sp.variants _ hn1 hp
    rw [hloop] at this
    split
    · exact this
    · exact this

theorem nn_getProductInventory (s : ShopifyStore) (pid vid : String) (inv : InventoryInfo)
    (h : getProductInventory s pid vid = some inv) (hs : ShopNonneg s) :
    0 ≤ inv.quantity ∧ 0 ≤ inv.available := by
  unfold getProductInventory at h
  split at h
  · simp at h
  · split at h
    · simp at h
    · rename_i p hp
      split at h
      · simp at h
      · rename_i v hv
        split at h
        · rename_i l hl
          injection h with h2
          subst h2
          have hmem : l ∈ s.inventoryLevels := by
            cases hb : v.inventory_item_id with
            | none => rw [hb] at hl; simp at hl
            | some iid =>
              rw [hb] at hl
              simp only [Option.some_bind] at hl
              exact List.mem_of_find?_eq_some hl
          have := hs.1 l hmem
          exact ⟨this, this⟩
        · split at h
          · rename_i q hq
            injection h with h2
            subst h2
            have hpmem : p ∈ s.products := List.mem_of_find?_eq_some hp
            have hvmem : v ∈ p.variants := List.mem_of_find?_eq_some hv
            have := hs.2 p hpmem v hvmem
            rw [hq] at this
            exact ⟨this, this⟩
          · simp at h

theorem nn_rowStep (shop : ShopifyStore) (now : Nat) (m : ChannelMapping)
    (r : InventoryRecord) (hs : ShopNonneg shop) (h : InvRowNonneg r) :
    InvRowNonneg (readOnlyRowStep shop now m r) := by
  rw [readOnlyRowStep_eq_match]
  cases hmi : readOnlyMatchInv shop m r with
  | none => exact h
  | some inv =>
    obtain ⟨pid, vid, hfetch⟩ := readOnlyMatchInv_some_fetch shop m r inv hmi
    have := nn_getProductInventory shop pid vid inv hfetch hs
    exact ⟨this.1, this.2⟩

theorem nn_foldSteps (shop : ShopifyStore) (now : Nat) (hs : ShopNonneg shop)
    (ms : List ChannelMapping) : ∀ r : InventoryRecord, InvRowNonneg r →
    InvRowNonneg (ms.foldl (fun r m => readOnlyRowStep shop now m r) r) := by
  induction ms with
  | nil => intro r h; exact h
  | cons m ms ih =>
    intro r h
    rw [List.foldl_cons]
    exact ih _ (nn_rowStep shop now m r hs h)

theorem nn_syncReadOnly (db : DB) (shop : ShopifyStore) (now : Nat)
    (hn : DBNonneg db) (hs : ShopNonneg shop) :
    DBNonneg (syncInventoryFromShopifyReadOnly db shop now).2 := by
  rw [syncReadOnly_db_char db shop now]
  have hne := nn_ensure db now hn
  intro q hq
  obtain ⟨r0, hr0, hfr⟩ := List.mem_map.mp hq
  subst hfr
  exact nn_foldSteps shop now hs _ r0 (hne r0 hr0)

theorem nn_pullFold (now : Nat) : ∀ (items : List InventoryRecord) (acc : Nat × DB),
    DBNonneg acc.2 → (∀ s ∈ items, InvRowNonneg s) →
    DBNonneg (items.foldl (pullStep now) acc).2 := by
  intro items
  induction items with
  | nil => intro acc hn _; exact hn
  | cons s items ih =>
    intro acc hn hall
    rw [List.foldl_cons]
    apply ih
    · unfold pullStep
      split
      · apply nn_updateInventoryRows _ _ _ hn
        intro r _
        exact hall s (List.mem_cons_self _ _)
      · exact hn
    · intro u hu; exact hall u (List.mem_cons_of_mem _ hu)

theorem nn_pushFold (now : Nat) : ∀ (items : List InventoryRecord) (st : PushState),
    DBNonneg st.w.db → ShopNonneg st.w.shop → (∀ s ∈ items, InvRowNonneg s) →
    DBNonneg ((items.foldl (pushStep now) st).w.db) ∧
    ShopNonneg ((items.foldl (pushStep now) st).w.shop) := by
  intro items
  induction items with
  | nil => intro st hn hs _; exact ⟨hn, hs⟩
  | cons item items ih =>
    intro st hn hs hall
    have hitem : InvRowNonneg item := hall item (List.mem_cons_self _ _)
    have hrest : ∀ u ∈ items, InvRowNonneg u :=
      fun u hu => hall u (List.mem_cons_of_mem _ hu)
    rw [List.foldl_cons]
    have hgoal : DBNonneg (pushStep now st item).w.db ∧
        ShopNonneg (pushStep now st item).w.shop := by
      unfold pushStep
      split
      · exact ⟨hn, hs⟩
      · split
        · exact ⟨hn, hs⟩
        · split
          · exact ⟨hn, hs⟩
          · split
            · exact ⟨hn, hs⟩
            · split
              · exact ⟨hn, hs⟩
              · split
                · exact ⟨hn, hs⟩
                · rename_i shop1 hupd
                  dsimp only
                  refine ⟨?_, ?_⟩
                  · exact nn_updateInventoryRows st.w.db _ _ hn (fun r _ => hitem)
                  · exact nn_updateProductInventory st.w.shop _ _ shop1 hupd hs hitem.2
    exact ih _ hgoal.1 hgoal.2 hrest

theorem nn_bidirSync (w : World) (now : Nat) (hn : DBNonneg w.db)
    (hs : ShopNonneg w.shop) :
    DBNonneg (syncInventoryAcrossChannels w now).2.db ∧
    ShopNonneg (syncInventoryAcrossChannels w now).2.shop := by
  have hne := nn_ensure w.db now hn
  have hpull : DBNonneg (bidirPulled w now).2 := by
    unfold bidirPulled
    apply nn_pullFold
    · exact hne
    · intro s hsm
      exact hne s (List.mem_of_mem_filter hsm)
  have hpush := nn_pushFold now (pushSnapshot w now) { w := pushWorld w now }
    hpull hs (fun s hsm => hpull s (List.mem_of_mem_filter hsm))
  unfold syncInventoryAcrossChannels
  exact hpush

theorem nn_bulkLoop (now : Nat) :
    ∀ (ps : List RemoteProduct) (acc : Nat × Nat × List String × DB),
    DBNonneg acc.2.2.2 → (∀ p ∈ ps, RemoteProductNonneg p) →
    DBNonneg (bulkImportLoop now ps acc).2.2.2 := by
  intro ps
  induction ps with
  | nil => intro acc hn _; exact hn
  | cons p ps ih =>
    intro acc hn hall
    obtain ⟨imp, fails, errs, db⟩ := acc
    have hp := hall p (List.mem_cons_self _ _)
    have hrest : ∀ u ∈ ps, RemoteProductNonneg u :=
      fun u hu => hall u (List.mem_cons_of_mem _ hu)
    unfold bulkImportLoop
    split
    · rename_i pid db1 hcall
      apply fun h => ih _ h hrest
      have := nn_importFromShopify db now p hn hp
      rw [hcall] at this
      exact this
    · rename_i e db1 hcall
      apply fun h => ih _ h hrest
      have := nn_importFromShopify db now p hn hp
      rw [hcall] at this
      exact this

theorem getProducts_mem (s : ShopifyStore) (limit : Nat) (listed : List RemoteProduct)
    (h : getProducts s limit = .ok listed) : ∀ p ∈ listed, p ∈ s.products := by
  unfold getProducts at h
  split at h
  · exact absurd h (by simp)
  · injection h with h1
    subst h1
    intro p hp
    exact List.mem_of_mem_take hp

theorem nn_bulkImport (w : World) (now limit : Nat) (sd : Bool)
    (hn : DBNonneg w.db) (hs : ShopNonneg w.shop) :
    DBNonneg (importFromShopifyBulk w now limit sd).2.db := by
  unfold importFromShopifyBulk
  split
  · exact hn
  · rename_i listed hlist
    apply nn_bulkLoop now listed _ hn
    intro p hp
    exact hs.2 p (getProducts_mem w.shop limit listed hlist p hp)

theorem nn_routeDeletionPass (existing : List (ProductRow × List ChannelMapping))
    (remoteIds : List String) : ∀ db : DB, DBNonneg db →
    DBNonneg (routeDeletionPass existing remoteIds db).1 := by
  unfold routeDeletionPass
  suffices h : ∀ (ex : List (ProductRow × List ChannelMapping)) (acc : DB × Nat),
      DBNonneg acc.1 → DBNonneg ((ex.foldl (fun (acc : DB × Nat) pr =>
        match pr.2.find? (fun m => m.channel == "shopify") with
        | some m =>
          match m.channelProductId with
          | some c =>
            if remoteIds.contains c then acc
            else (markProductAsDeleted acc.1 pr.1.id, acc.2 + 1)
          | none => (markProductAsDeleted acc.1 pr.1.id, acc.2 + 1)
        | none => acc) acc)).1 by
    intro db hn
    exact h existing (db, 0) hn
  intro ex
  induction ex with
  | nil => intro acc hn; exact hn
  | cons pr ex ih =>
    intro acc hn
    rw [List.foldl_cons]
    apply ih
    split
    · split
      · split
        · exact hn
        · exact hn
      · exact hn
    · exact hn

theorem nn_routeImportPass (now : Nat)
    (existing : List (ProductRow × List ChannelMapping)) :
    ∀ (ps : List RemoteProduct) (acc : Nat × Nat × List (Option String × String) × DB),
    DBNonneg acc.2.2.2 → (∀ p ∈ ps, RemoteProductNonneg p) →
    DBNonneg (routeImportPass now existing ps acc).2.2.2 := by
  intro ps
  induction ps with
  | nil => intro acc hn _; exact hn
  | cons p ps ih =>
    intro acc hn hall
    obtain ⟨imp, upd, fails, db⟩ := acc
    have hp := hall p (List.mem_cons_self _ _)
    have hrest : ∀ u ∈ ps, RemoteProductNonneg u :=
      fun u hu => hall u (List.mem_cons_of_mem _ hu)
    unfold routeImportPass
    split
    · rename_i a1 dbi himp
      dsimp only
      split
      · rename_i pr hfind
        split
        · rename_i a2 db2 hupd
          apply fun h => ih _ h hrest
          have := nn_updateFromShopify db now pr.1.id p hn hp
          rw [hupd] at this
          exact this
        · rename_i e2 db2 hupd
          apply fun h => ih _ h hrest
          have := nn_updateFromShopify db now pr.1.id p hn hp
          rw [hupd] at this
          exact this
      · apply fun h => ih _ h hrest
        have := nn_importFromShopify db now p hn hp
        rw [himp] at this
        exact this
    · rename_i e1 dbi himp
      dsimp only
      split
      · rename_i pr hfind
        split
        · rename_i a2 db2 hupd
          apply fun h => ih _ h hrest
          have := nn_updateFromShopify db now pr.1.id p hn hp
          rw [hupd] at this
          exact this
        · rename_i e2 db2 hupd
          apply fun h => ih _ h hrest
          have := nn_updateFromShopify db now pr.1.id p hn hp
          rw [hupd] at this
          exact this
      · apply fun h => ih _ h hrest
        have := nn_importFromShopify db now p hn hp
        rw [himp] at this
        exact this

theorem nn_shopifyImportRoute (w : World) (now limit : Nat) (sd : Bool)
    (hn : DBNonneg w.db) (hs : ShopNonneg w.shop) :
    DBNonneg (shopifyImportRoute w now limit sd).2.db := by
  unfold shopifyImportRoute
  split
  · exact hn
  · rename_i listed hlist
    split
    · exact hn
    · dsimp only
      apply fun h => nn_routeImportPass now _ listed _ h ?_
      · by_cases hsd : sd = true
        · rw [if_pos hsd]
          exact nn_routeDeletionPass _ _ _ hn
        · rw [if_neg hsd]
          exact hn
      · intro p hp
        exact hs.2 p (getProducts_mem w.shop limit listed hlist p hp)

theorem createProduct_shop_fields (s : ShopifyStore) (pd : DeployPayload)
    (created : RemoteProduct) (s' : ShopifyStore)
    (h : createProduct s pd = .ok (created, s')) :
    s'.initialized = s.initialized ∧ s'.locations = s.locations ∧
    s'.inventoryLevels = s.inventoryLevels := by
  unfold createProduct at h
  split at h
  · exact absurd h (by simp)
  · injection h with h1
    injection h1 with h2 h3
    subst h3
    exact ⟨rfl, rfl, rfl⟩

theorem bulkImport_shop_eq (w : World) (now limit : Nat) (sd : Bool) :
    (importFromShopifyBulk w now limit sd).2.shop = w.shop := by
  unfold importFromShopifyBulk
  split
  · rfl
  · rfl

theorem shopifyImportRoute_shop_eq (w : World) (now limit : Nat) (sd : Bool) :
    (shopifyImportRoute w now limit sd).2.shop = w.shop := by
  unfold shopifyImportRoute
  split
  · rfl
  · split
    · rfl
    · rfl

theorem nn_applyOp (w : World) (now : Nat) (op : CatalogOp)
    (hn : DBNonneg w.db) (hs : ShopNonneg w.shop) (hop : OpNonneg op) :
    DBNonneg (applyOp w now op).db ∧ ShopNonneg (applyOp w now op).shop := by
  cases op with
  | importOp sp => exact ⟨nn_importFromShopify w.db now sp hn hop, hs⟩
  | deployOp product => exact nn_deployToShopify w now product hn hs
  | updateOp pid sp => exact ⟨nn_updateFromShopify w.db now pid sp hn hop, hs⟩
  | readOnlySyncOp => exact ⟨nn_syncReadOnly w.db w.shop now hn hs, hs⟩
  | bidirSyncOp => exact nn_bidirSync w now hn hs
  | bulkImportOp limit sd =>
    refine ⟨nn_bulkImport w now limit sd hn hs, ?_⟩
    show ShopNonneg (importFromShopifyBulk w now limit sd).2.shop
    rw [bulkImport_shop_eq]
    exact hs
  | routeImportOp limit sd =>
    refine ⟨nn_shopifyImportRoute w now limit sd hn hs, ?_⟩
    show ShopNonneg (shopifyImportRoute w now limit sd).2.shop
    rw [shopifyImportRoute_shop_eq]
    exact hs

theorem nn_runOps : ∀ (ops : List (Nat × CatalogOp)) (w : World),
    DBNonneg w.db → ShopNonneg w.shop → (∀ p ∈ ops, OpNonneg p.2) →
    DBNonneg (runOps w ops).db := by
  intro ops
  induction ops with
  | nil => intro w hn _ _; exact hn
  | cons p ops ih =>
    intro w hn hs hall
    have h1 := nn_applyOp w p.1 p.2 hn hs (hall p (List.mem_cons_self _ _))
    exact ih _ h1.1 h1.2 (fun u hu => hall u (List.mem_cons_of_mem _ hu))

/-- C2 (amended): after any sequence of the public catalog operations
starting from an empty store (against an arbitrary remote shop), every
(variantId, channel) pair has at most one InventoryRecord — the staged
schema's unique `channel_variant_idx` enforces it.  The mapping half of the
spec's claim has no backing constraint and is refuted by the
counterexample. -/
theorem c2_unique_inventory (s0 : ShopifyStore)
    (ops : List (Nat × CatalogOp)) :
    InvKeysUnique (runOps { db := emptyDB, shop := s0 } ops).db :=
  (goodDB_runOps ops _ goodDB_emptyDB).2

/-- C2 counterexample: `channel_mappings` has no unique index, so deploying
a product whose variant is already mapped (after importing it) commits a
second mapping for the same (variantId, shopify) pair before the inventory
insert throws on its unique index: the reachable store holds two mappings
for variant 2 on shopify while its InventoryRecords are still unique. -/
theorem c2_counterexample_duplicate_mapping :
    ((runOps { db := emptyDB, shop := { initialized := true } }
        [(0, CatalogOp.importOp exRemap),
         (1, CatalogOp.deployOp { id := 1, sku := "S50", name := "T5", status := "active" })]).db.mappings.countP
      (fun m => m.variantId == 2 && m.channel == "shopify")) = 2
    ∧ ¬ MapKeysUnique (runOps { db := emptyDB, shop := { initialized := true } }
        [(0, CatalogOp.importOp exRemap),
         (1, CatalogOp.deployOp { id := 1, sku := "S50", name := "T5", status := "active" })]).db
    ∧ InvKeysUnique (runOps { db := emptyDB, shop := { initialized := true } }
        [(0, CatalogOp.importOp exRemap),
         (1, CatalogOp.deployOp { id := 1, sku := "S50", name := "T5", status := "active" })]).db := by
  refine ⟨by decide, by decide, by decide⟩

/-- Counterexample to C1 as stated: importing a remote product whose
`inventory_quantity` is negative (Shopify reports negative quantities for
oversold variants) leaves an InventoryRecord with `available < 0` after a
single public operation. -/
theorem c1_counterexample_negative_available :
    ∃ r ∈ (runOps { db := emptyDB, shop := exShopOff }
      [(0, CatalogOp.importOp exNegProduct)]).db.inventory, r.available < 0 := by
  decide

/-- C1 (amended): after any sequence of the public operations from the empty
store, every InventoryRecord satisfies `available = quantity − reserved`
unconditionally; `available ≥ 0` additionally holds whenever the remote shop
and every imported or updated remote payload carry only nonnegative
quantities (it fails for negative remote quantities, which the code copies
verbatim). -/
theorem c1_inventory_field_equation (s0 : ShopifyStore)
    (ops : List (Nat × CatalogOp)) :
    (∀ r ∈ (runOps { db := emptyDB, shop := s0 } ops).db.inventory,
      r.available = r.quantity - r.reserved) ∧
    (ShopNonneg s0 → (∀ p ∈ ops, OpNonneg p.2) →
      ∀ r ∈ (runOps { db := emptyDB, shop := s0 } ops).db.inventory,
        0 ≤ r.available) := by
  constructor
  · intro r hr
    have h := (goodDB_runOps ops _ goodDB_emptyDB).1 r hr
    rw [h.1, h.2]
    exact (sub_zero _).symm
  · intro hs hops r hr
    have hn0 : DBNonneg emptyDB := by intro q hq; simp [emptyDB] at hq
    exact (nn_runOps ops _ hn0 hs hops r hr).2

/-- Witness for C1 (amended), at the Scenario A import against an
uninitialized (hence trivially nonnegative) remote shop. -/
theorem c1_inventory_field_equation_witness :
    ∀ r ∈ (runOps { db := emptyDB, shop := exShopOff }
      [(0, CatalogOp.importOp exShirt)]).db.inventory, 0 ≤ r.available :=
  (c1_inventory_field_equation exShopOff [(0, CatalogOp.importOp exShirt)]).2
    (by decide) (by decide)

theorem bulkLoop_counts (now : Nat) (ps : List RemoteProduct) :
    ∀ (imp fails : Nat) (errs : List String) (db : DB),
      (bulkImportLoop now ps (imp, fails, errs, db)).1
          + (bulkImportLoop now ps (imp, fails, errs, db)).2.1
        = imp + fails + ps.length ∧
      (bulkImportLoop now ps (imp, fails, errs, db)).2.2.1.length + fails
        = errs.length + (bulkImportLoop now ps (imp, fails, errs, db)).2.1 := by
  induction ps with
  | nil => intro imp fails errs db; simp [bulkImportLoop]
  | cons p rest ih =>
    intro imp fails errs db
    rcases hF : importFromShopify db now p with ⟨r, db1⟩
    rcases r with e | v
    · have h1 := (ih imp (fails + 1)
        (errs ++ ["Failed to import " ++ bulkLabel p ++ ": " ++ e]) db1).1
      have h2 := (ih imp (fails + 1)
        (errs ++ ["Failed to import " ++ bulkLabel p ++ ": " ++ e]) db1).2
      simp only [bulkImportLoop, hF]
      simp only [List.length_append, List.length_cons, List.length_nil] at h2 ⊢
      omega
    · have h1 := (ih (imp + 1) fails errs db1).1
      have h2 := (ih (imp + 1) fails errs db1).2
      simp only [bulkImportLoop, hF]
      simp only [List.length_cons] at h1 ⊢
      omega

theorem bulkLoop_errs_mono (now : Nat) (ps : List RemoteProduct) :
    ∀ (imp fails : Nat) (errs : List String) (db : DB) (x : String),
      x ∈ errs → x ∈ (bulkImportLoop now ps (imp, fails, errs, db)).2.2.1 := by
  induction ps with
  | nil => intro imp fails errs db x hx; simpa [bulkImportLoop] using hx
  | cons p rest ih =>
    intro imp fails errs db x hx
    rcases hF : importFromShopify db now p with ⟨r, db1⟩
    rcases r with e | v
    · simp only [bulkImportLoop, hF]
      exact ih _ _ _ _ x (List.mem_append_left _ hx)
    · simp only [bulkImportLoop, hF]
      exact ih _ _ _ _ x hx

theorem bulkLoop_missing_title (now : Nat) (ps : List RemoteProduct) :
    ∀ (imp fails : Nat) (errs : List String) (db : DB) (p : RemoteProduct) (i : Nat),
      p ∈ ps → p.id = some i → i ≠ 0 → (p.title = none ∨ p.title = some "") →
      ("Failed to import " ++ toString i ++ ": "
        ++ ("Invalid Shopify product data: missing title for product " ++ toString i))
        ∈ (bulkImportLoop now ps (imp, fails, errs, db)).2.2.1 := by
  induction ps with
  | nil => intro _ _ _ _ _ _ hp; simp at hp
  | cons q rest ih =>
    intro imp fails errs db p i hp hid hi ht
    rcases List.mem_cons.mp hp with hq | hp'
    · subst hq
      have hv : importValidate p
          = .error ("Invalid Shopify product data: missing title for product "
              ++ toString i) := by
        rcases ht with ht | ht <;> simp [importValidate, hid, hi, ht]
      have hL : bulkLabel p = toString i := by
        rcases ht with ht | ht <;> simp [bulkLabel, hid, ht]
      have hF : importFromShopify db now p
          = (.error ("Invalid Shopify product data: missing title for product "
                ++ toString i),
             appendLog db
               { channel := "shopify", operation := "import", status := "failed"
                 message := "Failed to import product: "
                   ++ ("Invalid Shopify product data: missing title for product "
                        ++ toString i) }) := by
        simp only [importFromShopify, hv]
      simp only [bulkImportLoop, hF, hL]
      exact bulkLoop_errs_mono now rest _ _ _ _ _
        (List.mem_append_right _ (List.mem_singleton.mpr rfl))
    · rcases hF : importFromShopify db now q with ⟨r, db1⟩
      rcases r with e | v
      · simp only [bulkImportLoop, hF]
        exact ih _ _ _ _ p i hp' hid hi ht
      · simp only [bulkImportLoop, hF]
        exact ih _ _ _ _ p i hp' hid hi ht

/-- C3 counterexample: the spec's claims about the bulk-import result fail on
the code.  First, a failing item whose remote id is 0 but whose title is
truthy is reported as `Failed to import Zero: ... missing product ID`: the
message contains no digit at all, so the offending remote id does not appear
in the error list.  Second, the result type carries only
`importedCount/failedCount/totalProcessed/errors` — there are no
`updated` or `deleted` counts — and a remote product that is already mapped
locally is not updated but re-imported, failing on the duplicate SKU and
tallied under `failedCount`. -/
theorem c3_counterexample_error_without_remote_id :
    ((importFromShopifyBulk { db := emptyDB, shop := exBulkShopB } 0 50 true).1
      = .ok { success := true, importedCount := 7, failedCount := 3, totalProcessed := 10
              errors := ["Failed to import 8: Invalid Shopify product data: missing title for product 8",
                         "Failed to import 9: Invalid Shopify product data: missing title for product 9",
                         "Failed to import Zero: Invalid Shopify product data: missing product ID"] }) ∧
    ("Failed to import Zero: Invalid Shopify product data: missing product ID").data.contains '0' = false ∧
    (exBulkShopB.products.getLast?.bind (·.id) = some 0) ∧
    ((importFromShopifyBulk exRelistWorld 1 50 true).1
      = .ok { success := true, importedCount := 0, failedCount := 1, totalProcessed := 1
              errors := ["Failed to import T5: duplicate key value violates unique constraint"] }) ∧
    (exRelistWorld.db.mappings.any (fun m =>
      m.channel == "shopify" && m.channelProductId == some "5")) = true := by
  refine ⟨by decide, by decide, by decide, by decide, by decide⟩

/-- C3 (amended): `importFromShopifyBulk` catches each per-item failure
without aborting the batch: whenever it answers, its counts satisfy
`importedCount + failedCount = totalProcessed` and the error list has exactly
`failedCount` entries; a listed item with a truthy remote id that fails title
validation appears in the error list under that remote id; and on Scenario
C's listing (10 items, 3 title-validation failures) the result is exactly
`importedCount = 7, failedCount = 3, totalProcessed = 10` with the three
errors each carrying the offending remote id.  (The result carries no
`updated` or `deleted` counts, and an error message labels the item by
`title || id`, so a falsy id never appears.) -/
theorem c3_bulk_import_partial_failure :
    (∀ (w : World) (now limit : Nat) (sd : Bool) (res : BulkImportResult),
        (importFromShopifyBulk w now limit sd).1 = .ok res →
          res.importedCount + res.failedCount = res.totalProcessed ∧
          res.errors.length = res.failedCount) ∧
    (∀ (w : World) (now limit : Nat) (sd : Bool) (res : BulkImportResult)
        (listed : List RemoteProduct) (p : RemoteProduct) (i : Nat),
        getProducts w.shop limit = .ok listed →
        (importFromShopifyBulk w now limit sd).1 = .ok res →
        p ∈ listed → p.id = some i → i ≠ 0 →
        (p.title = none ∨ p.title = some "") →
          ("Failed to import " ++ toString i ++ ": "
            ++ ("Invalid Shopify product data: missing title for product " ++ toString i))
            ∈ res.errors) ∧
    ((importFromShopifyBulk { db := emptyDB, shop := exBulkShopA } 0 50 true).1
      = .ok { success := true, importedCount := 7, failedCount := 3, totalProcessed := 10
              errors := ["Failed to import 8: Invalid Shopify product data: missing title for product 8",
                         "Failed to import 9: Invalid Shopify product data: missing title for product 9",
                         "Failed to import 10: Invalid Shopify product data: missing title for product 10"] }) := by
  refine ⟨?_, ?_, by decide⟩
  · intro w now limit sd res hres
    cases hlist : getProducts w.shop limit with
    | error e =>
      simp only [importFromShopifyBulk, hlist] at hres
      exact Except.noConfusion hres
    | ok listed =>
      simp only [importFromShopifyBulk, hlist] at hres
      injection hres with h
      subst h
      have h1 := (bulkLoop_counts now listed 0 0 [] w.db).1
      have h2 := (bulkLoop_counts now listed 0 0 [] w.db).2
      simp only [List.length_nil] at h2
      constructor <;> dsimp only <;> omega
  · intro w now limit sd res listed p i hlist hres hp hid hi ht
    simp only [importFromShopifyBulk, hlist] at hres
    injection hres with h
    subst h
    exact bulkLoop_missing_title now listed 0 0 [] w.db p i hp hid hi ht

/-- Witness for C3 (amended), instantiating both universally quantified
conjuncts at Scenario C's run. -/
theorem c3_bulk_import_partial_failure_witness :
    ((BulkImportResult.mk true 7 3 10
        ["Failed to import 8: Invalid Shopify product data: missing title for product 8",
         "Failed to import 9: Invalid Shopify product data: missing title for product 9",
         "Failed to import 10: Invalid Shopify product data: missing title for product 10"]).importedCount
      + (BulkImportResult.mk true 7 3 10
        ["Failed to import 8: Invalid Shopify product data: missing title for product 8",
         "Failed to import 9: Invalid Shopify product data: missing title for product 9",
         "Failed to import 10: Invalid Shopify product data: missing title for product 10"]).failedCount
      = (BulkImportResult.mk true 7 3 10
        ["Failed to import 8: Invalid Shopify product data: missing title for product 8",
         "Failed to import 9: Invalid Shopify product data: missing title for product 9",
         "Failed to import 10: Invalid Shopify product data: missing title for product 10"]).totalProcessed) ∧
    (("Failed to import " ++ toString (8 : Nat) ++ ": "
        ++ ("Invalid Shopify product data: missing title for product " ++ toString (8 : Nat)))
      ∈ (BulkImportResult.mk true 7 3 10
        ["Failed to import 8: Invalid Shopify product data: missing title for product 8",
         "Failed to import 9: Invalid Shopify product data: missing title for product 9",
         "Failed to import 10: Invalid Shopify product data: missing title for product 10"]).errors) :=
  ⟨(c3_bulk_import_partial_failure.1 { db := emptyDB, shop := exBulkShopA } 0 50 true
      (BulkImportResult.mk true 7 3 10
        ["Failed to import 8: Invalid Shopify product data: missing title for product 8",
         "Failed to import 9: Invalid Shopify product data: missing title for product 9",
         "Failed to import 10: Invalid Shopify product data: missing title for product 10"])
      (by decide)).1,
   c3_bulk_import_partial_failure.2.1 { db := emptyDB, shop := exBulkShopA } 0 50 true
      (BulkImportResult.mk true 7 3 10
        ["Failed to import 8: Invalid Shopify product data: missing title for product 8",
         "Failed to import 9: Invalid Shopify product data: missing title for product 9",
         "Failed to import 10: Invalid Shopify product data: missing title for product 10"])
      (exBulkShopA.products.take 50) { id := some 8, title := none } 8
      (by decide) (by decide) (by decide) rfl (by decide) (Or.inl rfl)⟩

theorem routeDeletionPass_eq_fold (l : List (ProductRow × List ChannelMapping))
    (r : List String) (db : DB) :
    routeDeletionPass l r db = l.foldl (delStep r) (db, 0) := rfl

theorem mark_establishes (db : DB) (pid : Nat) :
    ∀ row ∈ (markProductAsDeleted db pid).products, row.id = pid → row.status = "deleted" := by
  intro row hrow hid
  simp only [markProductAsDeleted, appendLog, updateProductRows, List.mem_map] at hrow
  obtain ⟨p, hp, hrw⟩ := hrow
  by_cases h : (p.id == pid) = true
  · rw [← hrw, if_pos h]
  · rw [← hrw, if_neg h] at hid
    rw [← hrw, if_neg h]
    exact absurd (by simp [hid]) h

theorem mark_preserves (db : DB) (pid qid : Nat)
    (h : ∀ row ∈ db.products, row.id = pid → row.status = "deleted") :
    ∀ row ∈ (markProductAsDeleted db qid).products, row.id = pid → row.status = "deleted" := by
  intro row hrow hid
  simp only [markProductAsDeleted, appendLog, updateProductRows, List.mem_map] at hrow
  obtain ⟨p, hp, hrw⟩ := hrow
  by_cases hq : (p.id == qid) = true
  · rw [← hrw, if_pos hq]
  · rw [← hrw, if_neg hq] at hid
    rw [← hrw, if_neg hq]
    exact h p hp hid

theorem delPass_mono (r : List String) (l : List (ProductRow × List ChannelMapping))
    (pid : Nat) :
    ∀ (acc : DB × Nat),
      (∀ row ∈ acc.1.products, row.id = pid → row.status = "deleted") →
      ∀ row ∈ (l.foldl (delStep r) acc).1.products, row.id = pid → row.status = "deleted" := by
  induction l with
  | nil => intro acc h; exact h
  | cons q rest ih =>
    intro acc h
    simp only [List.foldl_cons]
    apply ih
    rcases hf : q.2.find? (fun m2 => m2.channel == "shopify") with _ | m
    · simp only [delStep, hf]
      exact h
    · rcases hc : m.channelProductId with _ | c
      · simp only [delStep, hf, hc]
        exact mark_preserves acc.1 pid q.1.id h
      · by_cases hr : (r.contains c) = true
        · simp only [delStep, hf, hc]
          rw [if_pos hr]
          exact h
        · simp only [delStep, hf, hc]
          rw [if_neg hr]
          exact mark_preserves acc.1 pid q.1.id h

theorem delPass_hits (r : List String) (l : List (ProductRow × List ChannelMapping)) :
    ∀ (acc : DB × Nat) (pr : ProductRow × List ChannelMapping) (m : ChannelMapping),
      pr ∈ l →
      pr.2.find? (fun m2 => m2.channel == "shopify") = some m →
      m.channelProductId.all (fun c => !r.contains c) = true →
      ∀ row ∈ (l.foldl (delStep r) acc).1.products,
        row.id = pr.1.id → row.status = "deleted" := by
  induction l with
  | nil => intro _ _ _ h; simp at h
  | cons q rest ih =>
    intro acc pr m hpr hm hstale
    rcases List.mem_cons.mp hpr with hq | hpr'
    · subst hq
      have hstep : delStep r acc pr = (markProductAsDeleted acc.1 pr.1.id, acc.2 + 1) := by
        rcases hc : m.channelProductId with _ | c
        · simp only [delStep, hm, hc]
        · have hcontains : (r.contains c) = false := by
            have h2 := hstale
            rw [hc] at h2
            simpa using h2
          simp only [delStep, hm, hc]
          rw [if_neg (by rw [hcontains]; exact Bool.false_ne_true)]
      simp only [List.foldl_cons, hstep]
      exact delPass_mono r rest pr.1.id _ (mark_establishes acc.1 pr.1.id)
    · simp only [List.foldl_cons]
      exact ih (delStep r acc q) pr m hpr' hm hstale

/-- C8 counterexample: `ProductService.importFromShopifyBulk` accepts the
`syncDeletions` option but never reads it.  In `exStaleWorld` the local
product 1 is mapped to remote id 5, which is absent from the current remote
listing; after `importFromShopifyBulk` with `syncDeletions = true` the
product is still `active`, while the `POST /shopify/import` route — the only
code that implements deletion sync — marks it `deleted`. -/
theorem c8_counterexample_bulk_ignores_sync_deletions :
    ((exStaleWorld.db.mappings.any (fun m =>
        m.channel == "shopify" && m.channelProductId == some "5")) = true) ∧
    (((exStaleWorld.shop.products.filterMap (fun p => p.id.map toString)).contains "5")
      = false) ∧
    (((importFromShopifyBulk exStaleWorld 1 50 true).2.db.products.filter
        (fun p => p.id == 1)).map (fun p => p.status) = ["active"]) ∧
    (((shopifyImportRoute exStaleWorld 1 50 true).2.db.products.filter
        (fun p => p.id == 1)).map (fun p => p.status) = ["deleted"]) := by
  refine ⟨by decide, by decide, by decide, by decide⟩

/-- C8 (amended): deletion sync lives in the `POST /shopify/import` route,
not in `importFromShopifyBulk`.  When the route is called with
`syncDeletions` set and the remote listing succeeds with no id-less item,
its import pass runs on the database produced by the deletion pass, and in
that database — i.e. before the import pass begins — every locally mapped
product whose first shopify mapping's remote id is absent from the listing
(or null) already has status `deleted`. -/
theorem c8_route_deletion_before_import (w : World) (now limit : Nat)
    (listed : List RemoteProduct)
    (hlist : getProducts w.shop limit = .ok listed)
    (hids : (listed.any (fun p => p.id.isNone)) = false) :
    ((shopifyImportRoute w now limit true).2.db
      = (routeImportPass now (getShopifyProducts w.db) listed
          (0, 0, [],
            (routeDeletionPass (getShopifyProducts w.db)
              (listed.filterMap (fun p => p.id.map toString)) w.db).1)).2.2.2) ∧
    (∀ pr ∈ getShopifyProducts w.db, ∀ m : ChannelMapping,
      pr.2.find? (fun m2 => m2.channel == "shopify") = some m →
      m.channelProductId.all
        (fun c => !(listed.filterMap (fun p => p.id.map toString)).contains c) = true →
      ∀ row ∈ (routeDeletionPass (getShopifyProducts w.db)
          (listed.filterMap (fun p => p.id.map toString)) w.db).1.products,
        row.id = pr.1.id → row.status = "deleted") := by
  constructor
  · simp only [shopifyImportRoute, hlist, hids]
    rfl
  · intro pr hpr m hm hstale
    rw [routeDeletionPass_eq_fold]
    exact delPass_hits _ _ _ pr m hpr hm hstale

/-- Witness for C8 (amended) at `exStaleWorld`: the mapped product with the
delisted remote id 5 is soft-deleted by the deletion pass. -/
theorem c8_route_deletion_before_import_witness :
    (((routeDeletionPass (getShopifyProducts exStaleWorld.db)
        ([exBulkOk 6].filterMap (fun p => p.id.map toString))
        exStaleWorld.db).1.products.filter (fun row => row.id == 1)).all
      (fun row => row.status == "deleted")) = true := by
  have h := (c8_route_deletion_before_import exStaleWorld 1 50 [exBulkOk 6]
      (by decide) (by decide)).2
    ({ id := 1, sku := "S50", name := "T5", description := "", category := "Uncategorized"
       brand := "Unknown", basePrice := "0.00", status := "active" },
     [{ id := 5, productId := 1, variantId := 2, channel := "shopify"
        channelProductId := some "5", channelVariantId := some "50"
        syncStatus := "synced", lastSyncAt := 0 }])
    (by decide)
    { id := 5, productId := 1, variantId := 2, channel := "shopify"
      channelProductId := some "5", channelVariantId := some "50"
      syncStatus := "synced", lastSyncAt := 0 }
    (by decide) (by decide)
  rw [List.all_eq_true]
  intro row hrow
  have hmem := List.mem_of_mem_filter hrow
  have hid : row.id = 1 := by
    have h2 := List.of_mem_filter hrow
    simpa using h2
  simpa using h row hmem hid

theorem find?_map_pres {α : Type} (l : List α) (g : α → α) (p : α → Bool)
    (h : ∀ a, p (g a) = p a) :
    (l.map g).find? p = (l.find? p).map g := by
  induction l with
  | nil => rfl
  | cons a l ih =>
    by_cases hp : p a = true
    · rw [List.map_cons, List.find?_cons_of_pos _ (by rw [h a]; exact hp),
        List.find?_cons_of_pos _ hp]
      rfl
    · rw [List.map_cons, List.find?_cons_of_neg _ (by rw [h a]; exact hp),
        List.find?_cons_of_neg _ hp, ih]

theorem find?_proj_pres {α β : Type} (l : List α) (g : α → α) (p : α → Bool)
    (proj : α → β) (hp : ∀ a, p (g a) = p a) (hproj : ∀ a, proj (g a) = proj a) :
    ((l.map g).find? p).map proj = (l.find? p).map proj := by
  rw [find?_map_pres l g p hp]
  cases l.find? p with
  | none => rfl
  | some a => simp [hproj a]

theorem find?_isSome_pres {α : Type} (l : List α) (g : α → α) (p : α → Bool)
    (hp : ∀ a, p (g a) = p a) :
    ((l.map g).find? p).isSome = (l.find? p).isSome := by
  rw [find?_map_pres l g p hp]
  cases l.find? p with
  | none => rfl
  | some a => rfl

theorem updInv_isOk_eq (s : ShopifyStore) (vid : String) (q : Int) :
    (updateProductInventory s vid q).isOk
      = (s.initialized && (findRemoteVariantByIdStr s vid).isSome
          && !s.locations.isEmpty
          && ((findRemoteVariantByIdStr s vid).bind (·.inventory_item_id)).isSome) := by
  unfold updateProductInventory
  by_cases hi : s.initialized = true
  · rcases hv : findRemoteVariantByIdStr s vid with _ | v
    · simp [hi, hv, Except.isOk, Except.toBool]
    · by_cases hl : s.locations.isEmpty = true
      · simp [hi, hv, hl, Except.isOk, Except.toBool]
      · rcases hiid : v.inventory_item_id with _ | iid
        · simp [hi, hv, hl, hiid, Except.isOk, Except.toBool]
        · simp [hi, hv, hl, hiid, Except.isOk, Except.toBool]
  · have hi2 : s.initialized = false := by
      cases h2 : s.initialized
      · rfl
      · exact absurd h2 hi
    simp [hi2, Except.isOk, Except.toBool]

theorem validateVariant_congr (s s' : ShopifyStore) (vid : String)
    (h1 : s'.initialized = s.initialized) (h2 : s'.products = s.products) :
    validateVariant s' vid = validateVariant s vid := by
  simp [validateVariant, findRemoteVariantByIdStr, h1, h2]

theorem updInv_ok_fields (s s1 : ShopifyStore) (vid : String) (q : Int)
    (h : updateProductInventory s vid q = .ok s1) :
    s1.initialized = s.initialized ∧ s1.products = s.products
      ∧ s1.locations = s.locations := by
  unfold updateProductInventory at h
  by_cases hi : (!s.initialized) = true
  · rw [if_pos hi] at h
    exact absurd h (by simp)
  · rw [if_neg hi] at h
    rcases hv : findRemoteVariantByIdStr s vid with _ | v <;> simp only [hv] at h
    · exact absurd h (by simp)
    · by_cases hl : s.locations.isEmpty = true
      · rw [if_pos hl] at h
        exact absurd h (by simp)
      · rw [if_neg hl] at h
        rcases hiid : v.inventory_item_id with _ | iid <;> simp only [hiid] at h
        · exact absurd h (by simp)
        · injection h with h
          subst h
          exact ⟨rfl, rfl, rfl⟩

theorem except_tag_eq (x : Except String ShopifyStore) :
    (match x with | .error _ => PushTag.err | .ok _ => PushTag.push)
      = if x.isOk then .push else .err := by
  cases x <;> rfl

theorem findRemote_congr (s s' : ShopifyStore) (vid : String)
    (h : s'.products = s.products) :
    findRemoteVariantByIdStr s' vid = findRemoteVariantByIdStr s vid := by
  simp [findRemoteVariantByIdStr, h]

theorem updInv_isOk_congr (s s' : ShopifyStore) (vid : String) (q : Int)
    (h3 : s'.initialized = s.initialized) (h4 : s'.products = s.products)
    (h5 : s'.locations = s.locations) :
    (updateProductInventory s' vid q).isOk = (updateProductInventory s vid q).isOk := by
  rw [updInv_isOk_eq, updInv_isOk_eq, h3, h5, findRemote_congr s s' vid h4]

theorem pushClassify_congr (w w' : World) (item : InventoryRecord)
    (h1 : (w'.db.inventory.find? (fun r =>
            r.variantId == item.variantId && r.channel == "shopify")).isSome
        = (w.db.inventory.find? (fun r =>
            r.variantId == item.variantId && r.channel == "shopify")).isSome)
    (h2 : (w'.db.mappings.find? (fun m =>
            m.variantId == item.variantId && m.channel == "shopify")).map
            (fun m => (m.id, m.variantId, m.channelVariantId))
        = (w.db.mappings.find? (fun m =>
            m.variantId == item.variantId && m.channel == "shopify")).map
            (fun m => (m.id, m.variantId, m.channelVariantId)))
    (h3 : w'.shop.initialized = w.shop.initialized)
    (h4 : w'.shop.products = w.shop.products)
    (h5 : w'.shop.locations = w.shop.locations) :
    pushClassify w' item = pushClassify w item := by
  unfold pushClassify
  rcases hI : w.db.inventory.find? (fun r =>
      r.variantId == item.variantId && r.channel == "shopify") with _ | r
  · rcases hI2 : w'.db.inventory.find? (fun r =>
        r.variantId == item.variantId && r.channel == "shopify") with _ | r2
    · simp only [hI, hI2]
    · rw [hI, hI2] at h1
      simp at h1
  · rcases hI2 : w'.db.inventory.find? (fun r =>
        r.variantId == item.variantId && r.channel == "shopify") with _ | r2
    · rw [hI, hI2] at h1
      simp at h1
    · simp only [hI, hI2]
      rcases hM : w.db.mappings.find? (fun m =>
          m.variantId == item.variantId && m.channel == "shopify") with _ | m
      · rcases hM2 : w'.db.mappings.find? (fun m =>
            m.variantId == item.variantId && m.channel == "shopify") with _ | m2
        · rw [hM, hM2]
        · rw [hM, hM2] at h2
          simp at h2
      · rcases hM2 : w'.db.mappings.find? (fun m =>
            m.variantId == item.variantId && m.channel == "shopify") with _ | m2
        · rw [hM, hM2] at h2
          simp at h2
        · simp only [hM, hM2]
          rw [hM, hM2] at h2
          injection h2 with h2
          have hcv : m2.channelVariantId = m.channelVariantId := by
            have h6 := congrArg (fun t : Nat × Nat × Option String => t.2.2) h2
            simpa using h6
          rw [hcv]
          rcases hcvv : m.channelVariantId with _ | cvid
          · simp only [hcvv]
          · simp only [hcvv]
            by_cases he : cvid = ""
            · rw [if_pos he, if_pos he]
            · rw [if_neg he, if_neg he,
                validateVariant_congr w.shop w'.shop cvid h3 h4]
              by_cases hv : (!(validateVariant w.shop cvid)) = true
              · rw [if_pos hv, if_pos hv]
              · rw [if_neg hv, if_neg hv]
                have hok := updInv_isOk_congr w.shop w'.shop cvid item.available h3 h4 h5
                rcases hu : updateProductInventory w.shop cvid item.available with e | s1 <;>
                  rcases hu2 : updateProductInventory w'.shop cvid item.available with e2 | s2 <;>
                    rw [hu, hu2] at hok <;> simp only [hu, hu2]
                · simp [Except.isOk, Except.toBool] at hok
                · simp [Except.isOk, Except.toBool] at hok

theorem pushStep_shop_fields (now : Nat) (st : PushState) (j : InventoryRecord) :
    (pushStep now st j).w.shop.initialized = st.w.shop.initialized
    ∧ (pushStep now st j).w.shop.products = st.w.shop.products
    ∧ (pushStep now st j).w.shop.locations = st.w.shop.locations := by
  rcases hInv : st.w.db.inventory.find? (fun r =>
      r.variantId == j.variantId && r.channel == "shopify") with _ | shopItem
  · simp only [pushStep, hInv]
    refine ⟨?_, ?_, ?_⟩ <;> trivial
  · rcases hMap : st.w.db.mappings.find? (fun m =>
        m.variantId == j.variantId && m.channel == "shopify") with _ | m
    · simp only [pushStep, hInv, hMap]
      refine ⟨?_, ?_, ?_⟩ <;> trivial
    · rcases hcv : m.channelVariantId with _ | cvid
      · simp only [pushStep, hInv, hMap, hcv]
        refine ⟨?_, ?_, ?_⟩ <;> trivial
      · by_cases he : cvid = ""
        · simp only [pushStep, hInv, hMap, hcv, if_pos he]
          refine ⟨?_, ?_, ?_⟩ <;> trivial
        · by_cases hval : (!(validateVariant st.w.shop cvid)) = true
          · simp only [pushStep, hInv, hMap, hcv, if_neg he, if_pos hval]
            refine ⟨?_, ?_, ?_⟩ <;> trivial
          · rcases hupd : updateProductInventory st.w.shop cvid j.available with e | shop1
            · simp only [pushStep, hInv, hMap, hcv, if_neg he, if_neg hval, hupd]
              refine ⟨?_, ?_, ?_⟩ <;> trivial
            · simp only [pushStep, hInv, hMap, hcv, if_neg he, if_neg hval, hupd]
              exact updInv_ok_fields st.w.shop shop1 cvid j.available hupd

theorem pushStep_inv_isSome (now : Nat) (st : PushState) (j : InventoryRecord) (v : Nat) :
    ((pushStep now st j).w.db.inventory.find? (fun r =>
        r.variantId == v && r.channel == "shopify")).isSome
      = (st.w.db.inventory.find? (fun r =>
        r.variantId == v && r.channel == "shopify")).isSome := by
  rcases hInv : st.w.db.inventory.find? (fun r =>
      r.variantId == j.variantId && r.channel == "shopify") with _ | shopItem
  · simp only [pushStep, hInv]
  · rcases hMap : st.w.db.mappings.find? (fun m =>
        m.variantId == j.variantId && m.channel == "shopify") with _ | m
    · simp only [pushStep, hInv, hMap]
    · rcases hcv : m.channelVariantId with _ | cvid
      · simp only [pushStep, hInv, hMap, hcv]
      · by_cases he : cvid = ""
        · simp only [pushStep, hInv, hMap, hcv, if_pos he]
        · by_cases hval : (!(validateVariant st.w.shop cvid)) = true
          · simp only [pushStep, hInv, hMap, hcv, if_neg he, if_pos hval,
              updateMappingRows]
          · rcases hupd : updateProductInventory st.w.shop cvid j.available with e | shop1
            · simp only [pushStep, hInv, hMap, hcv, if_neg he, if_neg hval, hupd,
                updateMappingRows]
            · simp only [pushStep, hInv, hMap, hcv, if_neg he, if_neg hval, hupd,
                updateMappingRows, updateInventoryRows]
              apply find?_isSome_pres
              intro a
              by_cases hc : a.id = shopItem.id <;> simp [hc]

theorem pushStep_map_proj (now : Nat) (st : PushState) (j : InventoryRecord) (v : Nat) :
    ((pushStep now st j).w.db.mappings.find? (fun m =>
        m.variantId == v && m.channel == "shopify")).map
        (fun m => (m.id, m.variantId, m.channelVariantId))
      = (st.w.db.mappings.find? (fun m =>
        m.variantId == v && m.channel == "shopify")).map
        (fun m => (m.id, m.variantId, m.channelVariantId)) := by
  rcases hInv : st.w.db.inventory.find? (fun r =>
      r.variantId == j.variantId && r.channel == "shopify") with _ | shopItem
  · simp only [pushStep, hInv]
  · rcases hMap : st.w.db.mappings.find? (fun m =>
        m.variantId == j.variantId && m.channel == "shopify") with _ | m
    · simp only [pushStep, hInv, hMap]
    · rcases hcv : m.channelVariantId with _ | cvid
      · simp only [pushStep, hInv, hMap, hcv]
      · by_cases he : cvid = ""
        · simp only [pushStep, hInv, hMap, hcv, if_pos he]
        · by_cases hval : (!(validateVariant st.w.shop cvid)) = true
          · simp only [pushStep, hInv, hMap, hcv, if_neg he, if_pos hval,
              updateMappingRows]
            apply find?_proj_pres
            · intro a
              by_cases hc : a.id = m.id <;> simp [hc]
            · intro a
              by_cases hc : a.id = m.id <;> simp [hc]
          · rcases hupd : updateProductInventory st.w.shop cvid j.available with e | shop1
            · simp only [pushStep, hInv, hMap, hcv, if_neg he, if_neg hval, hupd,
                updateMappingRows]
              apply find?_proj_pres
              · intro a
                by_cases hc : a.id = m.id <;> simp [hc]
              · intro a
                by_cases hc : a.id = m.id <;> simp [hc]
            · simp only [pushStep, hInv, hMap, hcv, if_neg he, if_neg hval, hupd,
                updateMappingRows, updateInventoryRows]
              apply find?_proj_pres
              · intro a
                by_cases hc : a.id = m.id <;> simp [hc]
              · intro a
                by_cases hc : a.id = m.id <;> simp [hc]

theorem pushStep_map_ids (now : Nat) (st : PushState) (j : InventoryRecord) :
    (pushStep now st j).w.db.mappings.map (fun m => m.id)
      = st.w.db.mappings.map (fun m => m.id) := by
  rcases hInv : st.w.db.inventory.find? (fun r =>
      r.variantId == j.variantId && r.channel == "shopify") with _ | shopItem
  · simp only [pushStep, hInv]
  · rcases hMap : st.w.db.mappings.find? (fun m =>
        m.variantId == j.variantId && m.channel == "shopify") with _ | m
    · simp only [pushStep, hInv, hMap]
    · rcases hcv : m.channelVariantId with _ | cvid
      · simp only [pushStep, hInv, hMap, hcv]
      · by_cases he : cvid = ""
        · simp only [pushStep, hInv, hMap, hcv, if_pos he]
        · by_cases hval : (!(validateVariant st.w.shop cvid)) = true
          · simp only [pushStep, hInv, hMap, hcv, if_neg he, if_pos hval,
              updateMappingRows]
            rw [List.map_map]
            apply List.map_congr_left
            intro a _
            by_cases hc : a.id = m.id <;> simp [hc]
          · rcases hupd : updateProductInventory st.w.shop cvid j.available with e | shop1
            · simp only [pushStep, hInv, hMap, hcv, if_neg he, if_neg hval, hupd,
                updateMappingRows]
              rw [List.map_map]
              apply List.map_congr_left
              intro a _
              by_cases hc : a.id = m.id <;> simp [hc]
            · simp only [pushStep, hInv, hMap, hcv, if_neg he, if_neg hval, hupd,
                updateMappingRows, updateInventoryRows]
              rw [List.map_map]
              apply List.map_congr_left
              intro a _
              by_cases hc : a.id = m.id <;> simp [hc]

theorem pushStep_classify_pres (now : Nat) (st : PushState) (j item : InventoryRecord) :
    pushClassify (pushStep now st j).w item = pushClassify st.w item := by
  exact pushClassify_congr st.w (pushStep now st j).w item
    (pushStep_inv_isSome now st j item.variantId)
    (pushStep_map_proj now st j item.variantId)
    (pushStep_shop_fields now st j).1
    (pushStep_shop_fields now st j).2.1
    (pushStep_shop_fields now st j).2.2

theorem pushStep_counts (now : Nat) (st : PushState) (j : InventoryRecord) :
    (pushStep now st j).syncedToShopify
      = st.syncedToShopify + (if pushClassify st.w j = .push then 1 else 0)
    ∧ (pushStep now st j).failedToShopify
      = st.failedToShopify + (if pushClassify st.w j = .err then 1 else 0)
    ∧ (pushStep now st j).skippedToShopify
      = st.skippedToShopify
        + (if pushClassify st.w j = .skip ∨ pushClassify st.w j = .stale
            then 1 else 0) := by
  rcases hInv : st.w.db.inventory.find? (fun r =>
      r.variantId == j.variantId && r.channel == "shopify") with _ | shopItem
  · have hcl : pushClassify st.w j = .silent := by
      simp only [pushClassify, hInv]
    rw [hcl]
    simp only [pushStep, hInv]
    refine ⟨by simp, by simp, by simp⟩
  · rcases hMap : st.w.db.mappings.find? (fun m =>
        m.variantId == j.variantId && m.channel == "shopify") with _ | m
    · have hcl : pushClassify st.w j = .skip := by
        simp only [pushClassify, hInv, hMap]
      rw [hcl]
      simp only [pushStep, hInv, hMap]
      refine ⟨by simp, by simp, by simp⟩
    · rcases hcv : m.channelVariantId with _ | cvid
      · have hcl : pushClassify st.w j = .skip := by
          simp only [pushClassify, hInv, hMap, hcv]
        rw [hcl]
        simp only [pushStep, hInv, hMap, hcv]
        refine ⟨by simp, by simp, by simp⟩
      · by_cases he : cvid = ""
        · have hcl : pushClassify st.w j = .skip := by
            simp only [pushClassify, hInv, hMap, hcv, if_pos he]
          rw [hcl]
          simp only [pushStep, hInv, hMap, hcv, if_pos he]
          refine ⟨by simp, by simp, by simp⟩
        · by_cases hval : (!(validateVariant st.w.shop cvid)) = true
          · have hcl : pushClassify st.w j = .stale := by
              simp only [pushClassify, hInv, hMap, hcv, if_neg he, if_pos hval]
            rw [hcl]
            simp only [pushStep, hInv, hMap, hcv, if_neg he, if_pos hval]
            refine ⟨by simp, by simp, by simp⟩
          · rcases hupd : updateProductInventory st.w.shop cvid j.available with e | shop1
            · have hcl : pushClassify st.w j = .err := by
                simp only [pushClassify, hInv, hMap, hcv, if_neg he, if_neg hval, hupd]
              rw [hcl]
              simp only [pushStep, hInv, hMap, hcv, if_neg he, if_neg hval, hupd]
              refine ⟨by simp, by simp, by simp⟩
            · have hcl : pushClassify st.w j = .push := by
                simp only [pushClassify, hInv, hMap, hcv, if_neg he, if_neg hval, hupd]
              rw [hcl]
              simp only [pushStep, hInv, hMap, hcv, if_neg he, if_neg hval, hupd]
              refine ⟨by simp, by simp, by simp⟩

theorem if_beq_eq (a b : PushTag) :
    (if (a == b) = true then (1 : Nat) else 0) = if a = b then 1 else 0 := by
  by_cases h : a = b <;> simp [h]

theorem if_beq_or (a : PushTag) :
    (if (a == PushTag.skip || a == PushTag.stale) = true then (1 : Nat) else 0)
      = if a = PushTag.skip ∨ a = PushTag.stale then 1 else 0 := by
  cases a <;> decide

theorem push_fold_counts (now : Nat) (l : List InventoryRecord) :
    ∀ st : PushState,
      (l.foldl (pushStep now) st).syncedToShopify
        = st.syncedToShopify + l.countP (fun j => pushClassify st.w j == .push)
      ∧ (l.foldl (pushStep now) st).failedToShopify
        = st.failedToShopify + l.countP (fun j => pushClassify st.w j == .err)
      ∧ (l.foldl (pushStep now) st).skippedToShopify
        = st.skippedToShopify
          + l.countP (fun j =>
              pushClassify st.w j == .skip || pushClassify st.w j == .stale) := by
  induction l with
  | nil => intro st; refine ⟨by simp, by simp, by simp⟩
  | cons j rest ih =>
    intro st
    have hstep := pushStep_counts now st j
    have hih := ih (pushStep now st j)
    have hc1 : rest.countP (fun x => pushClassify (pushStep now st j).w x == .push)
        = rest.countP (fun x => pushClassify st.w x == .push) := by
      apply List.countP_congr
      intro x _
      rw [pushStep_classify_pres now st j x]
    have hc2 : rest.countP (fun x => pushClassify (pushStep now st j).w x == .err)
        = rest.countP (fun x => pushClassify st.w x == .err) := by
      apply List.countP_congr
      intro x _
      rw [pushStep_classify_pres now st j x]
    have hc3 : rest.countP (fun x =>
          pushClassify (pushStep now st j).w x == .skip
            || pushClassify (pushStep now st j).w x == .stale)
        = rest.countP (fun x =>
          pushClassify st.w x == .skip || pushClassify st.w x == .stale) := by
      apply List.countP_congr
      intro x _
      rw [pushStep_classify_pres now st j x]
    refine ⟨?_, ?_, ?_⟩
    · rw [List.foldl_cons, hih.1, hc1, hstep.1, List.countP_cons, if_beq_eq]
      omega
    · rw [List.foldl_cons, hih.2.1, hc2, hstep.2.1, List.countP_cons, if_beq_eq]
      omega
    · rw [List.foldl_cons, hih.2.2, hc3, hstep.2.2, List.countP_cons, if_beq_or]
      omega

theorem pushStep_pres_status (now : Nat) (st : PushState) (j : InventoryRecord)
    (mid vid : Nat) (target : String)
    (hstat : ∀ q ∈ st.w.db.mappings, q.id = mid →
      q.syncStatus = target ∧ q.variantId = vid)
    (hvj : j.variantId ≠ vid) :
    ∀ q ∈ (pushStep now st j).w.db.mappings, q.id = mid →
      q.syncStatus = target ∧ q.variantId = vid := by
  rcases hInv : st.w.db.inventory.find? (fun r =>
      r.variantId == j.variantId && r.channel == "shopify") with _ | shopItem
  · simp only [pushStep, hInv]
    exact hstat
  · rcases hMap : st.w.db.mappings.find? (fun m =>
        m.variantId == j.variantId && m.channel == "shopify") with _ | m
    · simp only [pushStep, hInv, hMap]
      exact hstat
    · have hfm := List.find?_some hMap
      have hmv : m.variantId = j.variantId := by
        simp at hfm
        exact hfm.1
      have hmem : m ∈ st.w.db.mappings := List.mem_of_find?_eq_some hMap
      rcases hcv : m.channelVariantId with _ | cvid
      · simp only [pushStep, hInv, hMap, hcv]
        exact hstat
      · by_cases he : cvid = ""
        · simp only [pushStep, hInv, hMap, hcv, if_pos he]
          exact hstat
        · by_cases hval : (!(validateVariant st.w.shop cvid)) = true
          · simp only [pushStep, hInv, hMap, hcv, if_neg he, if_pos hval,
              updateMappingRows]
            intro q2 hq2 hq2id
            rcases List.mem_map.mp hq2 with ⟨q, hq, hg⟩
            by_cases hc : q.id = m.id
            · exfalso
              have hqid : q2.id = q.id := by
                rw [← hg]
                simp [hc]
              have h1 : m.id = mid := by rw [← hc, ← hqid]; exact hq2id
              have h2 := (hstat m hmem h1).2
              rw [hmv] at h2
              exact hvj h2
            · have hq2q : q2 = q := by
                rw [← hg]
                simp [hc]
              rw [hq2q] at hq2id ⊢
              exact hstat q hq hq2id
          · rcases hupd : updateProductInventory st.w.shop cvid j.available with e | shop1
            · simp only [pushStep, hInv, hMap, hcv, if_neg he, if_neg hval, hupd,
                updateMappingRows]
              intro q2 hq2 hq2id
              rcases List.mem_map.mp hq2 with ⟨q, hq, hg⟩
              by_cases hc : q.id = m.id
              · exfalso
                have hqid : q2.id = q.id := by
                  rw [← hg]
                  simp [hc]
                have h1 : m.id = mid := by rw [← hc, ← hqid]; exact hq2id
                have h2 := (hstat m hmem h1).2
                rw [hmv] at h2
                exact hvj h2
              · have hq2q : q2 = q := by
                  rw [← hg]
                  simp [hc]
                rw [hq2q] at hq2id ⊢
                exact hstat q hq hq2id
            · simp only [pushStep, hInv, hMap, hcv, if_neg he, if_neg hval, hupd,
                updateMappingRows, updateInventoryRows]
              intro q2 hq2 hq2id
              rcases List.mem_map.mp hq2 with ⟨q, hq, hg⟩
              by_cases hc : q.id = m.id
              · exfalso
                have hqid : q2.id = q.id := by
                  rw [← hg]
                  simp [hc]
                have h1 : m.id = mid := by rw [← hc, ← hqid]; exact hq2id
                have h2 := (hstat m hmem h1).2
                rw [hmv] at h2
                exact hvj h2
              · have hq2q : q2 = q := by
                  rw [← hg]
                  simp [hc]
                rw [hq2q] at hq2id ⊢
                exact hstat q hq hq2id

theorem push_fold_pres (now : Nat) (l : List InventoryRecord) :
    ∀ (st : PushState) (mid vid : Nat) (target : String),
      (∀ j ∈ l, j.variantId ≠ vid) →
      (∀ q ∈ st.w.db.mappings, q.id = mid →
        q.syncStatus = target ∧ q.variantId = vid) →
      ∀ q ∈ (l.foldl (pushStep now) st).w.db.mappings, q.id = mid →
        q.syncStatus = target ∧ q.variantId = vid := by
  induction l with
  | nil => intro st mid vid target _ hstat; exact hstat
  | cons j rest ih =>
    intro st mid vid target hv hstat
    simp only [List.foldl_cons]
    exact ih (pushStep now st j) mid vid target
      (fun x hx => hv x (List.mem_cons_of_mem j hx))
      (pushStep_pres_status now st j mid vid target hstat
        (hv j (List.mem_cons_self j rest)))

theorem pushStep_establishes (now : Nat) (st : PushState) (item : InventoryRecord)
    (m : ChannelMapping)
    (hids : (st.w.db.mappings.map (fun q => q.id)).Nodup)
    (hM : st.w.db.mappings.find? (fun q =>
      q.variantId == item.variantId && q.channel == "shopify") = some m)
    (htag : pushClassify st.w item = .stale ∨ pushClassify st.w item = .err
      ∨ pushClassify st.w item = .push) :
    ∀ q ∈ (pushStep now st item).w.db.mappings, q.id = m.id →
      q.syncStatus = (if pushClassify st.w item = .push then "synced" else "failed")
      ∧ q.variantId = item.variantId := by
  have hmem : m ∈ st.w.db.mappings := List.mem_of_find?_eq_some hM
  have hfm := List.find?_some hM
  have hmv : m.variantId = item.variantId := by
    simp at hfm
    exact hfm.1
  rcases hInv : st.w.db.inventory.find? (fun r =>
      r.variantId == item.variantId && r.channel == "shopify") with _ | shopItem
  · exfalso
    have hcl : pushClassify st.w item = .silent := by
      simp only [pushClassify, hInv]
    rw [hcl] at htag
    rcases htag with h | h | h <;> exact PushTag.noConfusion h
  · rcases hcv : m.channelVariantId with _ | cvid
    · exfalso
      have hcl : pushClassify st.w item = .skip := by
        simp only [pushClassify, hInv, hM, hcv]
      rw [hcl] at htag
      rcases htag with h | h | h <;> exact PushTag.noConfusion h
    · by_cases he : cvid = ""
      · exfalso
        have hcl : pushClassify st.w item = .skip := by
          simp only [pushClassify, hInv, hM, hcv, if_pos he]
        rw [hcl] at htag
        rcases htag with h | h | h <;> exact PushTag.noConfusion h
      · by_cases hval : (!(validateVariant st.w.shop cvid)) = true
        · have hcl : pushClassify st.w item = .stale := by
            simp only [pushClassify, hInv, hM, hcv, if_neg he, if_pos hval]
          rw [hcl]
          have hfix : (if PushTag.stale = PushTag.push then "synced" else "failed")
              = "failed" := by decide
          rw [hfix]
          simp only [pushStep, hInv, hM, hcv, if_neg he, if_pos hval,
            updateMappingRows]
          intro q2 hq2 hq2id
          rcases List.mem_map.mp hq2 with ⟨q, hq, hg⟩
          by_cases hc : q.id = m.id
          · have hq2eq : q2 = { q with syncStatus := "failed", lastSyncAt := now } := by
              rw [← hg]
              simp [hc]
            have hqm : q = m := List.inj_on_of_nodup_map hids hq hmem hc
            rw [hq2eq, hqm]
            exact ⟨rfl, hmv⟩
          · exfalso
            have hq2q : q2 = q := by
              rw [← hg]
              simp [hc]
            rw [hq2q] at hq2id
            exact hc hq2id
        · rcases hupd : updateProductInventory st.w.shop cvid item.available with e | shop1
          · have hcl : pushClassify st.w item = .err := by
              simp only [pushClassify, hInv, hM, hcv, if_neg he, if_neg hval, hupd]
            rw [hcl]
            have hfix : (if PushTag.err = PushTag.push then "synced" else "failed")
                = "failed" := by decide
            rw [hfix]
            simp only [pushStep, hInv, hM, hcv, if_neg he, if_neg hval, hupd,
              updateMappingRows]
            intro q2 hq2 hq2id
            rcases List.mem_map.mp hq2 with ⟨q, hq, hg⟩
            by_cases hc : q.id = m.id
            · have hq2eq : q2 = { q with syncStatus := "failed", lastSyncAt := now } := by
                rw [← hg]
                simp [hc]
              have hqm : q = m := List.inj_on_of_nodup_map hids hq hmem hc
              rw [hq2eq, hqm]
              exact ⟨rfl, hmv⟩
            · exfalso
              have hq2q : q2 = q := by
                rw [← hg]
                simp [hc]
              rw [hq2q] at hq2id
              exact hc hq2id
          · have hcl : pushClassify st.w item = .push := by
              simp only [pushClassify, hInv, hM, hcv, if_neg he, if_neg hval, hupd]
            rw [hcl]
            have hfix : (if PushTag.push = PushTag.push then "synced" else "failed")
                = "synced" := by decide
            rw [hfix]
            simp only [pushStep, hInv, hM, hcv, if_neg he, if_neg hval, hupd,
              updateMappingRows, updateInventoryRows]
            intro q2 hq2 hq2id
            rcases List.mem_map.mp hq2 with ⟨q, hq, hg⟩
            by_cases hc : q.id = m.id
            · have hq2eq : q2 = { q with syncStatus := "synced", lastSyncAt := now } := by
                rw [← hg]
                simp [hc]
              have hqm : q = m := List.inj_on_of_nodup_map hids hq hmem hc
              rw [hq2eq, hqm]
              exact ⟨rfl, hmv⟩
            · exfalso
              have hq2q : q2 = q := by
                rw [← hg]
                simp [hc]
              rw [hq2q] at hq2id
              exact hc hq2id

theorem push_fold_status (now : Nat) (l : List InventoryRecord) :
    ∀ (st : PushState) (item : InventoryRecord) (m : ChannelMapping),
      item ∈ l →
      (l.map (fun r => r.variantId)).Nodup →
      (st.w.db.mappings.map (fun q => q.id)).Nodup →
      st.w.db.mappings.find? (fun q =>
        q.variantId == item.variantId && q.channel == "shopify") = some m →
      (pushClassify st.w item = .stale ∨ pushClassify st.w item = .err
        ∨ pushClassify st.w item = .push) →
      ∀ q ∈ (l.foldl (pushStep now) st).w.db.mappings, q.id = m.id →
        q.syncStatus
          = (if pushClassify st.w item = .push then "synced" else "failed") := by
  induction l with
  | nil => intro _ _ _ h; simp at h
  | cons j rest ih =>
    intro st item m hitem hnd hids hM htag
    rcases List.mem_cons.mp hitem with hj | hitem2
    · subst hj
      simp only [List.foldl_cons]
      intro q hq hqid
      have hest := pushStep_establishes now st item m hids hM htag
      have hrest : ∀ x ∈ rest, x.variantId ≠ item.variantId := by
        intro x hx hcontra
        have hnd3 : (item.variantId :: rest.map (fun r => r.variantId)).Nodup := by
          rw [← List.map_cons]
          exact hnd
        exact (List.nodup_cons.mp hnd3).1
          (by rw [← hcontra]; exact List.mem_map_of_mem _ hx)
      exact (push_fold_pres now rest (pushStep now st item) m.id item.variantId _
        hrest hest q hq hqid).1
    · simp only [List.foldl_cons]
      have hproj := pushStep_map_proj now st j item.variantId
      rw [hM] at hproj
      rcases hM2 : (pushStep now st j).w.db.mappings.find? (fun q =>
          q.variantId == item.variantId && q.channel == "shopify") with _ | m2
      · rw [hM2] at hproj
        simp at hproj
      · rw [hM2] at hproj
        injection hproj with hproj
        have hid2 : m2.id = m.id := by
          have h6 := congrArg (fun t : Nat × Nat × Option String => t.1) hproj
          simpa using h6
        have hids2 : ((pushStep now st j).w.db.mappings.map (fun q => q.id)).Nodup := by
          rw [pushStep_map_ids]
          exact hids
        have hnd3 : (j.variantId :: rest.map (fun r => r.variantId)).Nodup := by
          rw [← List.map_cons]
          exact hnd
        have hnd2 : (rest.map (fun r => r.variantId)).Nodup :=
          (List.nodup_cons.mp hnd3).2
        have hcl2 : pushClassify (pushStep now st j).w item = pushClassify st.w item :=
          pushStep_classify_pres now st j item
        intro q hq hqid
        have hres := ih (pushStep now st j) item m2 hitem2 hnd2 hids2 hM2
          (by rw [hcl2]; exact htag) q hq (by rw [hqid, ← hid2])
        rw [hcl2] at hres
        exact hres

theorem pull_fold_mappings (now : Nat) (l : List InventoryRecord) :
    ∀ acc : Nat × DB, (l.foldl (pullStep now) acc).2.mappings = acc.2.mappings := by
  induction l with
  | nil => intro acc; rfl
  | cons j rest ih =>
    intro acc
    simp only [List.foldl_cons]
    rcases hf : acc.2.inventory.find? (fun r =>
        r.variantId == j.variantId && r.channel == "internal") with _ | it
    · rw [ih]
      simp only [pullStep, hf]
    · rw [ih]
      simp only [pullStep, hf, updateInventoryRows_mappings]

theorem pushWorld_mappings (w : World) (now : Nat) :
    (pushWorld w now).db.mappings = w.db.mappings := by
  show (bidirPulled w now).2.mappings = w.db.mappings
  unfold bidirPulled
  rw [pull_fold_mappings]
  exact (ensure_tables w.db now).2.2.1

theorem classify_err_initialized (w : World) (item : InventoryRecord)
    (h : pushClassify w item = .err) : w.shop.initialized = true := by
  by_cases hi : w.shop.initialized = true
  · exact hi
  · exfalso
    have hif : w.shop.initialized = false := by
      cases hx : w.shop.initialized
      · rfl
      · exact absurd hx hi
    simp only [pushClassify] at h
    rcases hI : w.db.inventory.find? (fun r =>
        r.variantId == item.variantId && r.channel == "shopify") with _ | r <;>
      simp only [hI] at h
    · exact PushTag.noConfusion h
    · rcases hM : w.db.mappings.find? (fun m =>
          m.variantId == item.variantId && m.channel == "shopify") with _ | m <;>
        simp only [hM] at h
      · exact PushTag.noConfusion h
      · rcases hcv : m.channelVariantId with _ | cvid <;> simp only [hcv] at h
        · exact PushTag.noConfusion h
        · have hval : validateVariant w.shop cvid = false := by
            simp [validateVariant, hif]
          by_cases he : cvid = ""
          · rw [if_pos he] at h
            exact PushTag.noConfusion h
          · rw [if_neg he] at h
            rw [hval] at h
            simp at h

/-- C4: in a bidirectional sync whose push phase meets an item whose remote
existence check fails (a stale `channelVariantId`), that item's
ChannelMapping ends with `syncStatus = "failed"` and the item is tallied
under `skippedToShopify` (the skipped tally counts exactly the skip- and
stale-classified items, the failed tally only the items whose remote write
threw); the call returns a result with `success = true` (no exception
escapes), and every item whose remote variant exists and whose remote write
succeeds ends with its mapping `synced`.  The hypotheses ask for unique
mapping row ids and unique snapshot variant ids, which every reachable
catalog satisfies. -/
theorem c4_bidirectional_stale_mapping
    (w : World) (now : Nat) (item : InventoryRecord) (m : ChannelMapping)
    (hids : (w.db.mappings.map (fun q => q.id)).Nodup)
    (hnd : ((pushSnapshot w now).map (fun r => r.variantId)).Nodup)
    (hitem : item ∈ pushSnapshot w now)
    (hM : w.db.mappings.find? (fun q =>
      q.variantId == item.variantId && q.channel == "shopify") = some m)
    (hstale : pushClassify (pushWorld w now) item = .stale) :
    (∀ q ∈ (syncInventoryAcrossChannels w now).2.db.mappings,
      q.id = m.id → q.syncStatus = "failed") ∧
    ((syncInventoryAcrossChannels w now).1.skippedToShopify
      = (pushSnapshot w now).countP (fun j =>
          pushClassify (pushWorld w now) j == .skip
            || pushClassify (pushWorld w now) j == .stale)) ∧
    (1 ≤ (syncInventoryAcrossChannels w now).1.skippedToShopify) ∧
    ((syncInventoryAcrossChannels w now).1.failedToShopify
      = (pushSnapshot w now).countP (fun j =>
          pushClassify (pushWorld w now) j == .err)) ∧
    ((syncInventoryAcrossChannels w now).1.syncedToShopify
      = (pushSnapshot w now).countP (fun j =>
          pushClassify (pushWorld w now) j == .push)) ∧
    ((syncInventoryAcrossChannels w now).1.success = true) ∧
    (∀ (item2 : InventoryRecord) (m2 : ChannelMapping),
      item2 ∈ pushSnapshot w now →
      w.db.mappings.find? (fun q =>
        q.variantId == item2.variantId && q.channel == "shopify") = some m2 →
      pushClassify (pushWorld w now) item2 = .push →
      ∀ q ∈ (syncInventoryAcrossChannels w now).2.db.mappings,
        q.id = m2.id → q.syncStatus = "synced") := by
  have hmapeq : ({ w := pushWorld w now } : PushState).w.db.mappings
      = w.db.mappings := pushWorld_mappings w now
  have hids0 : (({ w := pushWorld w now } : PushState).w.db.mappings.map
      (fun q => q.id)).Nodup := by
    rw [hmapeq]
    exact hids
  have hfinal : (syncInventoryAcrossChannels w now).2.db.mappings
      = ((pushSnapshot w now).foldl (pushStep now)
          { w := pushWorld w now }).w.db.mappings := rfl
  have hcounts := push_fold_counts now (pushSnapshot w now) { w := pushWorld w now }
  have hskipc : (syncInventoryAcrossChannels w now).1.skippedToShopify
      = (pushSnapshot w now).countP (fun j =>
          pushClassify (pushWorld w now) j == .skip
            || pushClassify (pushWorld w now) j == .stale) := by
    rw [show (syncInventoryAcrossChannels w now).1.skippedToShopify
        = ((pushSnapshot w now).foldl (pushStep now)
            { w := pushWorld w now }).skippedToShopify from rfl, hcounts.2.2]
    show 0 + _ = _
    rw [Nat.zero_add]
  refine ⟨?_, hskipc, ?_, ?_, ?_, rfl, ?_⟩
  · -- the stale mapping ends failed
    have hM0 : ({ w := pushWorld w now } : PushState).w.db.mappings.find?
        (fun q => q.variantId == item.variantId && q.channel == "shopify") = some m := by
      rw [hmapeq]
      exact hM
    have hfold := push_fold_status now (pushSnapshot w now)
      { w := pushWorld w now } item m hitem hnd hids0 hM0 (Or.inl hstale)
    have hfold2 : ∀ q ∈ ((pushSnapshot w now).foldl (pushStep now)
        { w := pushWorld w now }).w.db.mappings, q.id = m.id →
        q.syncStatus = (if pushClassify (pushWorld w now) item = PushTag.push
          then "synced" else "failed") := hfold
    rw [hstale] at hfold2
    have hfix : (if PushTag.stale = PushTag.push then "synced" else "failed")
        = "failed" := by decide
    rw [hfix] at hfold2
    intro q hq
    rw [hfinal] at hq
    exact hfold2 q hq
  · rw [hskipc]
    exact List.countP_pos_iff.mpr ⟨item, hitem, by rw [hstale]; rfl⟩
  · rw [show (syncInventoryAcrossChannels w now).1.failedToShopify
        = ((pushSnapshot w now).foldl (pushStep now)
            { w := pushWorld w now }).failedToShopify from rfl, hcounts.2.1]
    show 0 + _ = _
    rw [Nat.zero_add]
  · rw [show (syncInventoryAcrossChannels w now).1.syncedToShopify
        = ((pushSnapshot w now).foldl (pushStep now)
            { w := pushWorld w now }).syncedToShopify from rfl, hcounts.1]
    show 0 + _ = _
    rw [Nat.zero_add]
  · intro item2 m2 hitem2 hM2 hpush2
    have hM20 : ({ w := pushWorld w now } : PushState).w.db.mappings.find?
        (fun q => q.variantId == item2.variantId && q.channel == "shopify")
        = some m2 := by
      rw [hmapeq]
      exact hM2
    have hfold := push_fold_status now (pushSnapshot w now)
      { w := pushWorld w now } item2 m2 hitem2 hnd hids0 hM20
      (Or.inr (Or.inr hpush2))
    have hfold2 : ∀ q ∈ ((pushSnapshot w now).foldl (pushStep now)
        { w := pushWorld w now }).w.db.mappings, q.id = m2.id →
        q.syncStatus = (if pushClassify (pushWorld w now) item2 = PushTag.push
          then "synced" else "failed") := hfold
    rw [hpush2] at hfold2
    have hfix : (if PushTag.push = PushTag.push then "synced" else "failed")
        = "synced" := by decide
    rw [hfix] at hfold2
    intro q hq
    rw [hfinal] at hq
    exact hfold2 q hq

/-- Witness for C4 at Scenario B's world: variant 20 is mapped to the
externally deleted remote variant 999, its mapping 41 ends `failed`, and the
skipped tally is positive. -/
theorem c4_bidirectional_stale_mapping_witness :
    (∀ q ∈ (syncInventoryAcrossChannels exBidirWorld 7).2.db.mappings,
      q.id = 41 → q.syncStatus = "failed")
    ∧ 1 ≤ (syncInventoryAcrossChannels exBidirWorld 7).1.skippedToShopify :=
  ⟨(c4_bidirectional_stale_mapping exBidirWorld 7
      { id := 33, variantId := 20, channel := "internal", quantity := 1
        available := 1, reserved := 0, lastSyncAt := 7 }
      { id := 41, productId := 1, variantId := 20, channel := "shopify"
        channelProductId := some "100", channelVariantId := some "999"
        syncStatus := "synced", lastSyncAt := 0 }
      (by decide) (by decide) (by decide) (by decide) (by decide)).1,
   (c4_bidirectional_stale_mapping exBidirWorld 7
      { id := 33, variantId := 20, channel := "internal", quantity := 1
        available := 1, reserved := 0, lastSyncAt := 7 }
      { id := 41, productId := 1, variantId := 20, channel := "shopify"
        channelProductId := some "100", channelVariantId := some "999"
        syncStatus := "synced", lastSyncAt := 0 }
      (by decide) (by decide) (by decide) (by decide) (by decide)).2.2.1⟩

theorem classify_uninit (w : World) (item : InventoryRecord)
    (hif : w.shop.initialized = false) :
    pushClassify w item = .silent ∨ pushClassify w item = .skip
      ∨ pushClassify w item = .stale := by
  rcases hI : w.db.inventory.find? (fun r =>
      r.variantId == item.variantId && r.channel == "shopify") with _ | r
  · left
    simp only [pushClassify, hI]
  · rcases hM : w.db.mappings.find? (fun m =>
        m.variantId == item.variantId && m.channel == "shopify") with _ | m
    · right; left
      simp only [pushClassify, hI, hM]
    · rcases hcv : m.channelVariantId with _ | cvid
      · right; left
        simp only [pushClassify, hI, hM, hcv]
      · by_cases he : cvid = ""
        · right; left
          simp only [pushClassify, hI, hM, hcv, if_pos he]
        · right; right
          have hval : validateVariant w.shop cvid = false := by
            simp [validateVariant, hif]
          simp only [pushClassify, hI, hM, hcv, if_neg he, hval]
          rfl

/-- C10: `validateVariant` answers `false` on every thrown error — the
uninitialized-client throw of `checkShopifyInitialized` as much as a missing
remote variant — and consequently the push phase of the bidirectional sync
counts every error of the existence check as skipped: with an uninitialized
client `failedToShopify` is 0 in every run, and in the concrete run against
`exBidirWorldOff` both mapped variants are marked `failed` and tallied under
`skippedToShopify`, with no exception surfacing. -/
theorem c10_validate_variant_false_on_error :
    (∀ (s : ShopifyStore) (vid : String), s.initialized = false →
      validateVariant s vid = false) ∧
    (∀ (s : ShopifyStore) (vid : String),
      findRemoteVariantByIdStr s vid = none → validateVariant s vid = false) ∧
    (∀ (w : World) (now : Nat), w.shop.initialized = false →
      (syncInventoryAcrossChannels w now).1.failedToShopify = 0) ∧
    ((syncInventoryAcrossChannels exBidirWorldOff 7).1.syncedToShopify = 0
      ∧ (syncInventoryAcrossChannels exBidirWorldOff 7).1.failedToShopify = 0
      ∧ (syncInventoryAcrossChannels exBidirWorldOff 7).1.skippedToShopify = 2
      ∧ (syncInventoryAcrossChannels exBidirWorldOff 7).1.success = true) ∧
    ((syncInventoryAcrossChannels exBidirWorldOff 7).2.db.mappings.map
      (fun q => (q.id, q.syncStatus)) = [(40, "failed"), (41, "failed")]) := by
  refine ⟨?_, ?_, ?_, by refine ⟨by decide, by decide, by decide, rfl⟩, by decide⟩
  · intro s vid h
    simp [validateVariant, h]
  · intro s vid h
    simp [validateVariant, h]
  · intro w2 now hinit
    have hc := (push_fold_counts now (pushSnapshot w2 now)
      { w := pushWorld w2 now }).2.1
    have hz : (pushSnapshot w2 now).countP
        (fun j => pushClassify ({ w := pushWorld w2 now } : PushState).w j
          == PushTag.err) = 0 := by
      rw [List.countP_eq_zero]
      intro j hj hcon
      have heq : pushClassify (pushWorld w2 now) j = PushTag.err := by
        simpa using hcon
      have h3 := classify_uninit (pushWorld w2 now) j hinit
      rcases h3 with h3 | h3 | h3 <;> rw [h3] at heq <;> exact PushTag.noConfusion heq
    rw [show (syncInventoryAcrossChannels w2 now).1.failedToShopify
        = ((pushSnapshot w2 now).foldl (pushStep now)
            { w := pushWorld w2 now }).failedToShopify from rfl, hc, hz]

/-- Witness for C10: an uninitialized client makes `validateVariant` answer
`false`, and the bidirectional sync against it reports no failed pushes. -/
theorem c10_validate_variant_false_on_error_witness :
    validateVariant exShopOff "999" = false
    ∧ (syncInventoryAcrossChannels exBidirWorldOff 7).1.failedToShopify = 0 :=
  ⟨c10_validate_variant_false_on_error.1 exShopOff "999" rfl,
   c10_validate_variant_false_on_error.2.2.1 exBidirWorldOff 7 rfl⟩
